import Mathlib

/-!
# Session storage: the in-memory provider

A shallow embedding of `provider/memory/memory.go` (package `memory`).

Modelling conventions.

* A Go `map[K]V` is an association list with `mget` (lookup, the `v, ok := m[k]`
  form), `mset` (`m[k] = v`) and `mdel` (`delete(m, k)`).  Keys are unique after
  every `mset`; no order of iteration is ever observed by the embedded code.
* `interface{}` keys and values range over `GoValue`, a closed set of comparable
  dynamic values that contains Go's `nil`.
* Pointers are addresses into `ProviderMem.heap`.  `list.PushFront` allocates one
  `list.Element` together with the `*SessionStoreMem` it carries, so one address
  names both; a `store.Store` handle returned to a caller is that address.
  Records of unlinked elements stay in the heap, as they do in Go while a handle
  is outstanding.
* `container/list` is the sequence of its element addresses, front first.
* `time.Time` is a count of nanoseconds since the Unix epoch, `Unix` is the
  method `Time.Unix()`, and every `time.Now()` of a call is the parameter `now`.
* `int64` addition wraps (`wrapInt64`).
* The locks are not modelled: every call runs atomically.  A call that starts
  `go pdr.SessionUpdate(sid)` reports the `sid` in `Ret.spawned`; the spawned call
  is the separate operation `SessionUpdate`, run at any later point.
* Where a method gives up `pdr.lock` and takes it again (`SessionGC`,
  `SessionRegenerate`), the section on lock regions has one function for each
  stretch of code that runs under one hold of the lock; calls of other goroutines
  can run between two of them.
-/

namespace Memory

/-! ## Go maps -/

/-- Lookup `m[k]` with the comma-ok form: the first binding of `k`. -/
def mget {κ ν : Type} [DecidableEq κ] : List (κ × ν) → κ → Option ν
  | [], _ => none
  | (k', v) :: rest, k => if k' = k then some v else mget rest k

/-- The builtin `delete(m, k)`. -/
def mdel {κ ν : Type} [DecidableEq κ] (m : List (κ × ν)) (k : κ) : List (κ × ν) :=
  m.filter (fun p => decide (p.1 ≠ k))

/-- The assignment `m[k] = v`. -/
def mset {κ ν : Type} [DecidableEq κ] (m : List (κ × ν)) (k : κ) (v : ν) : List (κ × ν) :=
  (k, v) :: mdel m k

/-- Dynamic values stored behind `interface{}`; `nil` is the nil interface. -/
inductive GoValue where
  | nil : GoValue
  | str (s : String) : GoValue
  | int (i : Int) : GoValue
  | bool (b : Bool) : GoValue
deriving DecidableEq, Repr

/-- A Go `error`: `none` is `nil`, `some msg` an error with that message. -/
abbrev GoError := Option String

/-- A Go result pair `(store.Store, error)` is an `Except`: `.ok h` is `(h, nil)`,
`.error msg` is `(nil, err)`. -/
abbrev StoreResult := Except String Nat

deriving instance DecidableEq for Except

/-! ## Time and machine integers -/

/-- Method `Time.Unix()`: whole seconds since the epoch (rounded down). -/
def Unix (t : Int) : Int := t / 1000000000

/-- Two's-complement wrap-around of an `int64` result. -/
def wrapInt64 (x : Int) : Int := (x + 2 ^ 63) % 2 ^ 64 - 2 ^ 63

/-! ## SessionStoreMem -/

/-- The struct `SessionStoreMem` (its `lock` is not modelled). -/
structure SessionStoreMem where
  sid : String
  timeAccessed : Int
  values : List (GoValue × GoValue)
deriving DecidableEq, Repr

namespace SessionStoreMem

/-- Method `Set`: `st.values[key] = value; return nil`. -/
def Set (st : SessionStoreMem) (key value : GoValue) : SessionStoreMem × GoError :=
  ({ st with values := mset st.values key value }, none)

/-- Method `Get`: the stored value when the key is present, else `nil`. -/
def Get (st : SessionStoreMem) (key : GoValue) : GoValue :=
  match mget st.values key with
  | some v => v
  | none => GoValue.nil

/-- Method `Delete`: `delete(st.values, key); return nil`. -/
def Delete (st : SessionStoreMem) (key : GoValue) : SessionStoreMem × GoError :=
  ({ st with values := mdel st.values key }, none)

/-- Method `Flush`: `st.values = make(map...); return nil`. -/
def Flush (st : SessionStoreMem) : SessionStoreMem × GoError :=
  ({ st with values := [] }, none)

/-- Method `SessionID`. -/
def SessionID (st : SessionStoreMem) : String := st.sid

/-- Method `SessionRelease`: the empty body. -/
def SessionRelease (st : SessionStoreMem) : SessionStoreMem := st

end SessionStoreMem

/-! ## container/list -/

/-- The element returned by `l.Back()`, `none` for Go's `nil`. -/
def Back (l : List Nat) : Option Nat := l.getLast?

/-- Method `l.Remove(e)`: unlink element `e`. -/
def Remove (l : List Nat) (e : Nat) : List Nat := l.erase e

/-- Method `l.MoveToFront(e)`: no change when `e` is not an element of `l`. -/
def MoveToFront (l : List Nat) (e : Nat) : List Nat :=
  if e ∈ l then e :: l.erase e else l

/-! ## ProviderMem -/

/-- The struct `ProviderMem` (its `lock` is not modelled) with the heap of the
records its list elements carry. -/
structure ProviderMem where
  sessions : List (String × Nat)
  list : List Nat
  heap : List SessionStoreMem
  lifetime : Int
  savePath : String
deriving DecidableEq, Repr

/-- Outcome of a provider call: the returned value, the provider afterwards and
the argument of the `go pdr.SessionUpdate(..)` the call started, if any. -/
structure Ret (α : Type) where
  val : α
  st : ProviderMem
  spawned : Option String
deriving DecidableEq, Repr

/-- Function `NewProvider`. -/
def NewProvider : ProviderMem :=
  { sessions := [], list := [], heap := [], lifetime := 0, savePath := "" }

/-- Method `SessionInit`. -/
def SessionInit (pdr : ProviderMem) (lifetime : Int) (savePath : String) :
    ProviderMem × GoError :=
  ({ pdr with lifetime := lifetime, savePath := savePath }, none)

/-- Method `pdr.list.PushFront(v)` with the allocation of `v`: the new element
has the next free address. -/
def PushFront (pdr : ProviderMem) (v : SessionStoreMem) : ProviderMem × Nat :=
  ({ pdr with heap := pdr.heap ++ [v], list := pdr.heap.length :: pdr.list },
    pdr.heap.length)

/-- Method `SessionNew`. -/
def SessionNew (pdr : ProviderMem) (sid : String) (now : Int) :
    Ret StoreResult :=
  match mget pdr.sessions sid with
  | some element => { val := .ok element, st := pdr, spawned := some sid }
  | none =>
    let newSess : SessionStoreMem := { sid := sid, timeAccessed := now, values := [] }
    let pe := PushFront pdr newSess
    { val := .ok pe.2,
      st := { pe.1 with sessions := mset pe.1.sessions sid pe.2 },
      spawned := none }

/-- Method `SessionRead`. -/
def SessionRead (pdr : ProviderMem) (sid : String) : Ret StoreResult :=
  match mget pdr.sessions sid with
  | some element => { val := .ok element, st := pdr, spawned := some sid }
  | none => { val := .error "the sid's session not found", st := pdr, spawned := none }

/-- Method `SessionExist`. -/
def SessionExist (pdr : ProviderMem) (sid : String) : Bool :=
  match mget pdr.sessions sid with
  | some _ => true
  | none => false

/-- Method `SessionRegenerate`. -/
def SessionRegenerate (pdr : ProviderMem) (oldSid sid : String) (now : Int) :
    Ret StoreResult :=
  match mget pdr.sessions oldSid with
  | some element =>
    let heap1 := pdr.heap.modify (fun r => { r with sid := sid }) element
    let sessions1 := mset pdr.sessions sid element
    let sessions2 := if oldSid ≠ sid then mdel sessions1 oldSid else sessions1
    { val := .ok element,
      st := { pdr with heap := heap1, sessions := sessions2 },
      spawned := some oldSid }
  | none =>
    let newSess : SessionStoreMem := { sid := sid, timeAccessed := now, values := [] }
    let pe := PushFront pdr newSess
    { val := .ok pe.2,
      st := { pe.1 with sessions := mset pe.1.sessions sid pe.2 },
      spawned := none }

/-- Method `SessionDestroy`. -/
def SessionDestroy (pdr : ProviderMem) (sid : String) : ProviderMem × GoError :=
  match mget pdr.sessions sid with
  | some element =>
    ({ pdr with sessions := mdel pdr.sessions sid, list := Remove pdr.list element }, none)
  | none => (pdr, none)

/-- The test of `SessionGC`:
`timeAccessed.Unix() + pdr.lifetime < time.Now().Unix()`. -/
def expired (lifetime now : Int) (r : SessionStoreMem) : Bool :=
  decide (wrapInt64 (Unix r.timeAccessed + lifetime) < Unix now)

/-- The `for` loop of `SessionGC`, one iteration per unit of fuel.  An element
without a record does not occur (`PushFront` always stores one); the loop is
modelled as stopping there. -/
def gcLoop : Nat → Int → ProviderMem → ProviderMem
  | 0, _, pdr => pdr
  | fuel + 1, now, pdr =>
    match Back pdr.list with
    | none => pdr
    | some element =>
      match pdr.heap[element]? with
      | none => pdr
      | some r =>
        if expired pdr.lifetime now r then
          gcLoop fuel now
            { pdr with list := Remove pdr.list element, sessions := mdel pdr.sessions r.sid }
        else pdr

/-- Method `SessionGC`.  Every iteration that continues unlinks one element, so
the loop runs at most `len(list)` times (`gcLoop_exit` below shows that this much
fuel always reaches a `break`). -/
def SessionGC (pdr : ProviderMem) (now : Int) : ProviderMem :=
  gcLoop pdr.list.length now pdr

/-- The loop of `SessionGC` is at a `break`: the list is empty or its back
element is not expired. -/
def gcDone (pdr : ProviderMem) (now : Int) : Bool :=
  match Back pdr.list with
  | none => true
  | some element =>
    match pdr.heap[element]? with
    | none => true
    | some r => !expired pdr.lifetime now r

/-- Method `SessionAll`: the keys of the index. -/
def SessionAll (pdr : ProviderMem) : List String × GoError :=
  (pdr.sessions.map Prod.fst, none)

/-- Method `SessionUpdate`. -/
def SessionUpdate (pdr : ProviderMem) (sid : String) (now : Int) : ProviderMem :=
  match mget pdr.sessions sid with
  | some element =>
    { pdr with
      heap := pdr.heap.modify (fun r => { r with timeAccessed := now }) element,
      list := MoveToFront pdr.list element }
  | none => pdr

/-! ## Store handles

A `store.Store` returned by the provider is a pointer; its methods act on the
record at that address. -/

/-- The record behind a handle. -/
def deref (pdr : ProviderMem) (h : Nat) : Option SessionStoreMem := pdr.heap[h]?

/-- Calling `Set(key, value)` through handle `h`. -/
def storeSet (pdr : ProviderMem) (h : Nat) (key value : GoValue) : ProviderMem :=
  { pdr with heap := pdr.heap.modify (fun r => (r.Set key value).1) h }

/-! ## The index and the list -/

/-- The index and the recency list are in bijection: every index entry `sid` maps
to a list node whose record has that `sid`, every list node is the target of
exactly one index entry, and no two list nodes carry the same session id. -/
def Bijection (pdr : ProviderMem) : Prop :=
  (∀ sid e, mget pdr.sessions sid = some e →
    e ∈ pdr.list ∧ ∃ r, deref pdr e = some r ∧ r.sid = sid) ∧
  (∀ e, e ∈ pdr.list → ∃! sid, mget pdr.sessions sid = some e) ∧
  (∀ e₁ e₂ r₁ r₂, e₁ ∈ pdr.list → e₂ ∈ pdr.list → deref pdr e₁ = some r₁ →
    deref pdr e₂ = some r₂ → r₁.sid = r₂.sid → e₁ = e₂)

/-- The `timeAccessed` fields along the recency list, front first. -/
def recencyTimes (pdr : ProviderMem) : List Int :=
  pdr.list.filterMap (fun e => (pdr.heap[e]?).map (fun r => r.timeAccessed))

/-- The recency list is ordered most-recent-at-head. -/
def Ordered (pdr : ProviderMem) : Prop :=
  (recencyTimes pdr).Pairwise (fun t u => u ≤ t)

/-! ## Calls as data -/

/-- One call on the provider; every `time.Now()` it performs reads `now`. -/
inductive Call where
  | new (sid : String) (now : Int)
  | read (sid : String)
  | update (sid : String) (now : Int)
  | regenerate (oldSid sid : String) (now : Int)
  | destroy (sid : String)
  | gc (now : Int)
deriving DecidableEq, Repr

/-- The provider after one call. -/
def step (pdr : ProviderMem) : Call → ProviderMem
  | .new sid now => (SessionNew pdr sid now).st
  | .read sid => (SessionRead pdr sid).st
  | .update sid now => SessionUpdate pdr sid now
  | .regenerate oldSid sid now => (SessionRegenerate pdr oldSid sid now).st
  | .destroy sid => (SessionDestroy pdr sid).1
  | .gc now => SessionGC pdr now

/-- The provider after a sequence of calls, first call first. -/
def run (pdr : ProviderMem) (cs : List Call) : ProviderMem := cs.foldl step pdr

/-! ## Well-formed providers -/

/-- What every call keeps: the list has distinct elements, each carrying an
allocated record, and every index entry `sid` points at a list element whose
record has that `sid`. -/
def WF (pdr : ProviderMem) : Prop :=
  pdr.list.Nodup ∧
  (∀ e, e ∈ pdr.list → e < pdr.heap.length) ∧
  (∀ sid e, mget pdr.sessions sid = some e →
    e ∈ pdr.list ∧ ∃ r, pdr.heap[e]? = some r ∧ r.sid = sid)

/-- Every list element is indexed under the id of its record. -/
def Listed (pdr : ProviderMem) : Prop :=
  ∀ e, e ∈ pdr.list → ∃ r, pdr.heap[e]? = some r ∧ mget pdr.sessions r.sid = some e

/-- The data-structure invariant the provider is built around. -/
def Inv (pdr : ProviderMem) : Prop := WF pdr ∧ Listed pdr

/-- A call that can leave two list nodes with one id: a `SessionRegenerate` whose
new id is resident and is not the old id. -/
def Call.collides (pdr : ProviderMem) : Call → Bool
  | .regenerate oldSid sid _ => SessionExist pdr sid && decide (oldSid ≠ sid)
  | _ => false

/-- No call of the sequence, run from `pdr`, is a `SessionRegenerate` onto a
resident, different id. -/
def collisionFree (pdr : ProviderMem) : List Call → Bool
  | [] => true
  | c :: cs => !c.collides pdr && collisionFree (step pdr c) cs

/-- No sum `timeAccessed.Unix() + pdr.lifetime` of `SessionGC` overflows `int64`
on the records of the list. -/
def NoOverflow (pdr : ProviderMem) : Prop :=
  ∀ e r, e ∈ pdr.list → pdr.heap[e]? = some r →
    -(2 ^ 63) ≤ Unix r.timeAccessed + pdr.lifetime ∧ Unix r.timeAccessed + pdr.lifetime < 2 ^ 63

/-- The test of `SessionGC` on the record of element `e`. -/
def expiredAt (pdr : ProviderMem) (now : Int) (e : Nat) : Bool :=
  match pdr.heap[e]? with
  | some r => expired pdr.lifetime now r
  | none => false

/-! ## Lock regions

`SessionGC` tests the back element under the read lock, releases it, and removes
the element under the write lock; `SessionRegenerate` looks `oldSid` up under the
read lock and relabels the element under the write lock. -/

/-- The read-locked test of one iteration of `SessionGC`: the back element when
its record is expired, `none` when the loop is at a `break`. -/
def gcCheck (pdr : ProviderMem) (now : Int) : Option Nat :=
  match Back pdr.list with
  | none => none
  | some element =>
    match pdr.heap[element]? with
    | none => none
    | some r => if expired pdr.lifetime now r then some element else none

/-- The write-locked removal of one iteration of `SessionGC`, on the element the
test found: `pdr.list.Remove(element)`, then
`delete(pdr.sessions, element.Value.(*SessionStoreMem).sid)`. -/
def gcEvict (pdr : ProviderMem) (element : Nat) : ProviderMem :=
  match pdr.heap[element]? with
  | none => pdr
  | some r => { pdr with list := Remove pdr.list element, sessions := mdel pdr.sessions r.sid }

/-- The read-locked lookup of `SessionRegenerate`: `pdr.sessions[oldSid]`. -/
def regenerateLookup (pdr : ProviderMem) (oldSid : String) : Option Nat :=
  mget pdr.sessions oldSid

/-- The write-locked relabelling of `SessionRegenerate`, on the element the
lookup found. -/
def regenerateRelabel (pdr : ProviderMem) (element : Nat) (oldSid sid : String) :
    ProviderMem :=
  let heap1 := pdr.heap.modify (fun r => { r with sid := sid }) element
  let sessions1 := mset pdr.sessions sid element
  let sessions2 := if oldSid ≠ sid then mdel sessions1 oldSid else sessions1
  { pdr with heap := heap1, sessions := sessions2 }

/-- What happens next while one goroutine runs `SessionGC` and others call the
provider: the collector tests the back element, the collector removes the
element it tested, or a call of another goroutine runs. -/
inductive Event where
  | check (now : Int)
  | evict
  | call (c : Call)
deriving DecidableEq, Repr

/-- The provider together with the element the collector has found expired and
not removed yet. -/
structure Race where
  pdr : ProviderMem
  pending : Option Nat
deriving DecidableEq, Repr

/-- One event of the run.  The collector tests only when it has nothing to
remove and removes only what it tested. -/
def Race.step (s : Race) : Event → Race
  | .check now =>
    match s.pending with
    | some _ => s
    | none => { s with pending := gcCheck s.pdr now }
  | .evict =>
    match s.pending with
    | some element => { pdr := gcEvict s.pdr element, pending := none }
    | none => s
  | .call c => { s with pdr := Memory.step s.pdr c }

/-- The run after a sequence of events, first event first. -/
def Race.run (s : Race) (es : List Event) : Race := es.foldl Race.step s

/-! ## The clock -/

/-- The reading of the clock a call is given. -/
def Call.clock : Call → Option Int
  | .new _ now => some now
  | .read _ => none
  | .update _ now => some now
  | .regenerate _ _ now => some now
  | .destroy _ => none
  | .gc now => some now

/-- The clock of the calls never runs backwards, and starts no earlier than `t`. -/
def clockAscends : Int → List Call → Bool
  | _, [] => true
  | t, c :: cs =>
    match c.clock with
    | some now => decide (t ≤ now) && clockAscends now cs
    | none => clockAscends t cs

/-- No record of the list was accessed after `t`. -/
def Timely (t : Int) (pdr : ProviderMem) : Prop :=
  ∀ e r, e ∈ pdr.list → pdr.heap[e]? = some r → r.timeAccessed ≤ t

/-! ## Concrete providers -/

/-- A store holding `"a" ↦ 1` and `"b" ↦ 2`. -/
def sampleStore : SessionStoreMem :=
  { sid := "s1", timeAccessed := 0,
    values := [(GoValue.str "a", GoValue.int 1), (GoValue.str "b", GoValue.int 2)] }

/-- The provider after `SessionNew("A")` at time 0 on a fresh provider. -/
def oneSession : ProviderMem := (SessionNew NewProvider "A" 0).st

/-- The provider after `SessionNew("B")` at time 0 on a fresh provider. -/
def residentB : ProviderMem := (SessionNew NewProvider "B" 0).st

/-- The provider after `SessionNew("A")`, `SessionNew("B")` and
`SessionRegenerate("A", "B")` on a fresh provider. -/
def collided : ProviderMem :=
  run NewProvider [.new "A" 0, .new "B" 1, .regenerate "A" "B" 2]

/-- The provider, with lifetime 2 s, after `SessionNew("A")` at 0 s,
`SessionNew("B")` at 1 s, `SessionRegenerate("A", "B")` at 2 s and a touch of
`"B"` at 5 s. -/
def shadowed : ProviderMem :=
  run (SessionInit NewProvider 2 "").1
    [.new "A" 0, .new "B" 1000000000, .regenerate "A" "B" 2000000000,
     .update "B" 5000000000]

/-- The provider, with lifetime 10 s, after `SessionNew("A")` at 1 s and
`SessionNew("B")` at 2 s. -/
def twoSessions : ProviderMem :=
  run (SessionInit NewProvider 10 "").1 [.new "A" 1000000000, .new "B" 2000000000]

/-- The provider after `SessionInit(lifetime, savePath)` on a fresh provider,
`SessionNew` of `A`, `B`, `C` in that order and a touch of `A`. -/
def lruScenario (lifetime : Int) (savePath A B C : String) (tA tB tC tTouch : Int) :
    ProviderMem :=
  run (SessionInit NewProvider lifetime savePath).1
    [.new A tA, .new B tB, .new C tC, .update A tTouch]

end Memory

/-!
# Session storage: the Manager

A shallow embedding of `session.go` (package `session`).

Modelling conventions, in addition to those of the memory provider.

* A Go `string` is a sequence of bytes; it is modelled by the `String` whose
  characters are those bytes (`IsBytes`: every code point is below 256).
  `[]byte` is a list of `GoByte`.
* A call that can panic returns an `Outcome`.
* The library functions the Manager calls (`net/url`, `encoding/hex`,
  `net/textproto`, `net/http`, `crypto/rand`) are modelled from their documented
  behaviour.  A request is what its accessors return: the cookies `r.Cookie`
  finds, the outcome of `r.ParseForm()`, the header map, the URL scheme and
  whether `r.TLS` is set; its `Cookie` field is kept apart from the other header
  fields, and `r.Header.Del` of the key `Cookie` empties it.  A line of the response header is either a text or the `http.Cookie`
  that `http.SetCookie` serialised into it.
* `rand.Read` and `time.Now()` are parameters of the calls that use them.
* The Manager is generic in its `Provider`: the methods of the interface are the
  fields of `Provider σ`, over the state `σ` of a provider object; a
  `store.Store` is a handle.
-/

namespace Session

open Memory

/-! ## Outcomes and bytes -/

/-- Outcome of a call: it returns, or it panics with a message. -/
inductive Outcome (α : Type) where
  | ret (a : α)
  | panics (msg : String)
deriving DecidableEq, Repr

/-- The returned value of an outcome, `none` for a panic. -/
def Outcome.returned {α : Type} : Outcome α → Option α
  | .ret a => some a
  | .panics _ => none

/-- A byte. -/
abbrev GoByte := Fin 256

/-- The string holds bytes only. -/
def IsBytes (s : String) : Prop := ∀ c, c ∈ s.data → c.toNat < 256

/-! ## encoding/hex -/

/-- The table `hextable = "0123456789abcdef"` of `encoding/hex`. -/
def hextable (n : Nat) : Char :=
  ['0', '1', '2', '3', '4', '5', '6', '7', '8', '9', 'a', 'b', 'c', 'd', 'e', 'f'].getD n '0'

/-- The characters of `hex.EncodeToString(b)`: two per byte, `v>>4` then `v&0x0f`. -/
def encodeHex : List GoByte → List Char
  | [] => []
  | v :: rest => hextable (v.val / 16) :: hextable (v.val % 16) :: encodeHex rest

/-- Function `hex.EncodeToString`. -/
def EncodeToString (b : List GoByte) : String := ⟨encodeHex b⟩

/-- Function `fromHexChar` of `encoding/hex`: the value of a hexadecimal digit. -/
def fromHexChar (c : Char) : Option Nat :=
  if '0'.toNat ≤ c.toNat ∧ c.toNat ≤ '9'.toNat then some (c.toNat - '0'.toNat)
  else if 'a'.toNat ≤ c.toNat ∧ c.toNat ≤ 'f'.toNat then some (c.toNat - 'a'.toNat + 10)
  else if 'A'.toNat ≤ c.toNat ∧ c.toNat ≤ 'F'.toNat then some (c.toNat - 'A'.toNat + 10)
  else none

/-- The bytes of `hex.DecodeString(s)`, or its error. -/
def decodeHex : List Char → Except String (List GoByte)
  | [] => .ok []
  | [_] => .error "encoding/hex: odd length hex string"
  | a :: b :: rest =>
    match fromHexChar a, fromHexChar b with
    | some x, some y =>
      match decodeHex rest with
      | .ok bs => .ok (Fin.ofNat (16 * x + y) :: bs)
      | .error e => .error e
    | _, _ => .error "encoding/hex: invalid byte"

/-- Function `hex.DecodeString`. -/
def DecodeString (s : String) : Except String (List GoByte) := decodeHex s.data

/-! ## net/url -/

/-- Function `shouldEscape(c, encodeQueryComponent)` of `net/url`: everything but
the unreserved characters is escaped. -/
def shouldEscape (c : Char) : Bool :=
  !(c.isAlphanum || c = '-' || c = '_' || c = '.' || c = '~')

/-- The table `upperhex = "0123456789ABCDEF"` of `net/url`. -/
def upperhex (n : Nat) : Char :=
  ['0', '1', '2', '3', '4', '5', '6', '7', '8', '9', 'A', 'B', 'C', 'D', 'E', 'F'].getD n '0'

/-- The characters of `url.QueryEscape(s)`. -/
def escapeChars : List Char → List Char
  | [] => []
  | c :: rest =>
    if c = ' ' then '+' :: escapeChars rest
    else if shouldEscape c then
      '%' :: upperhex (c.toNat / 16) :: upperhex (c.toNat % 16) :: escapeChars rest
    else c :: escapeChars rest

/-- Function `url.QueryEscape`. -/
def QueryEscape (s : String) : String := ⟨escapeChars s.data⟩

/-- The characters of `url.QueryUnescape(s)`, or its `EscapeError`: a `%` must be
followed by two hexadecimal digits, `+` is a space. -/
def unescapeChars : List Char → Except String (List Char)
  | [] => .ok []
  | c :: rest =>
    if c = '%' then
      match rest with
      | a :: b :: rest' =>
        match fromHexChar a, fromHexChar b with
        | some x, some y =>
          match unescapeChars rest' with
          | .ok t => .ok (Char.ofNat (16 * x + y) :: t)
          | .error e => .error e
        | _, _ => .error "invalid URL escape"
      | _ => .error "invalid URL escape"
    else
      match unescapeChars rest with
      | .ok t => .ok ((if c = '+' then ' ' else c) :: t)
      | .error e => .error e

/-- Function `url.QueryUnescape`: the unescaped string, or `("", err)`. -/
def QueryUnescape (s : String) : Except String String :=
  match unescapeChars s.data with
  | .ok t => .ok ⟨t⟩
  | .error e => .error e

/-! ## net/textproto and the token table -/

/-- The table `isTokenTable` of `httpguts`, which is also `validHeaderFieldByte`
of `net/textproto`: the visible ASCII characters that are no separators. -/
def isToken (c : Char) : Bool :=
  c.isAlphanum ||
    [Char.ofNat 33, Char.ofNat 35, Char.ofNat 36, Char.ofNat 37, Char.ofNat 38, Char.ofNat 39,
     Char.ofNat 42, Char.ofNat 43, Char.ofNat 45, Char.ofNat 46, Char.ofNat 94, Char.ofNat 95,
     Char.ofNat 96, Char.ofNat 124, Char.ofNat 126].elem c

/-- The loop of `canonicalMIMEHeaderKey`: upper case at the start and after each
`-`, lower case elsewhere. -/
def canonChars : Bool → List Char → List Char
  | _, [] => []
  | upper, c :: rest =>
    let c' := if upper && c.isLower then c.toUpper
      else if !upper && c.isUpper then c.toLower else c
    c' :: canonChars (c' = '-') rest

/-- Function `textproto.CanonicalMIMEHeaderKey`: a key with a byte that is not
valid in a header field name is returned unchanged. -/
def CanonicalMIMEHeaderKey (s : String) : String :=
  if s.data.all isToken then ⟨canonChars true s.data⟩ else s

/-! ## net/http -/

/-- The fields of `http.Cookie` the Manager sets; `Expires` is `none` for the zero
time. -/
structure Cookie where
  Name : String
  Value : String
  Path : String
  Domain : String
  Expires : Option Int
  MaxAge : Int
  Secure : Bool
  HttpOnly : Bool
deriving DecidableEq, Repr

/-- A line of a response header field: a text, or the cookie whose `String()`
`http.SetCookie` wrote. -/
inductive HeaderLine where
  | text (s : String)
  | cookie (c : Cookie)
deriving DecidableEq, Repr

/-- An `*http.Request` as the Manager reads it. -/
structure Request where
  /-- The cookies of the `Cookie` field, `(name, value)` in the order sent. -/
  cookies : List (String × String)
  /-- The outcome of `r.ParseForm()`: its error, or `r.Form`. -/
  form : Except String (List (String × List String))
  /-- The map `r.Header`, without the `Cookie` field. -/
  Header : List (String × List String)
  /-- The field `r.URL.Scheme`. -/
  Scheme : String
  /-- Whether `r.TLS != nil`. -/
  TLS : Bool
deriving DecidableEq, Repr

/-- An `http.ResponseWriter`: the header map `w.Header()`. -/
structure ResponseWriter where
  Header : List (String × List HeaderLine)
deriving DecidableEq, Repr

/-- Method `r.Cookie(name)`: the first cookie of that name, `none` for
`ErrNoCookie`.  A cookie read from a request has a name and a value only. -/
def Request.Cookie (r : Request) (name : String) : Option Cookie :=
  match mget r.cookies name with
  | some v =>
    some { Name := name, Value := v, Path := "", Domain := "", Expires := none, MaxAge := 0,
           Secure := false, HttpOnly := false }
  | none => none

/-- Method `r.FormValue(key)` after a successful `r.ParseForm()`: the first value
of the key in `r.Form`, or `""`. -/
def FormValue (form : List (String × List String)) (key : String) : String :=
  match mget form key with
  | some (v :: _) => v
  | _ => ""

/-- Method `Header.Set(key, value)`: the key is canonicalised. -/
def headerSet {ν : Type} (h : List (String × List ν)) (key : String) (value : ν) :
    List (String × List ν) :=
  mset h (CanonicalMIMEHeaderKey key) [value]

/-- Method `Header.Del(key)`. -/
def headerDel {ν : Type} (h : List (String × List ν)) (key : String) :
    List (String × List ν) :=
  mdel h (CanonicalMIMEHeaderKey key)

/-- Method `r.Header.Del(key)` on a request.  The `Cookie` field is kept apart in
`cookies`: it goes when the canonical key is `Cookie`. -/
def Request.delHeader (r : Request) (key : String) : Request :=
  { r with Header := headerDel r.Header key,
           cookies := if CanonicalMIMEHeaderKey key = "Cookie" then [] else r.cookies }

/-- Method `Header.Add(key, value)`. -/
def headerAdd {ν : Type} (h : List (String × List ν)) (key : String) (value : ν) :
    List (String × List ν) :=
  mset h (CanonicalMIMEHeaderKey key)
    ((mget h (CanonicalMIMEHeaderKey key)).getD [] ++ [value])

/-- Function `isCookieNameValid` of `net/http`: a non-empty token. -/
def isCookieNameValid (raw : String) : Bool :=
  raw ≠ "" && raw.data.all isToken

/-- Function `http.SetCookie(w, cookie)`: adds a `Set-Cookie` line when
`cookie.String()` is not empty, that is when the name of the cookie is valid. -/
def SetCookie (w : ResponseWriter) (cookie : Cookie) : ResponseWriter :=
  if isCookieNameValid cookie.Name then
    { w with Header := headerAdd w.Header "Set-Cookie" (HeaderLine.cookie cookie) }
  else w

/-- Method `r.AddCookie(c)`: appends the cookie to the `Cookie` field (the
sanitising of name and value is not modelled). -/
def AddCookie (r : Request) (c : Cookie) : Request :=
  { r with cookies := r.cookies ++ [(c.Name, c.Value)] }

/-- The `Set-Cookie` lines of a response. -/
def setCookieLines (w : ResponseWriter) : List HeaderLine :=
  (mget w.Header "Set-Cookie").getD []

/-! ## crypto/rand -/

/-- What `rand.Read(b)` did: the bytes it put at the start of `b` (their number
is the returned `n`) and the returned error. -/
structure RandRead where
  bytes : List GoByte
  err : GoError
deriving DecidableEq, Repr

/-! ## The Provider interface -/

/-- The interface `Provider` over the state `σ` of a provider object, with the
methods of `store.Store` the Manager calls acting through a handle.  A result
pair `(store.Store, error)` is `(Option Nat, GoError)`, `none` being `nil`. -/
structure Provider (σ : Type) where
  SessionInit : σ → Int → String → σ × GoError
  SessionNew : σ → String → Int → (Option Nat × GoError) × σ
  SessionRead : σ → String → (Option Nat × GoError) × σ
  SessionExist : σ → String → Bool
  SessionRegenerate : σ → String → String → (Option Nat × GoError) × σ
  SessionDestroy : σ → String → σ × GoError
  SessionAll : σ → List String × GoError
  SessionGC : σ → σ
  Set : σ → Nat → GoValue → GoValue → σ × GoError
  Get : σ → Nat → GoValue → GoValue
  SessionID : σ → Nat → String
  SessionRelease : σ → Nat → σ

/-- The pair `(store.Store, error)` of a result of the memory provider. -/
def toPair : StoreResult → Option Nat × GoError
  | .ok h => (some h, none)
  | .error e => (none, some e)

/-- The memory provider behind the interface, every `time.Now()` reading `now`.
Its `SessionNew` has no lifetime parameter: the argument is dropped.  The touch
a call starts is not run here. -/
def memoryProvider (now : Int) : Provider ProviderMem where
  SessionInit := Memory.SessionInit
  SessionNew := fun pdr sid _ => (toPair (SessionNew pdr sid now).val, (SessionNew pdr sid now).st)
  SessionRead := fun pdr sid => (toPair (SessionRead pdr sid).val, (SessionRead pdr sid).st)
  SessionExist := Memory.SessionExist
  SessionRegenerate := fun pdr oldSid sid =>
    (toPair (SessionRegenerate pdr oldSid sid now).val, (SessionRegenerate pdr oldSid sid now).st)
  SessionDestroy := Memory.SessionDestroy
  SessionAll := Memory.SessionAll
  SessionGC := fun pdr => SessionGC pdr now
  Set := fun pdr h key value => (storeSet pdr h key value, none)
  Get := fun pdr h key =>
    match deref pdr h with
    | some st => st.Get key
    | none => GoValue.nil
  SessionID := fun pdr h =>
    match deref pdr h with
    | some st => st.SessionID
    | none => ""
  SessionRelease := fun pdr _ => pdr

/-! ## ManagerConfig and Manager -/

/-- The struct `ManagerConfig`. -/
structure ManagerConfig where
  CookieName : String
  EnableSetCookie : Bool
  Gclifetime : Int
  Maxlifetime : Int
  DisableHTTPOnly : Bool
  Secure : Bool
  CookieLifeTime : Int
  ProviderConfig : String
  ProviderConfigMgr : String
  Domain : String
  SessionIDLength : Int
  EnableSidInHTTPHeader : Bool
  SessionNameInHTTPHeader : String
  EnableSidInURLQuery : Bool
  SessionIDPrefix : String
deriving DecidableEq, Repr

/-- The pointer `providerMgr` of a Manager: `nil`, the object `provider` points
at, or an object of its own. -/
inductive MgrRef (σ : Type) where
  | null
  | same
  | own (pdr : σ)
deriving DecidableEq, Repr

/-- The struct `Manager`, with the provider objects its pointers reach. -/
structure Manager (σ : Type) where
  provider : σ
  providerMgr : MgrRef σ
  config : ManagerConfig
deriving DecidableEq, Repr

/-- The object behind `manager.providerMgr`, `none` for `nil`. -/
def Manager.mgr {σ : Type} (m : Manager σ) : Option σ :=
  match m.providerMgr with
  | .null => none
  | .same => some m.provider
  | .own pdr => some pdr

/-- The Manager after a call left the object behind `manager.providerMgr` in
state `pdr`. -/
def Manager.setMgr {σ : Type} (m : Manager σ) (pdr : σ) : Manager σ :=
  match m.providerMgr with
  | .null => m
  | .same => { m with provider := pdr }
  | .own _ => { m with providerMgr := .own pdr }

/-- The backends `GetProvider` selects from. -/
inductive ProviderKind where
  | file
  | memory
  | mysql
  | redis
deriving DecidableEq, Repr

/-- Function `GetProvider`: the backend whose `NewProvider()` it returns. -/
def GetProvider (name : String) : Except String ProviderKind :=
  if name = "file" then .ok .file
  else if name = "memory" then .ok .memory
  else if name = "mysql" then .ok .mysql
  else if name = "redis" then .ok .redis
  else .error ("session: unknown provider " ++ name)

/-- Whether `NewProvider()` of the backend returns one package-level object
(`filePdr` of the file provider) instead of a new one. -/
def singleton : ProviderKind → Bool
  | .file => true
  | _ => false

/-- The header-name check of `NewManager`: the message it panics with, if any. -/
def headerNamePanic (cf : ManagerConfig) : Option String :=
  if cf.EnableSidInHTTPHeader then
    if cf.SessionNameInHTTPHeader = "" then some "SessionNameInHTTPHeader is empty"
    else if cf.SessionNameInHTTPHeader ≠ CanonicalMIMEHeaderKey cf.SessionNameInHTTPHeader then
      some ("SessionNameInHTTPHeader (" ++ cf.SessionNameInHTTPHeader ++
        ") has the wrong format, it should be like this : " ++
        CanonicalMIMEHeaderKey cf.SessionNameInHTTPHeader)
    else none
  else none

/-- Function `NewManager`.  `P` holds the methods of the backends and
`newProvider kind` is the object `NewProvider()` of that backend returns. -/
def NewManager {σ : Type} (P : Provider σ) (newProvider : ProviderKind → σ)
    (provideName : String) (cf : ManagerConfig) : Outcome (Except String (Manager σ)) :=
  let cf1 := if cf.Maxlifetime = 0 then { cf with Maxlifetime := cf.Gclifetime } else cf
  match headerNamePanic cf1 with
  | some msg => .panics msg
  | none =>
    let cf2 := if cf1.SessionIDLength = 0 then { cf1 with SessionIDLength := 16 } else cf1
    match GetProvider provideName with
    | .error e => .ret (.error e)
    | .ok kind =>
      let init1 := P.SessionInit (newProvider kind) cf2.Maxlifetime cf2.ProviderConfig
      match init1.2 with
      | some e => .ret (.error e)
      | none =>
        if cf2.ProviderConfigMgr ≠ "" then
          if singleton kind then
            let init2 := P.SessionInit init1.1 cf2.Maxlifetime cf2.ProviderConfigMgr
            match init2.2 with
            | some e => .ret (.error e)
            | none => .ret (.ok { provider := init2.1, providerMgr := .same, config := cf2 })
          else
            let init2 := P.SessionInit (newProvider kind) cf2.Maxlifetime cf2.ProviderConfigMgr
            match init2.2 with
            | some e => .ret (.error e)
            | none =>
              .ret (.ok { provider := init1.1, providerMgr := .own init2.1, config := cf2 })
        else .ret (.ok { provider := init1.1, providerMgr := .null, config := cf2 })

/-- The outcome of `NewManager` with the switch `EnableSidInHTTPHeader` of the
stored configuration set to `b`; used to compare two constructions that differ
in that switch only. -/
def withHeaderSwitch {σ : Type} (b : Bool) :
    Outcome (Except String (Manager σ)) → Outcome (Except String (Manager σ))
  | .panics msg => .panics msg
  | .ret (.error e) => .ret (.error e)
  | .ret (.ok m) => .ret (.ok { m with config := { m.config with EnableSidInHTTPHeader := b } })

/-- Method `Manager.getSid`. -/
def getSid (cfg : ManagerConfig) (r : Request) : Except String String :=
  let viaQueryOrHeader : Except String String :=
    let afterQuery : Except String String :=
      if cfg.EnableSidInURLQuery then
        match r.form with
        | .error e => .error e
        | .ok form => .ok (FormValue form cfg.CookieName)
      else .ok ""
    match afterQuery with
    | .error e => .error e
    | .ok sid =>
      if cfg.EnableSidInHTTPHeader ∧ sid = "" then
        match mget r.Header cfg.SessionNameInHTTPHeader with
        | some (first :: _) => .ok first
        | _ => .ok sid
      else .ok sid
  match r.Cookie cfg.CookieName with
  | none => viaQueryOrHeader
  | some cookie =>
    if cookie.Value = "" then viaQueryOrHeader else QueryUnescape cookie.Value

/-- Method `Manager.sessionID`; `rand n` is what `rand.Read` does on a buffer of
`n` bytes.  `make` panics on a negative length. -/
def sessionID (cfg : ManagerConfig) (rand : Nat → RandRead) : Outcome (Except String String) :=
  if cfg.SessionIDLength < 0 then .panics "runtime error: makeslice: len out of range"
  else
    let len := cfg.SessionIDLength.toNat
    let rd := rand len
    let b := (rd.bytes ++ List.replicate len (0 : GoByte)).take len
    if rd.bytes.length ≠ len ∨ rd.err ≠ none then
      .ret (.error "could not successfully read from the system CSPRNG")
    else .ret (.ok (cfg.SessionIDPrefix ++ EncodeToString b))

/-- Method `Manager.isSecure`. -/
def isSecure (cfg : ManagerConfig) (req : Request) : Bool :=
  if !cfg.Secure then false
  else if req.Scheme ≠ "" then req.Scheme = "https"
  else if !req.TLS then false
  else true

/-- The statements `if CookieLifeTime > 0 { cookie.MaxAge = ...; cookie.Expires = ... }`;
the duration `time.Duration(CookieLifeTime) * time.Second` is an `int64`. -/
def withLifeTime (cfg : ManagerConfig) (now : Int) (cookie : Cookie) : Cookie :=
  if cfg.CookieLifeTime > 0 then
    { cookie with MaxAge := cfg.CookieLifeTime,
                  Expires := some (now + wrapInt64 (cfg.CookieLifeTime * 1000000000)) }
  else cookie

/-- The statements that hand a finished cookie and the id to the transports:
`http.SetCookie` when `EnableSetCookie`, `r.AddCookie`, and both `Header.Set` when
`EnableSidInHTTPHeader`. -/
def bindTransport (cfg : ManagerConfig) (cookie : Cookie) (sid : String)
    (w : ResponseWriter) (r : Request) : ResponseWriter × Request :=
  let w1 := if cfg.EnableSetCookie then SetCookie w cookie else w
  let r1 := AddCookie r cookie
  if cfg.EnableSidInHTTPHeader then
    ({ w1 with Header := headerSet w1.Header cfg.SessionNameInHTTPHeader (HeaderLine.text sid) },
     { r1 with Header := headerSet r1.Header cfg.SessionNameInHTTPHeader sid })
  else (w1, r1)

/-- What a method of the Manager that serves a request leaves: the returned store
and error, the Manager, the response and the request. -/
structure Reply (σ : Type) where
  session : Option Nat
  err : GoError
  manager : Manager σ
  w : ResponseWriter
  r : Request
deriving DecidableEq, Repr

/-- The cookie literal of `SessionStart` and of the first branch of
`SessionRegenerateID`. -/
def newCookie (cfg : ManagerConfig) (r : Request) (sid : String) : Cookie :=
  { Name := cfg.CookieName, Value := QueryEscape sid, Path := "/",
    HttpOnly := !cfg.DisableHTTPOnly, Secure := isSecure cfg r, Domain := cfg.Domain,
    Expires := none, MaxAge := 0 }

/-- Method `Manager.SessionStart`. -/
def SessionStart {σ : Type} (P : Provider σ) (m : Manager σ) (w : ResponseWriter)
    (r : Request) (rand : Nat → RandRead) (now : Int) : Outcome (Reply σ) :=
  match getSid m.config r with
  | .error e => .ret { session := none, err := some e, manager := m, w := w, r := r }
  | .ok sid =>
    if sid ≠ "" ∧ P.SessionExist m.provider sid = true then
      let res := P.SessionRead m.provider sid
      .ret { session := res.1.1, err := res.1.2, manager := { m with provider := res.2 },
             w := w, r := r }
    else
      match sessionID m.config rand with
      | .panics msg => .panics msg
      | .ret (.error e) =>
        .ret { session := none, err := some e, manager := m, w := w, r := r }
      | .ret (.ok sid) =>
        let res := P.SessionNew m.provider sid 0
        match res.1.2 with
        | some e =>
          .ret { session := none, err := some e, manager := { m with provider := res.2 },
                 w := w, r := r }
        | none =>
          let cookie := withLifeTime m.config now (newCookie m.config r sid)
          let wr := bindTransport m.config cookie sid w r
          .ret { session := res.1.1, err := none, manager := { m with provider := res.2 },
                 w := wr.1, r := wr.2 }

/-- Method `Manager.SessionDestroy`. -/
def SessionDestroy {σ : Type} (P : Provider σ) (m : Manager σ) (w : ResponseWriter)
    (r : Request) (now : Int) : Reply σ :=
  let w1 : ResponseWriter :=
    if m.config.EnableSidInHTTPHeader then
      { w with Header := headerDel w.Header m.config.SessionNameInHTTPHeader }
    else w
  let r1 : Request :=
    if m.config.EnableSidInHTTPHeader then r.delHeader m.config.SessionNameInHTTPHeader
    else r
  let unchanged : Reply σ :=
    { session := none, err := none, manager := m, w := w1, r := r1 }
  match r1.Cookie m.config.CookieName with
  | none => unchanged
  | some cookie =>
    if cookie.Value = "" then unchanged
    else
      let sid := match QueryUnescape cookie.Value with
        | .ok sid => sid
        | .error _ => ""
      let m1 := { m with provider := (P.SessionDestroy m.provider sid).1 }
      let w2 :=
        if m.config.EnableSetCookie then
          SetCookie w1
            { Name := m.config.CookieName, Value := "", Path := "/", Domain := "",
              HttpOnly := !m.config.DisableHTTPOnly, Secure := false,
              Expires := some now, MaxAge := -1 }
        else w1
      { session := none, err := none, manager := m1, w := w2, r := r1 }

/-- Method `Manager.SessionRegenerateID`. -/
def SessionRegenerateID {σ : Type} (P : Provider σ) (m : Manager σ) (w : ResponseWriter)
    (r : Request) (rand : Nat → RandRead) (now : Int) : Outcome (Reply σ) :=
  match sessionID m.config rand with
  | .panics msg => .panics msg
  | .ret (.error _) => .ret { session := none, err := none, manager := m, w := w, r := r }
  | .ret (.ok sid) =>
    let fresh : Option Nat × σ × Cookie :=
      ((P.SessionNew m.provider sid 0).1.1, (P.SessionNew m.provider sid 0).2,
        newCookie m.config r sid)
    let branch : Option Nat × σ × Cookie :=
      match r.Cookie m.config.CookieName with
      | none => fresh
      | some cookie =>
        if cookie.Value = "" then fresh
        else
          let oldsid := match QueryUnescape cookie.Value with
            | .ok s => s
            | .error _ => ""
          ((P.SessionRegenerate m.provider oldsid sid).1.1,
            (P.SessionRegenerate m.provider oldsid sid).2,
            { cookie with Value := QueryEscape sid, HttpOnly := true, Path := "/" })
    let cookie := withLifeTime m.config now branch.2.2
    let wr := bindTransport m.config cookie sid w r
    .ret { session := branch.1, err := none, manager := { m with provider := branch.2.1 },
           w := wr.1, r := wr.2 }

/-- Method `Manager.TokenMgrCreate`; a method call through the nil `providerMgr`
or the nil store panics. -/
def TokenMgrCreate {σ : Type} (P : Provider σ) (m : Manager σ) (userId token : String) :
    Outcome ((Option Nat × GoError) × Manager σ) :=
  match m.mgr with
  | none => .panics "runtime error: invalid memory address or nil pointer dereference"
  | some pdr =>
    let res := P.SessionNew pdr userId 0
    match res.1.2 with
    | some e => .ret ((none, some e), m.setMgr res.2)
    | none =>
      match res.1.1 with
      | none => .panics "runtime error: invalid memory address or nil pointer dereference"
      | some session =>
        let set := P.Set res.2 session (GoValue.str "token") (GoValue.str token)
        match set.2 with
        | some e => .ret ((none, some e), m.setMgr set.1)
        | none => .ret ((some session, none), m.setMgr (P.SessionRelease set.1 session))

/-- Method `Manager.MgrDestroyToken`; the type assertion `val.(string)` panics on
a value that is no string. -/
def MgrDestroyToken {σ : Type} (P : Provider σ) (m : Manager σ) (userId : String) :
    Outcome (GoError × Manager σ) :=
  match m.mgr with
  | none => .panics "runtime error: invalid memory address or nil pointer dereference"
  | some pdr =>
    let res := P.SessionRead pdr userId
    let m1 := m.setMgr res.2
    match res.1.2 with
    | some e => .ret (some e, m1)
    | none =>
      match res.1.1 with
      | none => .panics "runtime error: invalid memory address or nil pointer dereference"
      | some session =>
        match P.Get res.2 session (GoValue.str "token") with
        | GoValue.nil => .ret (none, m1)
        | GoValue.str token =>
          let m2 := { m1 with provider := (P.SessionDestroy m1.provider token).1 }
          match m2.mgr with
          | none => .ret (none, m2)
          | some pdr2 => .ret (none, m2.setMgr (P.SessionDestroy pdr2 userId).1)
        | _ => .panics "interface conversion: interface \x7b\x7d is not string"

/-! ## The identifier a request carries, in the words of the specification -/

/-- The value of the cookie named `name`, when the request has one and it is not
empty. -/
def cookieValue (r : Request) (name : String) : Option String :=
  match mget r.cookies name with
  | some v => if v = "" then none else some v
  | none => none

/-- The request parameter named `name`; `""` when there is none. -/
def requestParam (r : Request) (name : String) : String :=
  match r.form with
  | .ok form => FormValue form name
  | .error _ => ""

/-- The first value of the header field `name`, when the request has one. -/
def headerFirst (r : Request) (name : String) : Option String :=
  match mget r.Header name with
  | some (first :: _) => some first
  | _ => none

/-- The identifier of a request by priority: the unescaped value of a non-empty
cookie; else, if enabled, the non-empty request parameter; else, if enabled, the
first value of the header; else the empty string. -/
def resolvedId (cfg : ManagerConfig) (r : Request) : String :=
  match cookieValue r cfg.CookieName with
  | some v =>
    match QueryUnescape v with
    | .ok sid => sid
    | .error _ => ""
  | none =>
    if cfg.EnableSidInURLQuery ∧ requestParam r cfg.CookieName ≠ "" then
      requestParam r cfg.CookieName
    else if cfg.EnableSidInHTTPHeader then (headerFirst r cfg.SessionNameInHTTPHeader).getD ""
    else ""

/-- The line is a cookie whose value is the escaped identifier. -/
def carriesId (sid : String) : HeaderLine → Bool
  | .cookie c => c.Value = QueryEscape sid
  | .text _ => false

/-- The identifier is bound to the outbound transport exactly once: one
`Set-Cookie` line of the response carries it, or the configured response header
holds it. -/
def BoundOnce (cfg : ManagerConfig) (w : ResponseWriter) (sid : String) : Prop :=
  ((setCookieLines w).filter (carriesId sid)).length = 1 ∨
  mget w.Header cfg.SessionNameInHTTPHeader = some [HeaderLine.text sid]

/-- The cookie attributes the configuration asks for: path `/`, `HttpOnly` unless
disabled, `Secure` exactly when configured and the request is https. -/
def HonoursConfig (cfg : ManagerConfig) (r : Request) (c : Cookie) : Prop :=
  c.Path = "/" ∧ c.HttpOnly = !cfg.DisableHTTPOnly ∧
  (c.Secure = true ↔ cfg.Secure = true ∧
    (r.Scheme = "https" ∨ (r.Scheme = "" ∧ r.TLS = true)))

/-- Whether the `r.Header.Del` of `SessionDestroy` removes the cookies of the
request: header transport is on and its header is the `Cookie` field. -/
def dropsCookies (cfg : ManagerConfig) : Bool :=
  cfg.EnableSidInHTTPHeader && decide (CanonicalMIMEHeaderKey cfg.SessionNameInHTTPHeader = "Cookie")

/-- Canonical MIME header form from a position on, `start` telling whether the
position is the start of the name or right after a hyphen. -/
def canonicalFrom : Bool → List Char → Bool
  | _, [] => true
  | start, c :: rest =>
    isToken c && (if start then !c.isLower else !c.isUpper) && canonicalFrom (c = '-') rest

/-- A header name in canonical MIME header form, in the words of the
specification: every character is a token character, a letter at the start or
right after a hyphen is upper case and every other letter is lower case. -/
def CanonicalForm (s : String) : Bool := canonicalFrom true s.data

/-- The max lifetime of a configuration, in the words of the specification:
`Gclifetime` when `Maxlifetime` is zero. -/
def effectiveLifetime (cf : ManagerConfig) : Int :=
  if cf.Maxlifetime = 0 then cf.Gclifetime else cf.Maxlifetime

/-- The id length of a configuration, in the words of the specification: 16 when
`SessionIDLength` is zero. -/
def effectiveIDLength (cf : ManagerConfig) : Int :=
  if cf.SessionIDLength = 0 then 16 else cf.SessionIDLength

/-! ## Concrete requests and managers -/

/-- A configuration: cookie `sid`, ids of two random bytes behind the prefix
`p/`, `Set-Cookie` enabled, no header and no query transport. -/
def sampleConfig : ManagerConfig :=
  { CookieName := "sid", EnableSetCookie := true, Gclifetime := 3600, Maxlifetime := 3600,
    DisableHTTPOnly := false, Secure := false, CookieLifeTime := 0, ProviderConfig := "",
    ProviderConfigMgr := "", Domain := "", SessionIDLength := 2,
    EnableSidInHTTPHeader := false, SessionNameInHTTPHeader := "",
    EnableSidInURLQuery := false, SessionIDPrefix := "p/" }

/-- The configuration `sampleConfig` with header transport under `X-Sid`. -/
def headerConfig : ManagerConfig :=
  { sampleConfig with EnableSidInHTTPHeader := true, SessionNameInHTTPHeader := "X-Sid" }

/-- The configuration `sampleConfig` without `Set-Cookie`. -/
def quietConfig : ManagerConfig := { sampleConfig with EnableSetCookie := false }

/-- The configuration `sampleConfig` with `Secure` set and `HttpOnly` disabled. -/
def secureConfig : ManagerConfig :=
  { sampleConfig with Secure := true, DisableHTTPOnly := true }

/-- A configuration that enables header transport and names no header. -/
def namelessHeaderConfig : ManagerConfig :=
  { sampleConfig with EnableSidInHTTPHeader := true }

/-- The configuration `sampleConfig` with `Maxlifetime` and `SessionIDLength`
left zero and a `Gclifetime` of 60 seconds. -/
def zeroConfig : ManagerConfig :=
  { sampleConfig with Gclifetime := 60, Maxlifetime := 0, SessionIDLength := 0 }

/-- A configuration whose header transport uses the field `Cookie`. -/
def cookieHeaderConfig : ManagerConfig :=
  { sampleConfig with EnableSidInHTTPHeader := true, SessionNameInHTTPHeader := "Cookie" }

/-- A configuration whose header name is a token in lower case. -/
def lowerHeaderConfig : ManagerConfig :=
  { sampleConfig with EnableSidInHTTPHeader := true, SessionNameInHTTPHeader := "x-sid" }

/-- A configuration whose header name has a space. -/
def spacedHeaderConfig : ManagerConfig :=
  { sampleConfig with EnableSidInHTTPHeader := true, SessionNameInHTTPHeader := "x sid" }

/-- A request without cookies, parameters or header fields. -/
def emptyRequest : Request :=
  { cookies := [], form := .ok [], Header := [], Scheme := "", TLS := false }

/-- A request whose cookie `sid` has the given value. -/
def requestWithCookie (v : String) : Request := { emptyRequest with cookies := [("sid", v)] }

/-- A request whose header field `X-Sid` has the given value. -/
def requestWithHeader (v : String) : Request :=
  { emptyRequest with Header := [("X-Sid", [v])] }

/-- An https request whose cookie `sid` has the given value. -/
def httpsRequestWithCookie (v : String) : Request :=
  { requestWithCookie v with Scheme := "https" }

/-- A response with an empty header. -/
def emptyResponse : ResponseWriter := { Header := [] }

/-- A random source that fills every buffer with the byte `0xab`. -/
def sampleRand : Nat → RandRead := fun n => { bytes := List.replicate n 171, err := none }

/-- A random source that delivers nothing and reports an error. -/
def brokenRand : Nat → RandRead := fun _ => { bytes := [], err := some "unexpected EOF" }

/-- A Manager over a fresh memory provider. -/
def managerOf (cfg : ManagerConfig) : Manager ProviderMem :=
  { provider := NewProvider, providerMgr := .null, config := cfg }

/-- A Manager whose memory provider holds the session `abc`. -/
def managerWithAbc (cfg : ManagerConfig) : Manager ProviderMem :=
  { provider := (SessionNew NewProvider "abc" 0).st, providerMgr := .null, config := cfg }

/-- A Manager with a fresh primary and a fresh secondary memory provider. -/
def linkedManager : Manager ProviderMem :=
  { provider := NewProvider, providerMgr := .own NewProvider, config := sampleConfig }

end Session

/-!
# Session storage: the redis, file and mysql providers

Shallow embeddings of `provider/redis/redis.go`, of `provider/file/file.go` and
of `SessionInit` in `provider/mysql/mysql.go`.

Modelling conventions, in addition to those above.

* What lies outside the program is a parameter of the calls: the redis server
  (`Redis.Server`), the file system (`File.FS`), the database
  (`MySQL.Database`), the gob codec (`Utils.Gob`) and the clock (`now`).
* The redis server is a finite map from key to value and time to live.  When it
  cannot be reached every command, and the dialling of `SessionInit`, fails with
  the error `Server.down`.  Keys do not expire while a call runs.
* The file system is a finite map from cleaned path to regular file.  Every
  directory a call needs exists, and no call fails for lack of permission; the
  order in which `filepath.Walk` visits files is the order of the map.
* The database answers `sql.Open` and the table-creation statement; no other
  method of the mysql provider is embedded.
* `strings`, `strconv` and `path` are modelled from their documented behaviour,
  on strings of bytes.
-/

namespace Strings

/-- Function `strings.ContainsAny` for a set `chars` of ASCII characters: some
byte of `s` is one of them. -/
def ContainsAny (s chars : String) : Bool :=
  s.data.any (fun c => chars.data.contains c)

/-- Function `strings.Contains` on the bytes of the two strings. -/
def Contains (s substr : String) : Bool :=
  s.data.tails.any (fun t => substr.data.isPrefixOf t)

/-- The fields `strings.Split` cuts a string into at a one-byte separator. -/
def splitChars (sep : Char) : List Char → List (List Char)
  | [] => [[]]
  | c :: cs =>
    if c = sep then [] :: splitChars sep cs
    else
      match splitChars sep cs with
      | [] => [[c]]
      | f :: fs => (c :: f) :: fs

/-- Function `strings.Split(s, sep)` for a one-byte separator. -/
def Split (s : String) (sep : Char) : List String :=
  (splitChars sep s.data).map String.mk

end Strings

namespace Strconv

/-- The value of a decimal digit. -/
def digit (c : Char) : Option Nat :=
  if '0' ≤ c ∧ c ≤ '9' then some (c.toNat - 48) else none

/-- The number a run of decimal digits denotes, after the digits worth `acc`. -/
def digits : Nat → List Char → Option Nat
  | acc, [] => some acc
  | acc, c :: cs =>
    match digit c with
    | none => none
    | some d => digits (acc * 10 + d) cs

/-- The digits of `Atoi` after the sign: at least one digit, and a value that
fits `int` (64 bits). -/
def unsigned (neg : Bool) (ds : List Char) : Option Int :=
  match ds with
  | [] => none
  | _ =>
    match digits 0 ds with
    | none => none
    | some n =>
      let v : Int := if neg then -(n : Int) else (n : Int)
      if -9223372036854775808 ≤ v ∧ v ≤ 9223372036854775807 then some v else none

/-- Function `strconv.Atoi`: `none` is a non-nil error (`ErrSyntax` or
`ErrRange`). -/
def Atoi (s : String) : Option Int :=
  match s.data with
  | '+' :: ds => unsigned false ds
  | '-' :: ds => unsigned true ds
  | ds => unsigned false ds

end Strconv

namespace Utils

/-- The functions `EncodeGob` and `DecodeGob` of package `utils`, on the bytes of
a file or of a redis value. -/
structure Gob where
  EncodeGob : List (Memory.GoValue × Memory.GoValue) → Except String String
  DecodeGob : String → Except String (List (Memory.GoValue × Memory.GoValue))

end Utils

/-- The panic of a method called through a nil pointer. -/
def nilDereference : String :=
  "runtime error: invalid memory address or nil pointer dereference"

namespace Redis

open Memory (GoValue GoError mget mset mdel wrapInt64)
open Session (Outcome)

/-- The constant `MaxPoolSize`. -/
def MaxPoolSize : Int := 100

/-- The error `redis.ErrNil`. -/
def ErrNil : String := "redigo: nil returned"

/-- The struct `SessionStoreRedis` (its pool pointer and its lock are not
modelled). -/
structure SessionStoreRedis where
  sid : String
  values : List (GoValue × GoValue)
  lifetime : Int
deriving DecidableEq, Repr

/-- The fields of `redis.Pool` the provider sets; `IdleTimeout` is a
`time.Duration`, a count of nanoseconds. -/
structure Pool where
  MaxIdle : Int
  IdleTimeout : Int
deriving DecidableEq, Repr

/-- The struct `ProviderRedis`; `pl` is `none` for the nil pointer. -/
structure ProviderRedis where
  lifetime : Int
  savePath : String
  poolSize : Int
  password : String
  dbIndex : Int
  pl : Option Pool
deriving DecidableEq, Repr

/-- A key of the server: its value and its time to live in seconds, if any. -/
structure Entry where
  value : String
  ttl : Option Int
deriving DecidableEq, Repr

/-- The redis server: the error every command fails with when it cannot be
reached, and its keys. -/
structure Server where
  down : GoError
  keys : List (String × Entry)
deriving DecidableEq, Repr

/-- The reply to `GET key`. -/
inductive GetReply where
  | value (s : String)
  | absent
  | failed (e : String)
deriving DecidableEq, Repr

/-- Command `GET key`. -/
def GET (srv : Server) (key : String) : GetReply :=
  match srv.down with
  | some e => .failed e
  | none =>
    match mget srv.keys key with
    | some entry => .value entry.value
    | none => .absent

/-- Command `EXISTS key` read with `redis.Int`: 0 also when the command fails. -/
def EXISTS (srv : Server) (key : String) : Int :=
  match srv.down with
  | some _ => 0
  | none =>
    match mget srv.keys key with
    | some _ => 1
    | none => 0

/-- Command `SET key value EX seconds`, and `SETEX key seconds value`: an error
and no change when the server is down or `seconds` is not positive. -/
def SETEX (srv : Server) (key : String) (seconds : Int) (value : String) : Server :=
  match srv.down with
  | some _ => srv
  | none =>
    if 0 < seconds then
      { srv with keys := mset srv.keys key { value := value, ttl := some seconds } }
    else srv

/-- Command `RENAME key newkey`: an error and no change when `key` is absent. -/
def RENAME (srv : Server) (key newkey : String) : Server :=
  match srv.down with
  | some _ => srv
  | none =>
    match mget srv.keys key with
    | none => srv
    | some entry =>
      if key = newkey then srv
      else { srv with keys := mset (mdel srv.keys key) newkey entry }

/-- Command `EXPIRE key seconds`: the key is deleted when `seconds` is not
positive. -/
def EXPIRE (srv : Server) (key : String) (seconds : Int) : Server :=
  match srv.down with
  | some _ => srv
  | none =>
    match mget srv.keys key with
    | none => srv
    | some entry =>
      if 0 < seconds then
        { srv with keys := mset srv.keys key { entry with ttl := some seconds } }
      else { srv with keys := mdel srv.keys key }

/-- Command `DEL key`, with the error it returns. -/
def DEL (srv : Server) (key : String) : Server × GoError :=
  match srv.down with
  | some e => (srv, some e)
  | none => ({ srv with keys := mdel srv.keys key }, none)

namespace SessionStoreRedis

/-- Method `Set`. -/
def Set (st : SessionStoreRedis) (key value : GoValue) : SessionStoreRedis × GoError :=
  ({ st with values := mset st.values key value }, none)

/-- Method `Get`. -/
def Get (st : SessionStoreRedis) (key : GoValue) : GoValue :=
  match mget st.values key with
  | some v => v
  | none => GoValue.nil

/-- Method `Delete`. -/
def Delete (st : SessionStoreRedis) (key : GoValue) : SessionStoreRedis × GoError :=
  ({ st with values := mdel st.values key }, none)

/-- Method `Flush`. -/
def Flush (st : SessionStoreRedis) : SessionStoreRedis × GoError :=
  ({ st with values := [] }, none)

/-- Method `SessionID`. -/
def SessionID (st : SessionStoreRedis) : String := st.sid

/-- Method `SessionRelease`: `SETEX sid lifetime gob(values)`; nothing is written
when the values cannot be encoded. -/
def SessionRelease (gob : Utils.Gob) (srv : Server) (st : SessionStoreRedis) : Server :=
  match gob.EncodeGob st.values with
  | .error _ => srv
  | .ok b => SETEX srv st.sid st.lifetime b

end SessionStoreRedis

/-- Function `NewProvider`: `&ProviderRedis{}`. -/
def NewProvider : ProviderRedis :=
  { lifetime := 0, savePath := "", poolSize := 0, password := "", dbIndex := 0, pl := none }

/-- The pool size `SessionInit` reads from the fields of the configuration. -/
def initPoolSize (configs : List String) : Int :=
  match configs[1]? with
  | some field =>
    match Strconv.Atoi field with
    | some poolSize => if poolSize < 0 then MaxPoolSize else poolSize
    | none => MaxPoolSize
  | none => MaxPoolSize

/-- The database index `SessionInit` reads from the fields of the configuration. -/
def initDbIndex (configs : List String) : Int :=
  match configs[3]? with
  | some field =>
    match Strconv.Atoi field with
    | some index => if index < 0 then 0 else index
    | none => 0
  | none => 0

/-- The idle timeout `SessionInit` reads from the fields of the configuration:
`time.Duration(timeout) * time.Second`, an `int64` product. -/
def initIdleTimeout (configs : List String) : Int :=
  match configs[4]? with
  | some field =>
    match Strconv.Atoi field with
    | some timeout => if 0 < timeout then wrapInt64 (timeout * 1000000000) else 0
    | none => 0
  | none => 0

/-- Method `SessionInit`.  The error is that of `pdr.pl.Get().Err()`. -/
def SessionInit (srv : Server) (pdr : ProviderRedis) (lifetime : Int) (savePath : String) :
    ProviderRedis × GoError :=
  let configs := Strings.Split savePath ','
  ({ lifetime := lifetime,
     savePath :=
       match configs[0]? with
       | some field => field
       | none => pdr.savePath,
     poolSize := initPoolSize configs,
     password :=
       match configs[2]? with
       | some field => field
       | none => pdr.password,
     dbIndex := initDbIndex configs,
     pl := some { MaxIdle := initPoolSize configs, IdleTimeout := initIdleTimeout configs } },
   srv.down)

/-- The store `SessionNew` and `SessionRead` build from the value of a key. -/
def storeOf (gob : Utils.Gob) (pdr : ProviderRedis) (sid kvs : String) :
    Option SessionStoreRedis × GoError :=
  if kvs.length = 0 then
    (some { sid := sid, values := [], lifetime := pdr.lifetime }, none)
  else
    match gob.DecodeGob kvs with
    | .error e => (none, some e)
    | .ok kv => (some { sid := sid, values := kv, lifetime := pdr.lifetime }, none)

/-- Method `SessionNew`. -/
def SessionNew (gob : Utils.Gob) (srv : Server) (pdr : ProviderRedis) (sid : String)
    (lifetime : Int) : Outcome ((Option SessionStoreRedis × GoError) × ProviderRedis) :=
  let pdr1 := if lifetime ≠ 0 then { pdr with lifetime := lifetime } else pdr
  match pdr1.pl with
  | none => .panics nilDereference
  | some _ =>
    match GET srv sid with
    | .failed e => .ret ((none, some e), pdr1)
    | .absent => .ret (storeOf gob pdr1 sid "", pdr1)
    | .value kvs => .ret (storeOf gob pdr1 sid kvs, pdr1)

/-- Method `SessionRead`. -/
def SessionRead (gob : Utils.Gob) (srv : Server) (pdr : ProviderRedis) (sid : String) :
    Outcome (Option SessionStoreRedis × GoError) :=
  match pdr.pl with
  | none => .panics nilDereference
  | some _ =>
    match GET srv sid with
    | .failed e => .ret (none, some e)
    | .absent => .ret (none, some ErrNil)
    | .value kvs => .ret (storeOf gob pdr sid kvs)

/-- Method `SessionExist`. -/
def SessionExist (srv : Server) (pdr : ProviderRedis) (sid : String) : Outcome Bool :=
  match pdr.pl with
  | none => .panics nilDereference
  | some _ => .ret (decide (EXISTS srv sid ≠ 0))

/-- Method `SessionRegenerate`. -/
def SessionRegenerate (gob : Utils.Gob) (srv : Server) (pdr : ProviderRedis)
    (oldSid sid : String) (lifetime : Int) :
    Outcome ((Option SessionStoreRedis × GoError) × ProviderRedis × Server) :=
  let pdr1 := if lifetime ≠ 0 then { pdr with lifetime := lifetime } else pdr
  match pdr1.pl with
  | none => .panics nilDereference
  | some _ =>
    let srv1 :=
      if EXISTS srv oldSid = 0 then SETEX srv sid pdr1.lifetime ""
      else EXPIRE (RENAME srv oldSid sid) sid pdr1.lifetime
    match SessionRead gob srv1 pdr1 sid with
    | .panics msg => .panics msg
    | .ret res => .ret (res, pdr1, srv1)

/-- Method `SessionDestroy`. -/
def SessionDestroy (srv : Server) (pdr : ProviderRedis) (sid : String) :
    Outcome (Server × GoError) :=
  match pdr.pl with
  | none => .panics nilDereference
  | some _ => .ret (DEL srv sid)

/-- Method `SessionGC`: the empty body. -/
def SessionGC (pdr : ProviderRedis) : ProviderRedis := pdr

/-- Method `SessionAll`: the reply to `KEYS *`. -/
def SessionAll (srv : Server) (pdr : ProviderRedis) : Outcome (List String × GoError) :=
  match pdr.pl with
  | none => .panics nilDereference
  | some _ =>
    match srv.down with
    | some e => .ret ([], some e)
    | none => .ret (srv.keys.map Prod.fst, none)

/-- One `SessionNew` or `SessionRegenerate` call with its lifetime override. -/
inductive Call where
  | new (sid : String) (lifetime : Int)
  | regenerate (oldSid sid : String) (lifetime : Int)
deriving DecidableEq, Repr

/-- The lifetime override of a call. -/
def Call.lifetime : Call → Int
  | .new _ lifetime => lifetime
  | .regenerate _ _ lifetime => lifetime

/-- The provider and the server after one call; a call that panics leaves both. -/
def step (gob : Utils.Gob) (s : ProviderRedis × Server) : Call → ProviderRedis × Server
  | .new sid lifetime =>
    match SessionNew gob s.2 s.1 sid lifetime with
    | .ret res => (res.2, s.2)
    | .panics _ => s
  | .regenerate oldSid sid lifetime =>
    match SessionRegenerate gob s.2 s.1 oldSid sid lifetime with
    | .ret res => res.2
    | .panics _ => s

/-- The provider and the server after a sequence of calls, first call first. -/
def run (gob : Utils.Gob) (s : ProviderRedis × Server) (cs : List Call) :
    ProviderRedis × Server :=
  cs.foldl (step gob) s

/-- The lifetime a call with override 0 uses after the calls `cs`, in the words
of the code: the last override that was not 0, and the lifetime of `SessionInit`
when there was none. -/
def lastOverride (initial : Int) : List Call → Int
  | [] => initial
  | c :: cs => lastOverride (if c.lifetime ≠ 0 then c.lifetime else initial) cs

/-! ### The configuration string, in the words of the specification -/

/-- Field `i` of the configuration string, counted from 0: the text between two
commas, `none` when the string has fewer fields. -/
def field (savePath : String) (i : Nat) : Option String :=
  (Strings.Split savePath ',')[i]?

/-- The number a field parses to as a non-negative integer; `none` when the field
is omitted, does not parse or is negative. -/
def nonNegative (f : Option String) : Option Int :=
  match f with
  | none => none
  | some text =>
    match Strconv.Atoi text with
    | none => none
    | some n => if 0 ≤ n then some n else none

/-- The number a field parses to as a positive integer; `none` when the field is
omitted, does not parse or is not positive. -/
def positive (f : Option String) : Option Int :=
  match f with
  | none => none
  | some text =>
    match Strconv.Atoi text with
    | none => none
    | some n => if 0 < n then some n else none

/-- A number of seconds as a `time.Duration`: the `int64` product with
`time.Second`. -/
def seconds (n : Int) : Int := wrapInt64 (n * 1000000000)

/-! ### Concrete servers and codecs -/

/-- A codec that encodes every mapping as `gob` and decodes every non-empty
value to the empty mapping. -/
def plainGob : Utils.Gob :=
  { EncodeGob := fun _ => .ok "gob", DecodeGob := fun _ => .ok [] }

/-- A reachable server without keys. -/
def emptyServer : Server := { down := none, keys := [] }

/-- The provider after `SessionInit(3600, "127.0.0.1:6379")` on a fresh one. -/
def initialised : ProviderRedis := (SessionInit emptyServer NewProvider 3600 "127.0.0.1:6379").1

end Redis

namespace File

open Memory (GoValue GoError mget mset mdel wrapInt64 Unix)
open Session (Outcome)

/-- The struct `SessionStoreFile` (its lock is not modelled). -/
structure SessionStoreFile where
  sid : String
  values : List (GoValue × GoValue)
deriving DecidableEq, Repr

/-- The struct `ProviderFile` (its lock is not modelled). -/
structure ProviderFile where
  lifeTime : Int
  savePath : String
deriving DecidableEq, Repr

/-- A regular file: its bytes and its modification time. -/
structure FileNode where
  data : String
  modTime : Int
deriving DecidableEq, Repr

/-- The file system: the regular files by cleaned path. -/
abbrev FS := List (String × FileNode)

/-- The object behind the package-level pointer `filePdr = &ProviderFile{}`
before any call. -/
def filePdr : ProviderFile := { lifeTime := 0, savePath := "" }

/-- Function `NewProvider`: it returns the pointer `filePdr`, the same object at
every call. -/
def NewProvider : ProviderFile := filePdr

/-! ### Paths -/

/-- The index expression `s[i]` on a string. -/
def byteAt (s : String) (i : Nat) : Outcome Char :=
  match s.data[i]? with
  | some c => .ret c
  | none =>
    .panics ("runtime error: index out of range [" ++ toString i ++ "] with length " ++
      toString s.length)

/-- The conversion `string(b)` of a byte: the UTF-8 encoding of the code point
`b`, two bytes from `0x80` on. -/
def byteString (b : Char) : String :=
  if b.toNat < 128 then ⟨[b]⟩
  else ⟨[Char.ofNat (192 + b.toNat / 64), Char.ofNat (128 + b.toNat % 64)]⟩

/-- The elements of a cleaned path: empty and `.` elements dropped, an inner
`..` eliminated with the element before it, a `..` at the root dropped. -/
def cleanSegs (rooted : Bool) : List String → List String → List String
  | st, [] => st.reverse
  | st, seg :: rest =>
    if seg = "" ∨ seg = "." then cleanSegs rooted st rest
    else if seg = ".." then
      match st with
      | top :: below =>
        if top = ".." then cleanSegs rooted (seg :: st) rest
        else cleanSegs rooted below rest
      | [] => if rooted then cleanSegs rooted [] rest else cleanSegs rooted [seg] rest
    else cleanSegs rooted (seg :: st) rest

/-- Function `path.Clean`. -/
def Clean (path : String) : String :=
  let rooted := path.data.head? = some '/'
  let body := String.intercalate "/" (cleanSegs rooted [] (Strings.Split path '/'))
  if rooted then "/" ++ body
  else if body = "" then "." else body

/-- Function `path.Join`. -/
def Join (elem : List String) : String :=
  let parts := elem.filter (fun e => e ≠ "")
  if parts = [] then "" else Clean (String.intercalate "/" parts)

/-- The last element of a path: `FileInfo.Name()` of the file there. -/
def baseName (path : String) : String :=
  match (Strings.Split path '/').getLast? with
  | some name => name
  | none => path

/-- Whether `filepath.Walk(root, ..)` visits the file at `path`. -/
def visits (root path : String) : Bool :=
  if root = "" then false
  else if Clean root = path then true
  else if Clean root = "/" then path.data.head? = some '/'
  else if Clean root = "." then
    path.data.head? ≠ some '/' && (Strings.Split path '/').head? ≠ some ".."
  else (Clean root ++ "/").data.isPrefixOf path.data

/-- The directory `path.Join(savePath, string(sid[0]), string(sid[1]))`; the two
index expressions are evaluated first to last. -/
def shardDir (savePath sid : String) : Outcome String :=
  match byteAt sid 0 with
  | .panics msg => .panics msg
  | .ret b0 =>
    match byteAt sid 1 with
    | .panics msg => .panics msg
    | .ret b1 => .ret (Join [savePath, byteString b0, byteString b1])

/-- The file `path.Join(savePath, string(sid[0]), string(sid[1]), sid)`. -/
def sidFile (savePath sid : String) : Outcome String :=
  match byteAt sid 0 with
  | .panics msg => .panics msg
  | .ret b0 =>
    match byteAt sid 1 with
    | .panics msg => .panics msg
    | .ret b1 => .ret (Join [savePath, byteString b0, byteString b1, sid])

/-! ### The file system calls -/

/-- The error of `os.Stat` on a path without a file. -/
def notExist (path : String) : String :=
  "stat " ++ path ++ ": no such file or directory"

/-- Function `os.Create`, and `ioutil.WriteFile`: the file with the given bytes,
created or truncated. -/
def WriteFile (fs : FS) (path data : String) (now : Int) : FS :=
  mset fs path { data := data, modTime := now }

/-- Function `os.Chtimes(path, now, now)`: no change when there is no file. -/
def Chtimes (fs : FS) (path : String) (now : Int) : FS :=
  match mget fs path with
  | some f => mset fs path { f with modTime := now }
  | none => fs

/-- Function `os.Remove`: no change when there is no file. -/
def Remove (fs : FS) (path : String) : FS := mdel fs path

/-- The store the provider builds from the bytes of a session file. -/
def storeOf (gob : Utils.Gob) (sid b : String) : Option SessionStoreFile × GoError :=
  if b.length = 0 then (some { sid := sid, values := [] }, none)
  else
    match gob.DecodeGob b with
    | .error e => (none, some e)
    | .ok kv => (some { sid := sid, values := kv }, none)

/-! ### ProviderFile -/

/-- Method `SessionInit`. -/
def SessionInit (_pdr : ProviderFile) (lifetime : Int) (savePath : String) :
    ProviderFile × GoError :=
  ({ lifeTime := lifetime, savePath := savePath }, none)

/-- Method `SessionNew`. -/
def SessionNew (gob : Utils.Gob) (now : Int) (pdr : ProviderFile) (fs : FS) (sid : String) :
    Outcome ((Option SessionStoreFile × GoError) × FS) :=
  if Strings.ContainsAny sid "./" then .ret ((none, none), fs)
  else if sid.length < 2 then .ret ((none, some "length of the sid is less than 2"), fs)
  else
    match sidFile pdr.savePath sid with
    | .panics msg => .panics msg
    | .ret file =>
      match mget fs file with
      | some f => .ret (storeOf gob sid f.data, Chtimes fs file now)
      | none => .ret (storeOf gob sid "", Chtimes (WriteFile fs file "" now) file now)

/-- Method `SessionRead`. -/
def SessionRead (gob : Utils.Gob) (now : Int) (pdr : ProviderFile) (fs : FS) (sid : String) :
    Outcome ((Option SessionStoreFile × GoError) × FS) :=
  if Strings.ContainsAny sid "./" then .ret ((none, none), fs)
  else if sid.length < 2 then .ret ((none, some "length of the sid is less than 2"), fs)
  else
    match sidFile pdr.savePath sid with
    | .panics msg => .panics msg
    | .ret file =>
      match mget fs file with
      | none => .ret ((none, some (notExist file)), fs)
      | some f => .ret (storeOf gob sid f.data, Chtimes fs file now)

/-- Method `SessionExist`. -/
def SessionExist (pdr : ProviderFile) (fs : FS) (sid : String) : Outcome Bool :=
  match sidFile pdr.savePath sid with
  | .panics msg => .panics msg
  | .ret file => .ret (mget fs file).isSome

/-- Method `SessionDestroy`. -/
def SessionDestroy (pdr : ProviderFile) (fs : FS) (sid : String) : Outcome (FS × GoError) :=
  match sidFile pdr.savePath sid with
  | .panics msg => .panics msg
  | .ret file => .ret (Remove fs file, none)

/-- Function `gcDir` on one regular file, with the package-level variable
`gcLifeTime`. -/
def gcDir (gcLifeTime now : Int) (fs : FS) (path : String) (info : FileNode) : FS :=
  if wrapInt64 (Unix info.modTime + gcLifeTime) < Unix now then Remove fs path else fs

/-- Method `SessionGC`: `gcLifeTime = pdr.lifeTime`, then the walk of the files
under `pdr.savePath`. -/
def SessionGC (now : Int) (pdr : ProviderFile) (fs : FS) : FS :=
  (fs.filter (fun p => visits pdr.savePath p.1)).foldl
    (fun acc p => gcDir pdr.lifeTime now acc p.1 p.2) fs

/-- Method `SessionAll`: the names of the files under `pdr.savePath`. -/
def SessionAll (pdr : ProviderFile) (fs : FS) : List String × GoError :=
  if pdr.savePath = "" then ([], some "lstat : no such file or directory")
  else (((fs.filter (fun p => visits pdr.savePath p.1)).map (fun p => baseName p.1)), none)

/-- Method `SessionRegenerate`. -/
def SessionRegenerate (gob : Utils.Gob) (now : Int) (pdr : ProviderFile) (fs : FS)
    (oldSid sid : String) : Outcome ((Option SessionStoreFile × GoError) × FS) :=
  match shardDir pdr.savePath oldSid with
  | .panics msg => .panics msg
  | .ret oldPath =>
    let oldSidFile := Join [oldPath, oldSid]
    match shardDir pdr.savePath sid with
    | .panics msg => .panics msg
    | .ret newPath =>
      let newSidFile := Join [newPath, sid]
      match mget fs oldSidFile with
      | some f =>
        if f.data.length = 0 then
          let fs1 := if oldSid ≠ sid then Remove (WriteFile fs newSidFile f.data now) oldSidFile
            else fs
          .ret ((some { sid := sid, values := [] }, none), Chtimes fs1 newSidFile now)
        else
          match gob.DecodeGob f.data with
          | .error e => .ret ((none, some e), fs)
          | .ok kv =>
            let fs1 := if oldSid ≠ sid then Remove (WriteFile fs newSidFile f.data now) oldSidFile
              else fs
            .ret ((some { sid := sid, values := kv }, none), Chtimes fs1 newSidFile now)
      | none =>
        .ret ((some { sid := sid, values := [] }, none), WriteFile fs newSidFile "" now)

/-- Method `SessionRelease` of `SessionStoreFile`: the values are written to the
session file under `filePdr.savePath`. -/
def SessionRelease (gob : Utils.Gob) (now : Int) (pdr : ProviderFile) (fs : FS)
    (st : SessionStoreFile) : Outcome FS :=
  match gob.EncodeGob st.values with
  | .error _ => .ret fs
  | .ok b =>
    match sidFile pdr.savePath st.sid with
    | .panics msg => .panics msg
    | .ret file => .ret (WriteFile fs file b now)

/-! ### The file provider behind the interface -/

/-- The object `filePdr`, the file system and the stores handed out. -/
structure World where
  pdr : ProviderFile
  fs : FS
  stores : List SessionStoreFile
deriving DecidableEq, Repr

/-- A result pair of the provider as a handle into `World.stores`. -/
def handOut (w : World) (res : (Option SessionStoreFile × GoError) × FS) :
    (Option Nat × GoError) × World :=
  match res.1.1 with
  | some st => ((some w.stores.length, res.1.2), { w with fs := res.2, stores := w.stores ++ [st] })
  | none => ((none, res.1.2), { w with fs := res.2 })

/-- The file provider behind the interface `Provider`, every `time.Now()` reading
`now`.  Its `SessionNew` has no lifetime parameter: the argument is dropped.  The
interface has no place for a panic: a call that panics (see `SessionExist`,
`SessionDestroy`, `SessionRegenerate` on an id shorter than two bytes) is
given the zero result and no effect here. -/
def fileProvider (gob : Utils.Gob) (now : Int) : Session.Provider World where
  SessionInit := fun w lifetime savePath =>
    ({ w with pdr := (SessionInit w.pdr lifetime savePath).1 },
      (SessionInit w.pdr lifetime savePath).2)
  SessionNew := fun w sid _ =>
    match SessionNew gob now w.pdr w.fs sid with
    | .ret res => handOut w res
    | .panics _ => ((none, none), w)
  SessionRead := fun w sid =>
    match SessionRead gob now w.pdr w.fs sid with
    | .ret res => handOut w res
    | .panics _ => ((none, none), w)
  SessionExist := fun w sid =>
    match SessionExist w.pdr w.fs sid with
    | .ret b => b
    | .panics _ => false
  SessionRegenerate := fun w oldSid sid =>
    match SessionRegenerate gob now w.pdr w.fs oldSid sid with
    | .ret res => handOut w res
    | .panics _ => ((none, none), w)
  SessionDestroy := fun w sid =>
    match SessionDestroy w.pdr w.fs sid with
    | .ret res => ({ w with fs := res.1 }, res.2)
    | .panics _ => (w, none)
  SessionAll := fun w => SessionAll w.pdr w.fs
  SessionGC := fun w => { w with fs := SessionGC now w.pdr w.fs }
  Set := fun w h key value =>
    ({ w with stores := w.stores.modify (fun st => { st with values := mset st.values key value }) h },
      none)
  Get := fun w h key =>
    match w.stores[h]? with
    | some st =>
      match mget st.values key with
      | some v => v
      | none => GoValue.nil
    | none => GoValue.nil
  SessionID := fun w h =>
    match w.stores[h]? with
    | some st => st.sid
    | none => ""
  SessionRelease := fun w h =>
    match w.stores[h]? with
    | some st =>
      match SessionRelease gob now w.pdr w.fs st with
      | .ret fs => { w with fs := fs }
      | .panics _ => w
    | none => w

/-! ### Concrete file systems and configurations -/

/-- A codec that encodes every mapping as `gob` and decodes every non-empty file
to the empty mapping. -/
def plainGob : Utils.Gob :=
  { EncodeGob := fun _ => .ok "gob", DecodeGob := fun _ => .ok [] }

/-- The provider after `SessionInit(3600, "/var/sessions")`. -/
def sessionsDir : ProviderFile := (SessionInit filePdr 3600 "/var/sessions").1

/-- A file system holding the session file of `ab` under `/var/sessions`. -/
def oneFile : FS := [("/var/sessions/a/b/ab", { data := "", modTime := 0 })]

/-- The world before any call: the object `filePdr` and no files. -/
def emptyWorld : World := { pdr := filePdr, fs := [], stores := [] }

/-- A Manager over the file provider under `/var/sessions`, with the
configuration `sampleConfig`, whose ids start with `p/`. -/
def slashManager : Session.Manager World :=
  { provider := { pdr := sessionsDir, fs := [], stores := [] }, providerMgr := .null,
    config := Session.sampleConfig }

/-- A configuration with the primary provider under `/var/sessions` and the
secondary provider under `/var/tokens`. -/
def twoDirsConfig : Session.ManagerConfig :=
  { Session.sampleConfig with ProviderConfig := "/var/sessions",
                              ProviderConfigMgr := "/var/tokens" }

end File

namespace MySQL

open Memory (GoError)
open Session (Outcome)

/-- The constant `TableName`. -/
def TableName : String := "session"

/-- The constant `sqlInit`. -/
def sqlInit : String :=
  "\n\t\tCREATE TABLE " ++ TableName ++ " (\n\t\tsession_key char(64) NOT NULL,\n\t\t" ++
  "session_data blob,\n\t\tsession_expiry int(11) unsigned NOT NULL,\n\t\t" ++
  "PRIMARY KEY (session_key)\n\t\t) ENGINE=MyISAM DEFAULT CHARSET=utf8;\n\t"

/-- The struct `ProviderMySQL`. -/
structure ProviderMySQL where
  lifetime : Int
  savePath : String
deriving DecidableEq, Repr

/-- The database behind the driver: the error of `sql.Open` on a data source
name, and the error of `Exec` on a statement. -/
structure Database where
  Open : String → GoError
  Exec : String → GoError

/-- Function `NewProvider`: `&ProviderMySQL{}`. -/
def NewProvider : ProviderMySQL := { lifetime := 0, savePath := "" }

/-- Method `connectInit`: whether it returns a handle, `false` for `nil`. -/
def connectInit (db : Database) (pdr : ProviderMySQL) : Bool :=
  (db.Open pdr.savePath).isNone

/-- Method `SessionInit`.  `c.Exec` on the nil handle of a failed `connectInit`
panics. -/
def SessionInit (db : Database) (_pdr : ProviderMySQL) (lifetime : Int) (savePath : String) :
    Outcome (ProviderMySQL × GoError) :=
  let pdr1 : ProviderMySQL := { lifetime := lifetime, savePath := savePath }
  if connectInit db pdr1 then
    match db.Exec sqlInit with
    | none => .ret (pdr1, none)
    | some msg =>
      if Strings.ContainsAny msg "already exists" then .ret (pdr1, none)
      else .ret (pdr1, some msg)
  else .panics nilDereference

/-- The test the comparison with `already exists` stands for: the message of the
error says that the table exists. -/
def tableExists (err : GoError) : Bool :=
  match err with
  | some msg => Strings.Contains msg "already exists"
  | none => false

/-! ### Concrete databases -/

/-- A database that cannot be reached: every statement fails with the error of
the refused connection. -/
def refusing : Database :=
  { Open := fun _ => none,
    Exec := fun _ => some "dial tcp 127.0.0.1:3306: connect: connection refused" }

/-- A database in which the table `session` exists. -/
def withTable : Database :=
  { Open := fun _ => none,
    Exec := fun _ => some "Error 1050: Table 'session' already exists" }

/-- A database without the table `session`. -/
def fresh : Database := { Open := fun _ => none, Exec := fun _ => none }

end MySQL

namespace Memory

/-! ## Lemmas on Go maps -/

section maps
variable {κ ν : Type} [DecidableEq κ]

theorem mdel_cons_eq (rest : List (κ × ν)) (k : κ) (v : ν) :
    mdel ((k, v) :: rest) k = mdel rest k := by
  simp [mdel, List.filter_cons]

theorem mdel_cons_ne (rest : List (κ × ν)) {k k' : κ} (v : ν) (h : k' ≠ k) :
    mdel ((k', v) :: rest) k = (k', v) :: mdel rest k := by
  simp [mdel, List.filter_cons, h]

theorem mget_cons_eq (rest : List (κ × ν)) (k : κ) (v : ν) :
    mget ((k, v) :: rest) k = some v := by
  simp [mget]

theorem mget_cons_ne (rest : List (κ × ν)) {k k' : κ} (v : ν) (h : k' ≠ k) :
    mget ((k', v) :: rest) k = mget rest k := by
  simp [mget, h]

theorem mget_mdel_self (m : List (κ × ν)) (k : κ) : mget (mdel m k) k = none := by
  induction m with
  | nil => rfl
  | cons p rest ih =>
    obtain ⟨k', v⟩ := p
    by_cases h : k' = k
    · subst h
      rw [mdel_cons_eq]; exact ih
    · rw [mdel_cons_ne _ _ h, mget_cons_ne _ _ h]; exact ih

theorem mget_mdel_ne (m : List (κ × ν)) {k j : κ} (h : j ≠ k) :
    mget (mdel m k) j = mget m j := by
  induction m with
  | nil => rfl
  | cons p rest ih =>
    obtain ⟨k', v⟩ := p
    by_cases hk : k' = k
    · subst hk
      rw [mdel_cons_eq, mget_cons_ne _ _ (Ne.symm h)]; exact ih
    · rw [mdel_cons_ne _ _ hk]
      by_cases hj : k' = j
      · subst hj
        rw [mget_cons_eq, mget_cons_eq]
      · rw [mget_cons_ne _ _ hj, mget_cons_ne _ _ hj]; exact ih

theorem mget_mset_self (m : List (κ × ν)) (k : κ) (v : ν) : mget (mset m k v) k = some v := by
  simp [mset, mget]

theorem mget_mset_ne (m : List (κ × ν)) {k j : κ} (v : ν) (h : j ≠ k) :
    mget (mset m k v) j = mget m j := by
  rw [mset, mget_cons_ne _ _ (Ne.symm h), mget_mdel_ne m h]

theorem mdel_of_mget_none (m : List (κ × ν)) (k : κ) (h : mget m k = none) : mdel m k = m := by
  induction m with
  | nil => rfl
  | cons p rest ih =>
    obtain ⟨k', v⟩ := p
    by_cases hk : k' = k
    · subst hk
      rw [mget_cons_eq] at h
      exact absurd h (by simp)
    · rw [mget_cons_ne _ _ hk] at h
      rw [mdel_cons_ne _ _ hk, ih h]

end maps

/-! ## The store as a finite map -/

/-- C10: through `Get`, a memory session store is a finite map: `Set(k, v)` makes
`Get(k)` return `v` and leaves every other key alone, `Delete(k)` makes `Get(k)`
return `nil` and leaves every other key alone, after `Flush()` every key reads
`nil`; the three return a nil error and keep `SessionID()`, and `SessionRelease()`
changes nothing. -/
theorem store_is_finite_map (st : SessionStoreMem) (k j v : GoValue) (hj : j ≠ k) :
    (st.Set k v).1.Get k = v ∧
    (st.Set k v).1.Get j = st.Get j ∧
    (st.Delete k).1.Get k = GoValue.nil ∧
    (st.Delete k).1.Get j = st.Get j ∧
    (∀ q : GoValue, st.Flush.1.Get q = GoValue.nil) ∧
    (st.Set k v).2 = none ∧ (st.Delete k).2 = none ∧ st.Flush.2 = none ∧
    (st.Set k v).1.SessionID = st.SessionID ∧
    (st.Delete k).1.SessionID = st.SessionID ∧
    st.Flush.1.SessionID = st.SessionID ∧
    st.SessionRelease = st := by
  refine ⟨?_, ?_, ?_, ?_, ?_, rfl, rfl, rfl, rfl, rfl, rfl, rfl⟩
  · simp [SessionStoreMem.Set, SessionStoreMem.Get, mget_mset_self]
  · simp [SessionStoreMem.Set, SessionStoreMem.Get, mget_mset_ne _ _ hj]
  · simp [SessionStoreMem.Delete, SessionStoreMem.Get, mget_mdel_self]
  · simp [SessionStoreMem.Delete, SessionStoreMem.Get, mget_mdel_ne _ hj]
  · intro q
    simp [SessionStoreMem.Flush, SessionStoreMem.Get, mget]

theorem store_is_finite_map_witness :
    GoValue.str "b" ≠ GoValue.str "a" ∧
    (sampleStore.Set (GoValue.str "a") (GoValue.int 7)).1.Get (GoValue.str "a") = GoValue.int 7 ∧
    (sampleStore.Set (GoValue.str "a") (GoValue.int 7)).1.Get (GoValue.str "b")
      = sampleStore.Get (GoValue.str "b") :=
  ⟨by decide,
   (store_is_finite_map sampleStore (GoValue.str "a") (GoValue.str "b") (GoValue.int 7)
      (by decide)).1,
   (store_is_finite_map sampleStore (GoValue.str "a") (GoValue.str "b") (GoValue.int 7)
      (by decide)).2.1⟩

/-! ## Elementary facts on the provider calls -/

theorem SessionExist_eq_true_iff (pdr : ProviderMem) (sid : String) :
    SessionExist pdr sid = true ↔ ∃ e, mget pdr.sessions sid = some e := by
  unfold SessionExist
  cases h : mget pdr.sessions sid <;> simp

theorem SessionExist_eq_false_iff (pdr : ProviderMem) (sid : String) :
    SessionExist pdr sid = false ↔ mget pdr.sessions sid = none := by
  unfold SessionExist
  cases h : mget pdr.sessions sid <;> simp

theorem SessionNew_of_resident {pdr : ProviderMem} {sid : String} {e : Nat} (now : Int)
    (h : mget pdr.sessions sid = some e) :
    SessionNew pdr sid now = { val := .ok e, st := pdr, spawned := some sid } := by
  simp [SessionNew, h]

theorem SessionNew_of_absent {pdr : ProviderMem} {sid : String} (now : Int)
    (h : mget pdr.sessions sid = none) :
    SessionNew pdr sid now =
      { val := .ok pdr.heap.length,
        st := { pdr with
          heap := pdr.heap ++ [{ sid := sid, timeAccessed := now, values := [] }],
          list := pdr.heap.length :: pdr.list,
          sessions := mset pdr.sessions sid pdr.heap.length },
        spawned := none } := by
  simp [SessionNew, h, PushFront]

theorem SessionRead_of_resident {pdr : ProviderMem} {sid : String} {e : Nat}
    (h : mget pdr.sessions sid = some e) :
    SessionRead pdr sid = { val := .ok e, st := pdr, spawned := some sid } := by
  simp [SessionRead, h]

theorem SessionRead_of_absent {pdr : ProviderMem} {sid : String}
    (h : mget pdr.sessions sid = none) :
    SessionRead pdr sid =
      { val := .error "the sid's session not found", st := pdr, spawned := none } := by
  simp [SessionRead, h]

theorem SessionUpdate_of_resident {pdr : ProviderMem} {sid : String} {e : Nat} (now : Int)
    (h : mget pdr.sessions sid = some e) :
    SessionUpdate pdr sid now =
      { pdr with
        heap := pdr.heap.modify (fun r => { r with timeAccessed := now }) e,
        list := MoveToFront pdr.list e } := by
  simp [SessionUpdate, h]

theorem SessionUpdate_of_absent {pdr : ProviderMem} {sid : String} (now : Int)
    (h : mget pdr.sessions sid = none) : SessionUpdate pdr sid now = pdr := by
  simp [SessionUpdate, h]

theorem SessionUpdate_sessions (pdr : ProviderMem) (sid : String) (now : Int) :
    (SessionUpdate pdr sid now).sessions = pdr.sessions := by
  unfold SessionUpdate
  cases mget pdr.sessions sid <;> rfl

theorem MoveToFront_perm (l : List Nat) (e : Nat) : (MoveToFront l e).Perm l := by
  unfold MoveToFront
  by_cases h : e ∈ l
  · rw [if_pos h]; exact (List.perm_cons_erase h).symm
  · rw [if_neg h]

/-- A touch changes no value mapping and no session id: it only rewrites
`timeAccessed` of the touched record. -/
theorem SessionUpdate_deref (pdr : ProviderMem) (sid : String) (now : Int) (a : Nat) :
    (deref (SessionUpdate pdr sid now) a).map (fun r => (r.sid, r.values)) =
      (deref pdr a).map (fun r => (r.sid, r.values)) := by
  unfold SessionUpdate deref
  cases mget pdr.sessions sid with
  | none => rfl
  | some e =>
    simp only [List.getElem?_modify]
    cases pdr.heap[a]? with
    | none => rfl
    | some r => by_cases he : e = a <;> simp [he]

/-! ## SessionRead -/

/-- C5: `SessionRead` never fabricates a record.  It fails with the not-found
error exactly when the id is not resident, and then starts no touch; it never
changes the provider (so the resident ids are unchanged when it fails); on a
resident id it returns the record the index holds for it; and right after
`SessionNew(sid)`, also when the touch started by `SessionNew` has run in
between, it returns the record `SessionNew` returned, with the same value
mapping. -/
theorem read_never_fabricates (pdr : ProviderMem) (sid : String) :
    ((SessionRead pdr sid).val = .error "the sid's session not found" ↔
        SessionExist pdr sid = false) ∧
    (SessionExist pdr sid = false → (SessionRead pdr sid).spawned = none) ∧
    (SessionRead pdr sid).st = pdr ∧
    (∀ e, mget pdr.sessions sid = some e → (SessionRead pdr sid).val = .ok e) ∧
    (∀ now, (SessionRead (SessionNew pdr sid now).st sid).val = (SessionNew pdr sid now).val ∧
      (SessionRead (SessionNew pdr sid now).st sid).st = (SessionNew pdr sid now).st) ∧
    (∀ now t a,
      (SessionRead (SessionUpdate (SessionNew pdr sid now).st sid t) sid).val
        = (SessionNew pdr sid now).val ∧
      (deref (SessionRead (SessionUpdate (SessionNew pdr sid now).st sid t) sid).st a).map
          (fun r => (r.sid, r.values))
        = (deref (SessionNew pdr sid now).st a).map (fun r => (r.sid, r.values))) := by
  have hst : ∀ (p : ProviderMem) (x : String), (SessionRead p x).st = p := by
    intro p x
    unfold SessionRead
    cases mget p.sessions x <;> rfl
  have hnew : ∀ now, ∃ e, (SessionNew pdr sid now).val = .ok e ∧
      mget (SessionNew pdr sid now).st.sessions sid = some e := by
    intro now
    cases h : mget pdr.sessions sid with
    | some e => exact ⟨e, by rw [SessionNew_of_resident now h], by
        rw [SessionNew_of_resident now h]; exact h⟩
    | none => exact ⟨pdr.heap.length, by rw [SessionNew_of_absent now h], by
        rw [SessionNew_of_absent now h]; exact mget_mset_self _ _ _⟩
  refine ⟨?_, ?_, hst pdr sid, ?_, ?_, ?_⟩
  · rw [SessionExist_eq_false_iff]
    cases h : mget pdr.sessions sid with
    | some e => simp [SessionRead_of_resident h]
    | none => simp [SessionRead_of_absent h]
  · intro h
    rw [SessionRead_of_absent ((SessionExist_eq_false_iff _ _).1 h)]
  · intro e h
    rw [SessionRead_of_resident h]
  · intro now
    obtain ⟨e, hv, hm⟩ := hnew now
    exact ⟨by rw [SessionRead_of_resident hm, hv], hst _ _⟩
  · intro now t a
    obtain ⟨e, hv, hm⟩ := hnew now
    have hm' : mget (SessionUpdate (SessionNew pdr sid now).st sid t).sessions sid = some e := by
      rw [SessionUpdate_sessions]; exact hm
    refine ⟨by rw [SessionRead_of_resident hm', hv], ?_⟩
    rw [hst, SessionUpdate_deref]

theorem read_never_fabricates_witness :
    mget oneSession.sessions "A" = some 0 ∧ (SessionRead oneSession "A").val = .ok 0 :=
  ⟨by decide, (read_never_fabricates oneSession "A").2.2.2.1 0 (by decide)⟩

/-! ## SessionNew -/

/-- C4: `SessionNew` is first-exists-wins.  On a resident id it returns the record
the index holds and leaves the provider as it was; the touch it starts keeps the
index, the number of list nodes (the list is permuted) and every value mapping.
On a non-resident id it allocates one record with that id, the time `now` and an
empty value mapping, pushes it at the head of the list, indexes it, and leaves
every other record, list node and index entry as it was. -/
theorem new_first_exists_wins (pdr : ProviderMem) (sid : String) (now : Int) :
    (∀ e, mget pdr.sessions sid = some e →
      (SessionNew pdr sid now).val = .ok e ∧
      (SessionNew pdr sid now).st = pdr ∧
      (SessionNew pdr sid now).spawned = some sid ∧
      ∀ t, (SessionUpdate pdr sid t).sessions = pdr.sessions ∧
        (SessionUpdate pdr sid t).list.length = pdr.list.length ∧
        (SessionUpdate pdr sid t).list.Perm pdr.list ∧
        (SessionUpdate pdr sid t).heap.length = pdr.heap.length ∧
        ∀ a, (deref (SessionUpdate pdr sid t) a).map (fun r => (r.sid, r.values))
          = (deref pdr a).map (fun r => (r.sid, r.values))) ∧
    (mget pdr.sessions sid = none →
      (SessionNew pdr sid now).val = .ok pdr.heap.length ∧
      (SessionNew pdr sid now).spawned = none ∧
      (SessionNew pdr sid now).st.list = pdr.heap.length :: pdr.list ∧
      deref (SessionNew pdr sid now).st pdr.heap.length
        = some { sid := sid, timeAccessed := now, values := [] } ∧
      (SessionNew pdr sid now).st.heap.length = pdr.heap.length + 1 ∧
      (∀ a, a < pdr.heap.length → deref (SessionNew pdr sid now).st a = deref pdr a) ∧
      mget (SessionNew pdr sid now).st.sessions sid = some pdr.heap.length ∧
      (∀ k, k ≠ sid → mget (SessionNew pdr sid now).st.sessions k = mget pdr.sessions k) ∧
      (SessionNew pdr sid now).st.lifetime = pdr.lifetime) := by
  constructor
  · intro e h
    rw [SessionNew_of_resident now h]
    refine ⟨rfl, rfl, rfl, ?_⟩
    intro t
    refine ⟨SessionUpdate_sessions _ _ _, ?_, ?_, ?_, SessionUpdate_deref _ _ _⟩
    · rw [SessionUpdate_of_resident t h]
      exact (MoveToFront_perm _ _).length_eq
    · rw [SessionUpdate_of_resident t h]
      exact MoveToFront_perm _ _
    · rw [SessionUpdate_of_resident t h]
      simp
  · intro h
    rw [SessionNew_of_absent now h]
    refine ⟨rfl, rfl, rfl, ?_, ?_, ?_, ?_, ?_, rfl⟩
    · simp [deref]
    · simp
    · intro a ha
      simp [deref, List.getElem?_append_left ha]
    · exact mget_mset_self _ _ _
    · intro k hk
      exact mget_mset_ne _ _ hk

theorem new_first_exists_wins_witness :
    (mget oneSession.sessions "A" = some 0 ∧ (SessionNew oneSession "A" 5).st = oneSession) ∧
    (mget oneSession.sessions "B" = none ∧
      (SessionNew oneSession "B" 5).st.list = oneSession.heap.length :: oneSession.list) :=
  ⟨⟨by decide, ((new_first_exists_wins oneSession "A" 5).1 0 (by decide)).2.1⟩,
   ⟨by decide, ((new_first_exists_wins oneSession "B" 5).2 (by decide)).2.2.1⟩⟩

/-! ## SessionDestroy -/

theorem SessionDestroy_of_resident {pdr : ProviderMem} {sid : String} {e : Nat}
    (h : mget pdr.sessions sid = some e) :
    SessionDestroy pdr sid =
      ({ pdr with sessions := mdel pdr.sessions sid, list := Remove pdr.list e }, none) := by
  simp [SessionDestroy, h]

theorem SessionDestroy_of_absent {pdr : ProviderMem} {sid : String}
    (h : mget pdr.sessions sid = none) : SessionDestroy pdr sid = (pdr, none) := by
  simp [SessionDestroy, h]

theorem SessionDestroy_sessions (pdr : ProviderMem) (sid : String) :
    (SessionDestroy pdr sid).1.sessions = mdel pdr.sessions sid := by
  cases h : mget pdr.sessions sid with
  | some e => rw [SessionDestroy_of_resident h]
  | none => rw [SessionDestroy_of_absent h, mdel_of_mget_none _ _ h]

/-- C9: `SessionDestroy` is idempotent and never fails.  It returns a nil error;
afterwards the id is not resident, every other index entry and every record is as
before, and the list is the old list without the node the id indexed (the other
nodes in their old order; with distinct nodes, that node is gone from the list);
on a non-resident id nothing changes; a second `SessionDestroy` of the same id
returns nil and changes nothing. -/
theorem destroy_idempotent (pdr : ProviderMem) (sid : String) :
    (SessionDestroy pdr sid).2 = none ∧
    SessionExist (SessionDestroy pdr sid).1 sid = false ∧
    (∀ k, k ≠ sid → mget (SessionDestroy pdr sid).1.sessions k = mget pdr.sessions k) ∧
    (SessionDestroy pdr sid).1.heap = pdr.heap ∧
    (SessionDestroy pdr sid).1.list.Sublist pdr.list ∧
    (∀ e, mget pdr.sessions sid = some e →
      (SessionDestroy pdr sid).1.list = pdr.list.erase e ∧
      (∀ x, x ≠ e → (x ∈ (SessionDestroy pdr sid).1.list ↔ x ∈ pdr.list)) ∧
      (pdr.list.Nodup → e ∉ (SessionDestroy pdr sid).1.list)) ∧
    (mget pdr.sessions sid = none → (SessionDestroy pdr sid).1 = pdr) ∧
    SessionDestroy (SessionDestroy pdr sid).1 sid = ((SessionDestroy pdr sid).1, none) := by
  have hgone : mget (SessionDestroy pdr sid).1.sessions sid = none := by
    rw [SessionDestroy_sessions]; exact mget_mdel_self _ _
  refine ⟨?_, ?_, ?_, ?_, ?_, ?_, ?_, SessionDestroy_of_absent hgone⟩
  · unfold SessionDestroy
    cases mget pdr.sessions sid <;> rfl
  · rw [SessionExist_eq_false_iff]; exact hgone
  · intro k hk
    rw [SessionDestroy_sessions]; exact mget_mdel_ne _ hk
  · unfold SessionDestroy
    cases mget pdr.sessions sid <;> rfl
  · cases h : mget pdr.sessions sid with
    | some e =>
      rw [SessionDestroy_of_resident h]
      exact List.erase_sublist _ _
    | none => rw [SessionDestroy_of_absent h]
  · intro e h
    rw [SessionDestroy_of_resident h]
    refine ⟨rfl, ?_, ?_⟩
    · intro x hx
      exact List.mem_erase_of_ne hx
    · intro hnd
      exact fun hmem => (List.Nodup.mem_erase_iff hnd).1 hmem |>.1 rfl
  · intro h
    rw [SessionDestroy_of_absent h]

theorem destroy_idempotent_witness :
    (mget oneSession.sessions "A" = some 0 ∧ oneSession.list.Nodup ∧
      0 ∉ (SessionDestroy oneSession "A").1.list) ∧
    (mget oneSession.sessions "B" = none ∧ (SessionDestroy oneSession "B").1 = oneSession) :=
  ⟨⟨by decide, by decide,
     ((destroy_idempotent oneSession "A").2.2.2.2.2.1 0 (by decide)).2.2 (by decide)⟩,
   ⟨by decide, (destroy_idempotent oneSession "B").2.2.2.2.2.2.1 (by decide)⟩⟩

/-! ## SessionRegenerate -/

theorem SessionRegenerate_of_resident {pdr : ProviderMem} {oldSid sid : String} {e : Nat}
    (now : Int) (h : mget pdr.sessions oldSid = some e) :
    SessionRegenerate pdr oldSid sid now =
      { val := .ok e,
        st := { pdr with
          heap := pdr.heap.modify (fun r => { r with sid := sid }) e,
          sessions := if oldSid ≠ sid then mdel (mset pdr.sessions sid e) oldSid
            else mset pdr.sessions sid e },
        spawned := some oldSid } := by
  simp [SessionRegenerate, h]

theorem SessionRegenerate_of_absent {pdr : ProviderMem} {oldSid sid : String} (now : Int)
    (h : mget pdr.sessions oldSid = none) :
    SessionRegenerate pdr oldSid sid now =
      { val := .ok pdr.heap.length,
        st := { pdr with
          heap := pdr.heap ++ [{ sid := sid, timeAccessed := now, values := [] }],
          list := pdr.heap.length :: pdr.list,
          sessions := mset pdr.sessions sid pdr.heap.length },
        spawned := none } := by
  simp [SessionRegenerate, h, PushFront]

/-- When neither the old nor the new id is resident, `SessionRegenerate` and
`SessionNew` are the same call. -/
theorem SessionRegenerate_eq_SessionNew {pdr : ProviderMem} {oldSid sid : String} (now : Int)
    (hold : mget pdr.sessions oldSid = none) (hnew : mget pdr.sessions sid = none) :
    SessionRegenerate pdr oldSid sid now = SessionNew pdr sid now := by
  rw [SessionRegenerate_of_absent now hold, SessionNew_of_absent now hnew]

/-- C2 at its failing input.  With `"B"` resident and `"nonexistent"` not,
`SessionNew("B")` returns the existing record (address 0) and leaves one list
node, while `SessionRegenerate("nonexistent", "B")` allocates a second record
with id `"B"` (address 1), pushes it on the list and redirects the index to it. -/
theorem regenerate_absent_is_not_new :
    SessionExist residentB "nonexistent" = false ∧
    SessionExist residentB "B" = true ∧
    (SessionNew residentB "B" 1).val = .ok 0 ∧
    (SessionNew residentB "B" 1).st.list = [0] ∧
    (SessionRegenerate residentB "nonexistent" "B" 1).val = .ok 1 ∧
    (SessionRegenerate residentB "nonexistent" "B" 1).st.list = [1, 0] ∧
    (SessionRegenerate residentB "nonexistent" "B" 1).st.heap.map (fun r => r.sid)
      = ["B", "B"] ∧
    (SessionRegenerate residentB "nonexistent" "B" 1).st ≠ (SessionNew residentB "B" 1).st := by
  decide

/-- Calling `Set(key, value)` through a handle rewrites only the value mapping of
the record behind it. -/
theorem storeSet_sessions (pdr : ProviderMem) (h : Nat) (k v : GoValue) :
    (storeSet pdr h k v).sessions = pdr.sessions := rfl

/-- C3: `SessionRegenerate` preserves data.  Let `A` be resident with store handle
`e` (what `SessionRead(A)` returns) and `B` differ from `A`.  After `Set(k, v)`
through the handle and `SessionRegenerate(A, B)`: the call returns the same
handle, `SessionRead(B)` succeeds with that handle, the record behind it has
`Get(k) = v`, the whole value mapping it had after the `Set`, and `SessionID()`
equal to `B`, and `SessionExist(A)` is false; the touch of `A` started by the call
then finds nothing to touch. -/
theorem regenerate_preserves_data (pdr : ProviderMem) (A B : String) (e : Nat)
    (k v : GoValue) (now : Int)
    (hread : (SessionRead pdr A).val = .ok e) (halloc : e < pdr.heap.length) (hAB : B ≠ A) :
    (SessionRegenerate (storeSet pdr e k v) A B now).val = .ok e ∧
    (SessionRead (SessionRegenerate (storeSet pdr e k v) A B now).st B).val = .ok e ∧
    (∃ st1 st2, deref (storeSet pdr e k v) e = some st1 ∧
      deref (SessionRegenerate (storeSet pdr e k v) A B now).st e = some st2 ∧
      st2.Get k = v ∧ st2.values = st1.values ∧ st2.timeAccessed = st1.timeAccessed ∧
      st2.SessionID = B) ∧
    SessionExist (SessionRegenerate (storeSet pdr e k v) A B now).st A = false ∧
    (∀ t, SessionUpdate (SessionRegenerate (storeSet pdr e k v) A B now).st A t
      = (SessionRegenerate (storeSet pdr e k v) A B now).st) := by
  have hA : mget pdr.sessions A = some e := by
    cases h : mget pdr.sessions A with
    | some e' =>
      rw [SessionRead_of_resident h] at hread
      simp only [Except.ok.injEq] at hread
      rw [hread]
    | none =>
      rw [SessionRead_of_absent h] at hread
      cases hread
  have hA1 : mget (storeSet pdr e k v).sessions A = some e := hA
  have hne : A ≠ B := Ne.symm hAB
  have hreg : SessionRegenerate (storeSet pdr e k v) A B now =
      { val := .ok e,
        st := { storeSet pdr e k v with
          heap := (storeSet pdr e k v).heap.modify (fun r => { r with sid := B }) e,
          sessions := mdel (mset pdr.sessions B e) A },
        spawned := some A } := by
    rw [SessionRegenerate_of_resident now hA1, if_pos hne]
    rfl
  rw [hreg]
  have hB : mget (mdel (mset pdr.sessions B e) A) B = some e := by
    rw [mget_mdel_ne _ hAB, mget_mset_self]
  have hgone : mget (mdel (mset pdr.sessions B e) A) A = none := mget_mdel_self _ _
  obtain ⟨r, hr⟩ : ∃ r, pdr.heap[e]? = some r := ⟨pdr.heap[e], by simp [halloc]⟩
  refine ⟨rfl, ?_, ?_, ?_, ?_⟩
  · rw [SessionRead_of_resident hB]
  · refine ⟨(r.Set k v).1, { (r.Set k v).1 with sid := B }, ?_, ?_, ?_, rfl, rfl, rfl⟩
    · simp [deref, storeSet, List.getElem?_modify, hr]
    · simp [deref, storeSet, List.getElem?_modify, hr]
    · simp [SessionStoreMem.Set, SessionStoreMem.Get, mget_mset_self]
  · rw [SessionExist_eq_false_iff]; exact hgone
  · intro t
    exact SessionUpdate_of_absent t hgone

theorem regenerate_preserves_data_witness :
    ((SessionRead oneSession "A").val = .ok 0 ∧ 0 < oneSession.heap.length ∧ "B" ≠ "A") ∧
    (SessionRead (SessionRegenerate
      (storeSet oneSession 0 (GoValue.str "k") (GoValue.str "v")) "A" "B" 3).st "B").val
      = .ok 0 :=
  ⟨⟨by decide, by decide, by decide⟩,
   (regenerate_preserves_data oneSession "A" "B" 0 (GoValue.str "k") (GoValue.str "v") 3
      (by decide) (by decide) (by decide)).2.1⟩

/-! ## SessionGC: the loop -/

theorem gcLoop_of_done (fuel : Nat) (now : Int) (pdr : ProviderMem)
    (h : gcDone pdr now = true) : gcLoop fuel now pdr = pdr := by
  cases fuel with
  | zero => rfl
  | succ fuel =>
    unfold gcDone at h
    unfold gcLoop
    cases hb : Back pdr.list with
    | none => rfl
    | some e =>
      rw [hb] at h
      simp only at h ⊢
      cases hr : pdr.heap[e]? with
      | none => rfl
      | some r =>
        rw [hr] at h
        simp only [Bool.not_eq_true'] at h
        simp [h]

theorem Back_mem {l : List Nat} {e : Nat} (h : Back l = some e) : e ∈ l :=
  List.mem_of_getLast?_eq_some h

theorem Remove_length {l : List Nat} {e : Nat} (h : e ∈ l) :
    (Remove l e).length + 1 = l.length := by
  unfold Remove
  rw [List.length_erase_of_mem h]
  have : 0 < l.length := List.length_pos_of_mem h
  omega

/-- Fuel `len(list)` suffices: the loop of `SessionGC` ends at a `break`. -/
theorem gcLoop_done (fuel : Nat) (now : Int) (pdr : ProviderMem)
    (h : pdr.list.length ≤ fuel) : gcDone (gcLoop fuel now pdr) now = true := by
  induction fuel generalizing pdr with
  | zero =>
    have hl : pdr.list = [] := List.length_eq_zero.1 (Nat.le_zero.1 h)
    simp [gcLoop, gcDone, Back, hl]
  | succ fuel ih =>
    unfold gcLoop
    cases hb : Back pdr.list with
    | none => simp [gcDone, hb]
    | some e =>
      simp only
      cases hr : pdr.heap[e]? with
      | none => simp [gcDone, hb, hr]
      | some r =>
        simp only
        by_cases hx : expired pdr.lifetime now r = true
        · rw [if_pos hx]
          apply ih
          have := Remove_length (Back_mem hb)
          simp only
          omega
        · rw [if_neg hx]
          simp [gcDone, hb, hr, hx]

/-- More fuel than `len(list)` changes nothing. -/
theorem gcLoop_fuel (fuel : Nat) (now : Int) (pdr : ProviderMem)
    (h : pdr.list.length ≤ fuel) : gcLoop fuel now pdr = SessionGC pdr now := by
  unfold SessionGC
  induction fuel generalizing pdr with
  | zero =>
    have hl : pdr.list.length = 0 := Nat.le_zero.1 h
    rw [hl]
  | succ fuel ih =>
    cases hlen : pdr.list.length with
    | zero =>
      have hl : pdr.list = [] := List.length_eq_zero.1 hlen
      simp [gcLoop, Back, hl]
    | succ n =>
      unfold gcLoop
      cases hb : Back pdr.list with
      | none => rfl
      | some e =>
        simp only
        cases hr : pdr.heap[e]? with
        | none => rfl
        | some r =>
          simp only
          by_cases hx : expired pdr.lifetime now r = true
          · rw [if_pos hx, if_pos hx]
            have hrem := Remove_length (Back_mem hb)
            have h1 : (Remove pdr.list e).length = n := by omega
            have e1 := ih
              { sessions := mdel pdr.sessions r.sid, list := Remove pdr.list e, heap := pdr.heap,
                lifetime := pdr.lifetime, savePath := pdr.savePath }
              (by simp only; omega)
            simp only [h1] at e1
            exact e1
          · rw [if_neg hx, if_neg hx]

theorem SessionGC_done (pdr : ProviderMem) (now : Int) :
    gcDone (SessionGC pdr now) now = true :=
  gcLoop_done _ now pdr (Nat.le_refl _)

/-- C7: `SessionGC` is idempotent.  A second run at the same time returns the
provider the first run produced: it removes nothing. -/
theorem gc_idempotent (pdr : ProviderMem) (now : Int) :
    SessionGC (SessionGC pdr now) now = SessionGC pdr now :=
  gcLoop_of_done _ now _ (SessionGC_done pdr now)

/-! ## The bijection between index and list -/

/-- C1 at its failing input.  After `SessionNew("A")`, `SessionNew("B")` and
`SessionRegenerate("A", "B")` the list holds two nodes whose records both carry
the id `"B"`, and the index has the single entry `"B" ↦ 0`: node 1 is the target of
no index entry, so index and list are not in bijection. -/
theorem bijection_broken_by_regenerate :
    collided.list = [1, 0] ∧
    collided.sessions = [("B", 0)] ∧
    collided.heap.map (fun r => r.sid) = ["B", "B"] ∧
    ¬ Bijection collided := by
  refine ⟨by decide, by decide, by decide, ?_⟩
  intro h
  have h10 := h.2.2 1 0 { sid := "B", timeAccessed := 1, values := [] }
    { sid := "B", timeAccessed := 0, values := [] }
    (by decide) (by decide) (by decide) (by decide) rfl
  exact absurd h10 (by decide)

/-! ## SessionGC on a provider with two records of one id -/

/-- C6 at its failing input.  In `shadowed` the list is ordered
most-recent-at-head: node 0 (id `"B"`, touched at 5 s, the record the index holds
for `"B"`) before node 1 (id `"B"`, created at 1 s, indexed by nothing).  At 6 s
node 1 is expired (1 + 2 < 6) and node 0 is not (5 + 2 ≥ 6).  `SessionGC` unlinks
node 1 and deletes the index entry of its id, which is the entry of node 0: the
record that is not expired stays in the list and is no longer resident. -/
theorem gc_evicts_live_record :
    shadowed.list = [0, 1] ∧
    recencyTimes shadowed = [5000000000, 1000000000] ∧
    Ordered shadowed ∧
    mget shadowed.sessions "B" = some 0 ∧
    (deref shadowed 0).map (expired shadowed.lifetime 6000000000) = some false ∧
    (deref shadowed 1).map (expired shadowed.lifetime 6000000000) = some true ∧
    (SessionGC shadowed 6000000000).list = [0] ∧
    SessionExist (SessionGC shadowed 6000000000) "B" = false ∧
    (SessionGC shadowed 6000000000).sessions = [] := by
  refine ⟨by decide, by decide, ?_, by decide, by decide, by decide, by decide, by decide,
    by decide⟩
  have ht : recencyTimes shadowed = [5000000000, 1000000000] := by decide
  unfold Ordered
  rw [ht]
  simp

/-! ## Least-recently-used eviction -/

theorem lruScenario_eq (lifetime : Int) (savePath A B C : String) (tA tB tC tTouch : Int)
    (hAB : A ≠ B) (hAC : A ≠ C) (hBC : B ≠ C) :
    lruScenario lifetime savePath A B C tA tB tC tTouch =
      { sessions := [(C, 2), (B, 1), (A, 0)],
        list := [0, 2, 1],
        heap := [{ sid := A, timeAccessed := tTouch, values := [] },
                 { sid := B, timeAccessed := tB, values := [] },
                 { sid := C, timeAccessed := tC, values := [] }],
        lifetime := lifetime,
        savePath := savePath } := by
  have hBA : B ≠ A := Ne.symm hAB
  have hCA : C ≠ A := Ne.symm hAC
  have hCB : C ≠ B := Ne.symm hBC
  simp [lruScenario, run, step, SessionInit, NewProvider, SessionNew, SessionUpdate, PushFront,
    MoveToFront, mget, mset, mdel, hAB, hAC, hBC, hBA, hCA, hCB, List.modify]

/-- C8: least-recently-used eviction.  Create distinct `A`, `B`, `C` in that order
on a fresh provider and touch `A`.  If at time `now` the test of `SessionGC`
(`timeAccessed.Unix() + lifetime < now.Unix()`, in `int64`) holds for `B` and not
for `C`, then `SessionGC` evicts exactly `B`: `SessionExist(B)` is false,
`SessionExist(A)` and `SessionExist(C)` are true, and the list keeps the nodes of
`A` and `C` in their order.  The touched `A` is at the head, behind the `break`
at `C`, so nothing has to be assumed of its own expiry. -/
theorem lru_evicts_exactly_B (lifetime : Int) (savePath A B C : String)
    (tA tB tC tTouch now : Int)
    (hAB : A ≠ B) (hAC : A ≠ C) (hBC : B ≠ C)
    (hB : wrapInt64 (Unix tB + lifetime) < Unix now)
    (hC : ¬ wrapInt64 (Unix tC + lifetime) < Unix now) :
    SessionExist (SessionGC (lruScenario lifetime savePath A B C tA tB tC tTouch) now) B = false ∧
    SessionExist (SessionGC (lruScenario lifetime savePath A B C tA tB tC tTouch) now) A = true ∧
    SessionExist (SessionGC (lruScenario lifetime savePath A B C tA tB tC tTouch) now) C = true ∧
    (SessionGC (lruScenario lifetime savePath A B C tA tB tC tTouch) now).list = [0, 2] ∧
    (SessionGC (lruScenario lifetime savePath A B C tA tB tC tTouch) now).heap
      = (lruScenario lifetime savePath A B C tA tB tC tTouch).heap := by
  have hBA : B ≠ A := Ne.symm hAB
  have hCA : C ≠ A := Ne.symm hAC
  have hCB : C ≠ B := Ne.symm hBC
  have hgc : SessionGC (lruScenario lifetime savePath A B C tA tB tC tTouch) now =
      { sessions := [(C, 2), (A, 0)],
        list := [0, 2],
        heap := [{ sid := A, timeAccessed := tTouch, values := [] },
                 { sid := B, timeAccessed := tB, values := [] },
                 { sid := C, timeAccessed := tC, values := [] }],
        lifetime := lifetime,
        savePath := savePath } := by
    rw [lruScenario_eq _ _ _ _ _ _ _ _ _ hAB hAC hBC]
    simp [SessionGC, gcLoop, Back, Remove, expired, mdel, hB, hC, hAB, hCB]
  rw [hgc, lruScenario_eq _ _ _ _ _ _ _ _ _ hAB hAC hBC]
  simp [SessionExist, mget, hAB, hAC, hBC, hBA, hCA, hCB]

theorem lru_evicts_exactly_B_witness :
    ("A" ≠ "B" ∧ "A" ≠ "C" ∧ "B" ≠ "C" ∧
      wrapInt64 (Unix 2000000000 + 10) < Unix 13000000000 ∧
      ¬ wrapInt64 (Unix 3000000000 + 10) < Unix 13000000000) ∧
    (SessionGC (lruScenario 10 "" "A" "B" "C" 1000000000 2000000000 3000000000 4000000000)
      13000000000).list = [0, 2] :=
  ⟨⟨by decide, by decide, by decide, by decide, by decide⟩,
   (lru_evicts_exactly_B 10 "" "A" "B" "C" 1000000000 2000000000 3000000000 4000000000
      13000000000 (by decide) (by decide) (by decide) (by decide) (by decide)).2.2.2.1⟩

/-! ## The invariant and the calls that keep it -/

theorem WF_NewProvider : WF NewProvider := by
  refine ⟨List.nodup_nil, ?_, ?_⟩
  · intro e he; cases he
  · intro sid e h; cases h

theorem Inv_NewProvider : Inv NewProvider :=
  ⟨WF_NewProvider, fun e he => by cases he⟩

/-- Unlinking a list element together with the index entry of its id, the common
core of `SessionDestroy` and of one round of `SessionGC`. -/
theorem WF_unlink {pdr : ProviderMem} {e : Nat} {r : SessionStoreMem} (h : WF pdr)
    (hr : pdr.heap[e]? = some r) :
    WF { pdr with list := Remove pdr.list e, sessions := mdel pdr.sessions r.sid } := by
  obtain ⟨hnd, hal, hix⟩ := h
  refine ⟨hnd.erase e, fun x hx => hal x (List.mem_of_mem_erase hx), ?_⟩
  intro sid x hx
  have hsid : sid ≠ r.sid := by
    intro heq
    rw [heq] at hx
    simp only at hx
    rw [mget_mdel_self] at hx
    cases hx
  simp only at hx
  rw [mget_mdel_ne _ hsid] at hx
  obtain ⟨hmem, r', hr', hsid'⟩ := hix sid x hx
  have hxe : x ≠ e := by
    intro heq
    rw [heq, hr] at hr'
    simp only [Option.some.injEq] at hr'
    exact hsid (by rw [← hsid', ← hr'])
  exact ⟨(hnd.mem_erase_iff).2 ⟨hxe, hmem⟩, r', hr', hsid'⟩

theorem Listed_unlink {pdr : ProviderMem} {e : Nat} {r : SessionStoreMem} (h : WF pdr)
    (hl : Listed pdr) (he : e ∈ pdr.list) (hr : pdr.heap[e]? = some r) :
    Listed { pdr with list := Remove pdr.list e, sessions := mdel pdr.sessions r.sid } := by
  intro x hx
  obtain ⟨hxe, hmem⟩ := (h.1.mem_erase_iff).1 hx
  obtain ⟨r', hr', hix'⟩ := hl x hmem
  refine ⟨r', hr', ?_⟩
  have hsid : r'.sid ≠ r.sid := by
    intro heq
    obtain ⟨r₂, hr₂, hix₂⟩ := hl e he
    rw [hr] at hr₂
    simp only [Option.some.injEq] at hr₂
    rw [← hr₂, ← heq, hix'] at hix₂
    simp only [Option.some.injEq] at hix₂
    exact hxe hix₂
  simp only
  rw [mget_mdel_ne _ hsid]
  exact hix'

theorem Inv_unlink {pdr : ProviderMem} {e : Nat} {r : SessionStoreMem} (h : Inv pdr)
    (he : e ∈ pdr.list) (hr : pdr.heap[e]? = some r) :
    Inv { pdr with list := Remove pdr.list e, sessions := mdel pdr.sessions r.sid } :=
  ⟨WF_unlink h.1 hr, Listed_unlink h.1 h.2 he hr⟩

theorem WF_SessionDestroy {pdr : ProviderMem} (sid : String) (h : WF pdr) :
    WF (SessionDestroy pdr sid).1 := by
  cases hm : mget pdr.sessions sid with
  | none => rw [SessionDestroy_of_absent hm]; exact h
  | some e =>
    rw [SessionDestroy_of_resident hm]
    obtain ⟨_, r, hr, hsid⟩ := h.2.2 sid e hm
    have := WF_unlink h hr
    rw [hsid] at this
    exact this

theorem Inv_SessionDestroy {pdr : ProviderMem} (sid : String) (h : Inv pdr) :
    Inv (SessionDestroy pdr sid).1 := by
  cases hm : mget pdr.sessions sid with
  | none => rw [SessionDestroy_of_absent hm]; exact h
  | some e =>
    rw [SessionDestroy_of_resident hm]
    obtain ⟨he, r, hr, hsid⟩ := h.1.2.2 sid e hm
    have := Inv_unlink h he hr
    rw [hsid] at this
    exact this

theorem WF_gcLoop (fuel : Nat) (now : Int) {pdr : ProviderMem} (h : WF pdr) :
    WF (gcLoop fuel now pdr) := by
  induction fuel generalizing pdr with
  | zero => exact h
  | succ fuel ih =>
    unfold gcLoop
    cases hb : Back pdr.list with
    | none => exact h
    | some e =>
      simp only
      cases hr : pdr.heap[e]? with
      | none => exact h
      | some r =>
        simp only
        by_cases hx : expired pdr.lifetime now r = true
        · rw [if_pos hx]; exact ih (WF_unlink h hr)
        · rw [if_neg hx]; exact h

theorem Inv_gcLoop (fuel : Nat) (now : Int) {pdr : ProviderMem} (h : Inv pdr) :
    Inv (gcLoop fuel now pdr) := by
  induction fuel generalizing pdr with
  | zero => exact h
  | succ fuel ih =>
    unfold gcLoop
    cases hb : Back pdr.list with
    | none => exact h
    | some e =>
      simp only
      cases hr : pdr.heap[e]? with
      | none => exact h
      | some r =>
        simp only
        by_cases hx : expired pdr.lifetime now r = true
        · rw [if_pos hx]; exact ih (Inv_unlink h (Back_mem hb) hr)
        · rw [if_neg hx]; exact h

theorem WF_SessionGC {pdr : ProviderMem} (now : Int) (h : WF pdr) : WF (SessionGC pdr now) :=
  WF_gcLoop _ now h

theorem Inv_SessionGC {pdr : ProviderMem} (now : Int) (h : Inv pdr) : Inv (SessionGC pdr now) :=
  Inv_gcLoop _ now h

/-- Pushing a fresh record under an id: the creation half shared by `SessionNew`
and `SessionRegenerate`. -/
theorem WF_push {pdr : ProviderMem} (sid : String) (v : SessionStoreMem) (h : WF pdr)
    (hv : v.sid = sid) :
    WF { pdr with heap := pdr.heap ++ [v], list := pdr.heap.length :: pdr.list,
                  sessions := mset pdr.sessions sid pdr.heap.length } := by
  obtain ⟨hnd, hal, hix⟩ := h
  refine ⟨?_, ?_, ?_⟩
  · refine List.nodup_cons.2 ⟨fun hmem => ?_, hnd⟩
    exact Nat.lt_irrefl _ (hal _ hmem)
  · intro e he
    simp only [List.length_append, List.length_singleton]
    rcases List.mem_cons.1 he with h1 | h1
    · omega
    · have := hal e h1; omega
  · intro k e hk
    simp only at hk ⊢
    by_cases hks : k = sid
    · rw [hks, mget_mset_self] at hk
      simp only [Option.some.injEq] at hk
      refine ⟨by rw [← hk]; exact List.mem_cons_self _ _, v, ?_, by rw [hks]; exact hv⟩
      rw [← hk]
      simp
    · rw [mget_mset_ne _ _ hks] at hk
      obtain ⟨hmem, r, hr, hsid⟩ := hix k e hk
      refine ⟨List.mem_cons_of_mem _ hmem, r, ?_, hsid⟩
      rw [List.getElem?_append_left (hal e hmem)]
      exact hr

theorem Listed_push {pdr : ProviderMem} (sid : String) (v : SessionStoreMem) (h : WF pdr)
    (hl : Listed pdr) (hv : v.sid = sid) (habs : mget pdr.sessions sid = none) :
    Listed { pdr with heap := pdr.heap ++ [v], list := pdr.heap.length :: pdr.list,
                      sessions := mset pdr.sessions sid pdr.heap.length } := by
  intro e he
  simp only at he ⊢
  rcases List.mem_cons.1 he with h1 | h1
  · refine ⟨v, by rw [h1]; simp, ?_⟩
    rw [hv, h1]
    exact mget_mset_self _ _ _
  · obtain ⟨r, hr, hix⟩ := hl e h1
    refine ⟨r, ?_, ?_⟩
    · rw [List.getElem?_append_left (h.2.1 e h1)]
      exact hr
    · have hne : r.sid ≠ sid := by
        intro heq
        rw [heq, habs] at hix
        cases hix
      rw [mget_mset_ne _ _ hne]
      exact hix

theorem WF_SessionNew {pdr : ProviderMem} (sid : String) (now : Int) (h : WF pdr) :
    WF (SessionNew pdr sid now).st := by
  cases hm : mget pdr.sessions sid with
  | some e => rw [SessionNew_of_resident now hm]; exact h
  | none => rw [SessionNew_of_absent now hm]; exact WF_push sid _ h rfl

theorem Inv_SessionNew {pdr : ProviderMem} (sid : String) (now : Int) (h : Inv pdr) :
    Inv (SessionNew pdr sid now).st := by
  cases hm : mget pdr.sessions sid with
  | some e => rw [SessionNew_of_resident now hm]; exact h
  | none =>
    rw [SessionNew_of_absent now hm]
    exact ⟨WF_push sid _ h.1 rfl, Listed_push sid _ h.1 h.2 rfl hm⟩

theorem SessionRead_st (pdr : ProviderMem) (sid : String) : (SessionRead pdr sid).st = pdr := by
  unfold SessionRead
  cases mget pdr.sessions sid <;> rfl

theorem WF_SessionUpdate {pdr : ProviderMem} (sid : String) (now : Int) (h : WF pdr) :
    WF (SessionUpdate pdr sid now) := by
  cases hm : mget pdr.sessions sid with
  | none => rw [SessionUpdate_of_absent now hm]; exact h
  | some e =>
    rw [SessionUpdate_of_resident now hm]
    obtain ⟨hnd, hal, hix⟩ := h
    have hp := MoveToFront_perm pdr.list e
    refine ⟨hp.nodup_iff.2 hnd, ?_, ?_⟩
    · intro x hx
      simp only [List.length_modify]
      exact hal x (hp.mem_iff.1 hx)
    · intro k x hk
      obtain ⟨hmem, r, hr, hsid⟩ := hix k x hk
      refine ⟨hp.mem_iff.2 hmem, ?_⟩
      simp only [List.getElem?_modify, hr]
      by_cases hex : e = x
      · exact ⟨{ r with timeAccessed := now }, by simp [hex], hsid⟩
      · exact ⟨r, by simp [hex], hsid⟩

theorem Inv_SessionUpdate {pdr : ProviderMem} (sid : String) (now : Int) (h : Inv pdr) :
    Inv (SessionUpdate pdr sid now) := by
  refine ⟨WF_SessionUpdate sid now h.1, ?_⟩
  cases hm : mget pdr.sessions sid with
  | none => rw [SessionUpdate_of_absent now hm]; exact h.2
  | some e =>
    rw [SessionUpdate_of_resident now hm]
    intro x hx
    have hp := MoveToFront_perm pdr.list e
    obtain ⟨r, hr, hix⟩ := h.2 x (hp.mem_iff.1 hx)
    simp only [List.getElem?_modify, hr]
    by_cases hex : e = x
    · exact ⟨{ r with timeAccessed := now }, by simp [hex], hix⟩
    · exact ⟨r, by simp [hex], hix⟩

/-- The index of `SessionRegenerate` on a resident `oldSid`: the new id points at
the old element, the old id (when different) is gone, every other id is as
before. -/
theorem SessionRegenerate_index {pdr : ProviderMem} {oldSid : String} (sid : String)
    {e : Nat} (now : Int) (h : mget pdr.sessions oldSid = some e) (k : String) :
    mget (SessionRegenerate pdr oldSid sid now).st.sessions k =
      if k = sid then some e else if k = oldSid then none else mget pdr.sessions k := by
  rw [SessionRegenerate_of_resident now h]
  simp only
  by_cases hos : oldSid = sid
  · subst hos
    simp only [ne_eq, not_true_eq_false, if_false]
    by_cases hk : k = oldSid
    · rw [hk, mget_mset_self]; simp
    · rw [mget_mset_ne _ _ hk]; simp [hk]
  · rw [if_pos hos]
    by_cases hk : k = sid
    · have : k ≠ oldSid := fun heq => hos (heq.symm.trans hk)
      rw [mget_mdel_ne _ this, hk, mget_mset_self]; simp
    · by_cases hk2 : k = oldSid
      · rw [hk2, mget_mdel_self]; simp [hos]
      · rw [mget_mdel_ne _ hk2, mget_mset_ne _ _ hk]; simp [hk, hk2]

theorem WF_SessionRegenerate {pdr : ProviderMem} (oldSid sid : String) (now : Int)
    (h : WF pdr) : WF (SessionRegenerate pdr oldSid sid now).st := by
  cases hm : mget pdr.sessions oldSid with
  | none => rw [SessionRegenerate_of_absent now hm]; exact WF_push sid _ h rfl
  | some e =>
    have hidx := SessionRegenerate_index sid now hm
    obtain ⟨hnd, hal, hix⟩ := h
    obtain ⟨hemem, re, hre, hresid⟩ := hix oldSid e hm
    refine ⟨?_, ?_, ?_⟩
    · rw [SessionRegenerate_of_resident now hm]; exact hnd
    · rw [SessionRegenerate_of_resident now hm]
      intro x hx
      simp only [List.length_modify]
      exact hal x hx
    · intro k x hk
      rw [hidx k] at hk
      have hlist : (SessionRegenerate pdr oldSid sid now).st.list = pdr.list := by
        rw [SessionRegenerate_of_resident now hm]
      have hheap : (SessionRegenerate pdr oldSid sid now).st.heap =
          pdr.heap.modify (fun r => { r with sid := sid }) e := by
        rw [SessionRegenerate_of_resident now hm]
      rw [hlist, hheap]
      by_cases hks : k = sid
      · rw [if_pos hks] at hk
        simp only [Option.some.injEq] at hk
        rw [← hk]
        refine ⟨hemem, { re with sid := sid }, ?_, hks.symm⟩
        simp [List.getElem?_modify, hre]
      · rw [if_neg hks] at hk
        by_cases hko : k = oldSid
        · rw [if_pos hko] at hk; cases hk
        · rw [if_neg hko] at hk
          obtain ⟨hxmem, rx, hrx, hrxsid⟩ := hix k x hk
          have hxe : e ≠ x := by
            intro heq
            rw [← heq, hre] at hrx
            simp only [Option.some.injEq] at hrx
            exact hko (by rw [← hrxsid, ← hrx, hresid])
          exact ⟨hxmem, rx, by simp [List.getElem?_modify, hrx, hxe], hrxsid⟩

theorem Inv_SessionRegenerate {pdr : ProviderMem} (oldSid sid : String) (now : Int)
    (h : Inv pdr) (hfree : mget pdr.sessions sid = none ∨ oldSid = sid) :
    Inv (SessionRegenerate pdr oldSid sid now).st := by
  refine ⟨WF_SessionRegenerate oldSid sid now h.1, ?_⟩
  cases hm : mget pdr.sessions oldSid with
  | none =>
    have hsid : mget pdr.sessions sid = none := by
      rcases hfree with h1 | h1
      · exact h1
      · rw [← h1]; exact hm
    rw [SessionRegenerate_of_absent now hm]
    exact Listed_push sid _ h.1 h.2 rfl hsid
  | some e =>
    have hidx := SessionRegenerate_index sid now hm
    obtain ⟨hemem, re, hre, hresid⟩ := h.1.2.2 oldSid e hm
    intro x hx
    have hlist : (SessionRegenerate pdr oldSid sid now).st.list = pdr.list := by
      rw [SessionRegenerate_of_resident now hm]
    have hheap : (SessionRegenerate pdr oldSid sid now).st.heap =
        pdr.heap.modify (fun r => { r with sid := sid }) e := by
      rw [SessionRegenerate_of_resident now hm]
    rw [hlist] at hx
    rw [hheap]
    obtain ⟨rx, hrx, hixx⟩ := h.2 x hx
    by_cases hex : e = x
    · refine ⟨{ rx with sid := sid }, by simp [List.getElem?_modify, hrx, hex], ?_⟩
      rw [hidx]
      simp [hex]
    · refine ⟨rx, by simp [List.getElem?_modify, hrx, hex], ?_⟩
      rw [hidx]
      have h1 : rx.sid ≠ oldSid := by
        intro heq
        rw [heq, hm] at hixx
        simp only [Option.some.injEq] at hixx
        exact hex hixx
      have h2 : rx.sid ≠ sid := by
        intro heq
        rcases hfree with h3 | h3
        · rw [heq, h3] at hixx; cases hixx
        · exact h1 (heq.trans h3.symm)
      rw [if_neg h2, if_neg h1]
      exact hixx

/-- Every call keeps a well-formed provider well-formed. -/
theorem WF_step {pdr : ProviderMem} (c : Call) (h : WF pdr) : WF (step pdr c) := by
  cases c with
  | new sid now => exact WF_SessionNew sid now h
  | read sid => simp only [step, SessionRead_st]; exact h
  | update sid now => exact WF_SessionUpdate sid now h
  | regenerate oldSid sid now => exact WF_SessionRegenerate oldSid sid now h
  | destroy sid => exact WF_SessionDestroy sid h
  | gc now => exact WF_SessionGC now h

/-- Every state reached from `NewProvider()` is well-formed. -/
theorem WF_run (cs : List Call) {pdr : ProviderMem} (h : WF pdr) : WF (run pdr cs) := by
  induction cs generalizing pdr with
  | nil => exact h
  | cons c cs ih => exact ih (WF_step c h)

/-- Every call other than a `SessionRegenerate` onto a resident, different id
keeps the invariant. -/
theorem Inv_step {pdr : ProviderMem} (c : Call) (h : Inv pdr)
    (hc : c.collides pdr = false) : Inv (step pdr c) := by
  cases c with
  | new sid now => exact Inv_SessionNew sid now h
  | read sid => simp only [step, SessionRead_st]; exact h
  | update sid now => exact Inv_SessionUpdate sid now h
  | regenerate oldSid sid now =>
    refine Inv_SessionRegenerate oldSid sid now h ?_
    simp only [Call.collides, Bool.and_eq_false_imp, decide_eq_false_iff_not, ne_eq,
      not_not] at hc
    by_cases hs : SessionExist pdr sid = true
    · exact Or.inr (hc hs)
    · exact Or.inl ((SessionExist_eq_false_iff _ _).1 (by simpa using hs))
  | destroy sid => exact Inv_SessionDestroy sid h
  | gc now => exact Inv_SessionGC now h

/-- Every sequence of calls without a `SessionRegenerate` onto a resident,
different id keeps the invariant; `NewProvider()` satisfies it. -/
theorem Inv_run (cs : List Call) {pdr : ProviderMem} (h : Inv pdr)
    (hc : collisionFree pdr cs = true) : Inv (run pdr cs) := by
  induction cs generalizing pdr with
  | nil => exact h
  | cons c cs ih =>
    simp only [collisionFree, Bool.and_eq_true, Bool.not_eq_true'] at hc
    exact ih (Inv_step c h hc.1) hc.2

/-- On a provider satisfying the invariant, index and list are in bijection. -/
theorem Bijection_of_Inv {pdr : ProviderMem} (h : Inv pdr) : Bijection pdr := by
  obtain ⟨⟨hnd, hal, hix⟩, hl⟩ := h
  refine ⟨hix, ?_, ?_⟩
  · intro e he
    obtain ⟨r, hr, hixe⟩ := hl e he
    refine ⟨r.sid, hixe, ?_⟩
    intro k hk
    obtain ⟨_, r', hr', hsid'⟩ := hix k e hk
    rw [hr] at hr'
    simp only [Option.some.injEq] at hr'
    rw [← hsid', hr']
  · intro e₁ e₂ r₁ r₂ h₁ h₂ hr₁ hr₂ hsid
    obtain ⟨r₁', hr₁', hix₁⟩ := hl e₁ h₁
    obtain ⟨r₂', hr₂', hix₂⟩ := hl e₂ h₂
    unfold deref at hr₁ hr₂
    rw [hr₁] at hr₁'
    rw [hr₂] at hr₂'
    simp only [Option.some.injEq] at hr₁' hr₂'
    rw [← hr₁'] at hix₁
    rw [← hr₂', ← hsid, hix₁] at hix₂
    simpa using hix₂

/-! ## SessionGC on a provider satisfying the invariant -/

theorem wrapInt64_of_inRange {x : Int} (h₁ : -(2 ^ 63) ≤ x) (h₂ : x < 2 ^ 63) :
    wrapInt64 x = x := by
  unfold wrapInt64
  rw [Int.emod_eq_of_lt (by omega) (by omega)]
  omega

theorem Unix_mono {t u : Int} (h : t ≤ u) : Unix t ≤ Unix u :=
  Int.ediv_le_ediv (by decide) h

/-- Without overflow, an older record expires no later than a newer one. -/
theorem expired_of_older {lifetime now : Int} {r₁ r₂ : SessionStoreMem}
    (h₁ : -(2 ^ 63) ≤ Unix r₁.timeAccessed + lifetime ∧ Unix r₁.timeAccessed + lifetime < 2 ^ 63)
    (h₂ : -(2 ^ 63) ≤ Unix r₂.timeAccessed + lifetime ∧ Unix r₂.timeAccessed + lifetime < 2 ^ 63)
    (hle : r₁.timeAccessed ≤ r₂.timeAccessed) (hx : expired lifetime now r₂ = true) :
    expired lifetime now r₁ = true := by
  unfold expired at hx ⊢
  rw [wrapInt64_of_inRange h₂.1 h₂.2] at hx
  rw [wrapInt64_of_inRange h₁.1 h₁.2]
  have := Unix_mono hle
  simp only [decide_eq_true_eq] at hx ⊢
  omega

/-- The guarded form of `Ordered`: along the list, a later element carries a
record that is not newer. -/
theorem Ordered_iff (pdr : ProviderMem) :
    Ordered pdr ↔ pdr.list.Pairwise (fun a b => ∀ ra rb, pdr.heap[a]? = some ra →
      pdr.heap[b]? = some rb → rb.timeAccessed ≤ ra.timeAccessed) := by
  unfold Ordered recencyTimes
  rw [List.pairwise_filterMap]
  constructor
  · intro h
    refine h.imp ?_
    intro a b hab ra rb hra hrb
    exact hab ra.timeAccessed (by simp [hra]) rb.timeAccessed (by simp [hrb])
  · intro h
    refine h.imp ?_
    intro a b hab t ht u hu
    simp only [Option.mem_def, Option.map_eq_some'] at ht hu
    obtain ⟨ra, hra, rfl⟩ := ht
    obtain ⟨rb, hrb, rfl⟩ := hu
    exact hab ra rb hra hrb

theorem gcLoop_succ_of_expired {pdr : ProviderMem} {e : Nat} {r : SessionStoreMem}
    (fuel : Nat) (now : Int) (hb : Back pdr.list = some e) (hr : pdr.heap[e]? = some r)
    (hx : expired pdr.lifetime now r = true) :
    gcLoop (fuel + 1) now pdr =
      gcLoop fuel now
        { pdr with list := Remove pdr.list e, sessions := mdel pdr.sessions r.sid } := by
  rw [gcLoop]
  simp only [hb, hr, hx, if_true]

theorem gcLoop_heap (fuel : Nat) (now : Int) (pdr : ProviderMem) :
    (gcLoop fuel now pdr).heap = pdr.heap ∧ (gcLoop fuel now pdr).lifetime = pdr.lifetime ∧
    (gcLoop fuel now pdr).savePath = pdr.savePath := by
  induction fuel generalizing pdr with
  | zero => exact ⟨rfl, rfl, rfl⟩
  | succ fuel ih =>
    unfold gcLoop
    cases hb : Back pdr.list with
    | none => exact ⟨rfl, rfl, rfl⟩
    | some e =>
      simp only
      cases hr : pdr.heap[e]? with
      | none => exact ⟨rfl, rfl, rfl⟩
      | some r =>
        simp only
        by_cases hx : expired pdr.lifetime now r = true
        · rw [if_pos hx]; exact ih _
        · rw [if_neg hx]; exact ⟨rfl, rfl, rfl⟩

/-- On an ordered provider without overflow whose back element is not expired,
no element is expired. -/
theorem none_expired_of_done {pdr : ProviderMem} {now : Int} (h : WF pdr)
    (ho : Ordered pdr) (hov : NoOverflow pdr) (hd : gcDone pdr now = true) :
    ∀ x, x ∈ pdr.list → expiredAt pdr now x = false := by
  intro x hx
  unfold gcDone at hd
  cases hb : Back pdr.list with
  | none =>
    have : pdr.list = [] := List.getLast?_eq_none_iff.1 hb
    rw [this] at hx
    cases hx
  | some e =>
    rw [hb] at hd
    simp only at hd
    obtain ⟨re, hre⟩ : ∃ re, pdr.heap[e]? = some re :=
      ⟨_, List.getElem?_eq_getElem (h.2.1 e (Back_mem hb))⟩
    rw [hre] at hd
    simp only [Bool.not_eq_true'] at hd
    obtain ⟨rx, hrx⟩ : ∃ rx, pdr.heap[x]? = some rx :=
      ⟨_, List.getElem?_eq_getElem (h.2.1 x hx)⟩
    unfold expiredAt
    rw [hrx]
    simp only
    obtain ⟨ys, hys⟩ := List.getLast?_eq_some_iff.1 hb
    by_cases hxe : x = e
    · rw [hxe, hre] at hrx
      simp only [Option.some.injEq] at hrx
      rw [← hrx]; exact hd
    · have hxy : x ∈ ys := by
        rw [hys] at hx
        rcases List.mem_append.1 hx with h1 | h1
        · exact h1
        · exact absurd (List.mem_singleton.1 h1) hxe
      have hp := (Ordered_iff pdr).1 ho
      rw [hys, List.pairwise_append] at hp
      have hle := hp.2.2 x hxy e (List.mem_singleton_self e) rx re hrx hre
      by_contra hcon
      have hcon' : expired pdr.lifetime now rx = true := by simpa using hcon
      have := expired_of_older (hov e re (Back_mem hb) hre) (hov x rx hx hrx) hle hcon'
      rw [hd] at this
      cases this

theorem Ordered_unlink {pdr : ProviderMem} (e : Nat) (sid : String) (ho : Ordered pdr) :
    Ordered { pdr with list := Remove pdr.list e, sessions := mdel pdr.sessions sid } := by
  rw [Ordered_iff] at ho ⊢
  exact ho.sublist (List.erase_sublist _ _)

theorem NoOverflow_unlink {pdr : ProviderMem} (e : Nat) (sid : String) (hov : NoOverflow pdr) :
    NoOverflow { pdr with list := Remove pdr.list e, sessions := mdel pdr.sessions sid } :=
  fun x r hx hr => hov x r (List.mem_of_mem_erase hx) hr

/-- The loop of `SessionGC` on a provider that satisfies the invariant, is
ordered most-recent-at-head and has no `int64` overflow in the expiry test: the
list, the heap and the index afterwards. -/
theorem gcLoop_spec (fuel : Nat) (now : Int) (pdr : ProviderMem)
    (hlen : pdr.list.length ≤ fuel) (h : Inv pdr) (ho : Ordered pdr) (hov : NoOverflow pdr) :
    (gcLoop fuel now pdr).list = pdr.list.filter (fun e => !expiredAt pdr now e) ∧
    (∀ sid e, mget (gcLoop fuel now pdr).sessions sid = some e ↔
      mget pdr.sessions sid = some e ∧ expiredAt pdr now e = false) := by
  induction fuel generalizing pdr with
  | zero =>
    have hl : pdr.list = [] := List.length_eq_zero.1 (Nat.le_zero.1 hlen)
    refine ⟨by simp [gcLoop, hl], ?_⟩
    intro sid e
    simp only [gcLoop]
    constructor
    · intro hm
      have := (h.1.2.2 sid e hm).1
      rw [hl] at this
      cases this
    · exact fun hm => hm.1
  | succ fuel ih =>
    by_cases hd : gcDone pdr now = true
    · have hall := none_expired_of_done h.1 ho hov hd
      rw [gcLoop_of_done _ _ _ hd]
      refine ⟨(List.filter_eq_self.2 ?_).symm, ?_⟩
      · intro x hx
        simp [hall x hx]
      · intro sid e
        constructor
        · intro hm
          exact ⟨hm, hall e (h.1.2.2 sid e hm).1⟩
        · exact fun hm => hm.1
    · -- the back element is expired: one round, then the induction hypothesis
      unfold gcDone at hd
      cases hb : Back pdr.list with
      | none => rw [hb] at hd; exact absurd rfl hd
      | some e =>
        rw [hb] at hd
        simp only at hd
        cases hr : pdr.heap[e]? with
        | none => rw [hr] at hd; exact absurd rfl hd
        | some r =>
          rw [hr] at hd
          simp only [Bool.not_eq_true', Bool.not_eq_false] at hd
          have hemem := Back_mem hb
          obtain ⟨ys, hys⟩ := List.getLast?_eq_some_iff.1 hb
          have hnd := h.1.1
          rw [hys] at hnd
          have heys : e ∉ ys := fun hmem =>
            (List.nodup_append.1 hnd).2.2 hmem (List.mem_singleton_self e)
          have herase : Remove pdr.list e = ys := by
            unfold Remove
            rw [hys, List.erase_append_right _ heys]
            simp
          have hrem := Remove_length hemem
          have hstep := ih
            { pdr with list := Remove pdr.list e, sessions := mdel pdr.sessions r.sid }
            (by simp only; omega) (Inv_unlink h hemem hr) (Ordered_unlink e r.sid ho)
            (NoOverflow_unlink e r.sid hov)
          rw [gcLoop_succ_of_expired fuel now hb hr hd]
          have hexp : expiredAt pdr now e = true := by
            unfold expiredAt; rw [hr]; exact hd
          refine ⟨?_, ?_⟩
          · rw [hstep.1]
            simp only [herase]
            rw [hys, List.filter_append]
            have : List.filter (fun x => !expiredAt pdr now x) [e] = [] := by
              simp [List.filter_cons, hexp]
            rw [this, List.append_nil]
            rfl
          · intro sid x
            rw [hstep.2 sid x]
            have hsame : expiredAt
                { pdr with list := Remove pdr.list e, sessions := mdel pdr.sessions r.sid }
                now x = expiredAt pdr now x := rfl
            rw [hsame]
            simp only
            constructor
            · rintro ⟨hm, hx⟩
              have hsid : sid ≠ r.sid := by
                intro heq
                rw [heq, mget_mdel_self] at hm
                cases hm
              rw [mget_mdel_ne _ hsid] at hm
              exact ⟨hm, hx⟩
            · rintro ⟨hm, hx⟩
              have hxe : x ≠ e := by
                intro heq
                rw [heq, hexp] at hx
                cases hx
              have hsid : sid ≠ r.sid := by
                intro heq
                obtain ⟨r', hr', hix'⟩ := h.2 e hemem
                rw [hr] at hr'
                simp only [Option.some.injEq] at hr'
                rw [← hr', ← heq, hm] at hix'
                simp only [Option.some.injEq] at hix'
                exact hxe hix'
              rw [mget_mdel_ne _ hsid]
              exact ⟨hm, hx⟩

/-- `SessionGC` evicts exactly the expired records when the provider satisfies the
invariant, its list is ordered most-recent-at-head and the expiry test does not
overflow: the list keeps, in their order, the elements whose record passes
`timeAccessed.Unix() + lifetime >= now.Unix()`, an id is resident afterwards
exactly when it was and its record passes that test, and no record changes. -/
theorem SessionGC_spec (pdr : ProviderMem) (now : Int)
    (h : Inv pdr) (ho : Ordered pdr) (hov : NoOverflow pdr) :
    (SessionGC pdr now).list = pdr.list.filter (fun e => !expiredAt pdr now e) ∧
    (∀ sid e, mget (SessionGC pdr now).sessions sid = some e ↔
      mget pdr.sessions sid = some e ∧ expiredAt pdr now e = false) ∧
    (SessionGC pdr now).heap = pdr.heap ∧
    (∀ e r, e ∈ pdr.list → pdr.heap[e]? = some r →
      (expiredAt pdr now e = false ↔ Unix now ≤ Unix r.timeAccessed + pdr.lifetime)) := by
  obtain ⟨h1, h2⟩ := gcLoop_spec pdr.list.length now pdr (Nat.le_refl _) h ho hov
  refine ⟨h1, h2, (gcLoop_heap _ now pdr).1, ?_⟩
  intro e r he hr
  unfold expiredAt expired
  rw [hr]
  simp only
  rw [wrapInt64_of_inRange (hov e r he hr).1 (hov e r he hr).2]
  simp

theorem Inv_SessionInit {pdr : ProviderMem} (lifetime : Int) (savePath : String)
    (h : Inv pdr) : Inv (SessionInit pdr lifetime savePath).1 := h

/-- The hypotheses of `SessionGC_spec` hold of a provider built by the calls: at
12 s, with lifetime 10 s, the session created at 1 s goes and the one created at
2 s stays. -/
theorem SessionGC_spec_twoSessions :
    Inv twoSessions ∧ Ordered twoSessions ∧ NoOverflow twoSessions ∧
    (SessionGC twoSessions 12000000000).list = [1] ∧
    SessionExist (SessionGC twoSessions 12000000000) "A" = false ∧
    SessionExist (SessionGC twoSessions 12000000000) "B" = true := by
  have hinv : Inv twoSessions :=
    Inv_run _ (Inv_SessionInit 10 "" Inv_NewProvider) (by decide)
  have hord : Ordered twoSessions := by
    have ht : recencyTimes twoSessions = [2000000000, 1000000000] := by decide
    unfold Ordered
    rw [ht]
    simp
  have hov : NoOverflow twoSessions := by
    intro e r he hr
    have hl : twoSessions.list = [1, 0] := by decide
    rw [hl] at he
    simp only [List.mem_cons, List.mem_singleton, List.not_mem_nil, or_false] at he
    rcases he with rfl | rfl
    · have hh : twoSessions.heap[1]? =
          some { sid := "B", timeAccessed := 2000000000, values := [] } := by decide
      rw [hh] at hr
      simp only [Option.some.injEq] at hr
      rw [← hr]
      decide
    · have hh : twoSessions.heap[0]? =
          some { sid := "A", timeAccessed := 1000000000, values := [] } := by decide
      rw [hh] at hr
      simp only [Option.some.injEq] at hr
      rw [← hr]
      decide
  refine ⟨hinv, hord, hov, ?_, by decide, by decide⟩
  rw [(SessionGC_spec twoSessions 12000000000 hinv hord hov).1]
  decide

end Memory

namespace Session

open Memory

/-! ## encoding/hex: decoding undoes encoding -/

theorem fromHexChar_hextable {n : Nat} (h : n < 16) : fromHexChar (hextable n) = some n := by
  interval_cases n <;> decide

theorem fromHexChar_upperhex {n : Nat} (h : n < 16) : fromHexChar (upperhex n) = some n := by
  interval_cases n <;> decide

theorem hextable_isAlphanum {n : Nat} (h : n < 16) : (hextable n).isAlphanum = true := by
  interval_cases n <;> decide

theorem upperhex_isAlphanum {n : Nat} (h : n < 16) : (upperhex n).isAlphanum = true := by
  interval_cases n <;> decide

theorem GoByte_ofNat (v : GoByte) : (Fin.ofNat (16 * (v.val / 16) + v.val % 16) : GoByte) = v := by
  apply Fin.ext
  simp [Fin.ofNat]
  omega

theorem decodeHex_encodeHex (b : List GoByte) : decodeHex (encodeHex b) = .ok b := by
  induction b with
  | nil => rfl
  | cons v rest ih =>
    have h1 : v.val / 16 < 16 := by have := v.isLt; omega
    have h2 : v.val % 16 < 16 := Nat.mod_lt _ (by decide)
    simp only [encodeHex, decodeHex, fromHexChar_hextable h1, fromHexChar_hextable h2, ih,
      GoByte_ofNat]

theorem encodeHex_length (b : List GoByte) : (encodeHex b).length = 2 * b.length := by
  induction b with
  | nil => rfl
  | cons v rest ih => simp only [encodeHex, List.length_cons, ih]; omega

theorem encodeHex_isAlphanum (b : List GoByte) :
    ∀ c, c ∈ encodeHex b → c.isAlphanum = true := by
  induction b with
  | nil => intro c hc; cases hc
  | cons v rest ih =>
    intro c hc
    have h1 : v.val / 16 < 16 := by have := v.isLt; omega
    have h2 : v.val % 16 < 16 := Nat.mod_lt _ (by decide)
    simp only [encodeHex, List.mem_cons] at hc
    rcases hc with rfl | rfl | hc
    · exact hextable_isAlphanum h1
    · exact hextable_isAlphanum h2
    · exact ih c hc

/-- A character of a hexadecimal encoding is one of `0..9`, `a..f`. -/
theorem encodeHex_digits (b : List GoByte) :
    ∀ c, c ∈ encodeHex b → ∃ n, n < 16 ∧ c = hextable n := by
  induction b with
  | nil => intro c hc; cases hc
  | cons v rest ih =>
    intro c hc
    have h1 : v.val / 16 < 16 := by have := v.isLt; omega
    have h2 : v.val % 16 < 16 := Nat.mod_lt _ (by decide)
    simp only [encodeHex, List.mem_cons] at hc
    rcases hc with rfl | rfl | hc
    · exact ⟨_, h1, rfl⟩
    · exact ⟨_, h2, rfl⟩
    · exact ih c hc

/-! ## net/url: unescaping undoes escaping -/

theorem unescapeChars_plus (rest : List Char) :
    unescapeChars ('+' :: rest) =
      match unescapeChars rest with
      | .ok t => .ok (' ' :: t)
      | .error e => .error e := by
  conv_lhs => unfold unescapeChars
  simp

theorem unescapeChars_percent (a b : Char) (rest : List Char) {x y : Nat}
    (ha : fromHexChar a = some x) (hb : fromHexChar b = some y) :
    unescapeChars ('%' :: a :: b :: rest) =
      match unescapeChars rest with
      | .ok t => .ok (Char.ofNat (16 * x + y) :: t)
      | .error e => .error e := by
  conv_lhs => unfold unescapeChars
  simp [ha, hb]

theorem unescapeChars_plain (c : Char) (rest : List Char) (h1 : c ≠ '%') (h2 : c ≠ '+') :
    unescapeChars (c :: rest) =
      match unescapeChars rest with
      | .ok t => .ok (c :: t)
      | .error e => .error e := by
  conv_lhs => unfold unescapeChars
  simp [h1, h2]

theorem unescapeChars_escapeChars (l : List Char) (h : ∀ c, c ∈ l → c.toNat < 256) :
    unescapeChars (escapeChars l) = .ok l := by
  induction l with
  | nil => rfl
  | cons c rest ih =>
    have hrest := ih (fun d hd => h d (List.mem_cons_of_mem _ hd))
    have hc := h c (List.mem_cons_self _ _)
    by_cases hsp : c = ' '
    · subst hsp
      simp only [escapeChars, if_true]
      rw [unescapeChars_plus, hrest]
    · by_cases hesc : shouldEscape c = true
      · simp only [escapeChars, hsp, if_false, hesc, if_true]
        have h1 : c.toNat / 16 < 16 := by omega
        have h2 : c.toNat % 16 < 16 := Nat.mod_lt _ (by decide)
        rw [unescapeChars_percent _ _ _ (fromHexChar_upperhex h1) (fromHexChar_upperhex h2),
          hrest]
        have e : 16 * (c.toNat / 16) + c.toNat % 16 = c.toNat := Nat.div_add_mod _ _
        simp only [e, Char.ofNat_toNat]
      · have hesc' : shouldEscape c = false := by simpa using hesc
        simp only [escapeChars, hsp, if_false, hesc', Bool.false_eq_true]
        have h1 : c ≠ '%' := by
          intro heq; subst heq; exact hesc (by decide)
        have h2 : c ≠ '+' := by
          intro heq; subst heq; exact hesc (by decide)
        rw [unescapeChars_plain _ _ h1 h2, hrest]

/-- On a string of bytes, `url.QueryUnescape` undoes `url.QueryEscape`. -/
theorem QueryUnescape_QueryEscape (s : String) (h : IsBytes s) :
    QueryUnescape (QueryEscape s) = .ok s := by
  unfold QueryUnescape QueryEscape
  simp only [unescapeChars_escapeChars s.data h]

theorem escapeChars_eq_nil {l : List Char} (h : escapeChars l = []) : l = [] := by
  cases l with
  | nil => rfl
  | cons c rest =>
    simp only [escapeChars] at h
    split at h
    · cases h
    · split at h <;> cases h

theorem QueryEscape_ne_empty {s : String} (h : s ≠ "") : QueryEscape s ≠ "" := by
  intro heq
  apply h
  have hd : escapeChars s.data = [] := by
    have := congrArg String.data heq
    simpa [QueryEscape] using this
  exact String.ext (escapeChars_eq_nil hd)

/-! ## Manager.sessionID -/

theorem sessionID_ok {cfg : ManagerConfig} {rand : Nat → RandRead}
    (hlen : 0 ≤ cfg.SessionIDLength)
    (hn : (rand cfg.SessionIDLength.toNat).bytes.length = cfg.SessionIDLength.toNat)
    (herr : (rand cfg.SessionIDLength.toNat).err = none) :
    sessionID cfg rand =
      .ret (.ok (cfg.SessionIDPrefix ++
        EncodeToString (rand cfg.SessionIDLength.toNat).bytes)) := by
  unfold sessionID
  rw [if_neg (by omega)]
  simp only [hn, herr, ne_eq, not_true_eq_false, or_self, if_false]
  rw [List.take_left' hn]

theorem sessionID_error {cfg : ManagerConfig} {rand : Nat → RandRead}
    (hlen : 0 ≤ cfg.SessionIDLength)
    (h : (rand cfg.SessionIDLength.toNat).err ≠ none ∨
      (rand cfg.SessionIDLength.toNat).bytes.length ≠ cfg.SessionIDLength.toNat) :
    sessionID cfg rand =
      .ret (.error "could not successfully read from the system CSPRNG") := by
  unfold sessionID
  rw [if_neg (by omega)]
  simp only
  rw [if_pos]
  rcases h with h | h
  · exact Or.inr h
  · exact Or.inl h

/-- C14: identifier generation.  For a length `N >= 0` and a prefix `p`: when
`rand.Read` fills the `N` bytes `b` and reports no error, `sessionID` returns
`p` followed by the lower-case hexadecimal encoding of `b`, a string of length
`len(p) + 2N` whose hexadecimal part decodes back to `b`; when `rand.Read`
reports an error or delivers fewer than `N` bytes, `sessionID` returns its error
and no identifier. -/
theorem sessionID_spec (cfg : ManagerConfig) (rand : Nat → RandRead)
    (hlen : 0 ≤ cfg.SessionIDLength) :
    ((rand cfg.SessionIDLength.toNat).bytes.length = cfg.SessionIDLength.toNat →
      (rand cfg.SessionIDLength.toNat).err = none →
        sessionID cfg rand =
          .ret (.ok (cfg.SessionIDPrefix ++
            EncodeToString (rand cfg.SessionIDLength.toNat).bytes)) ∧
        (cfg.SessionIDPrefix ++ EncodeToString (rand cfg.SessionIDLength.toNat).bytes).length
          = cfg.SessionIDPrefix.length + 2 * cfg.SessionIDLength.toNat ∧
        (∀ c, c ∈ (EncodeToString (rand cfg.SessionIDLength.toNat).bytes).data →
          ∃ n, n < 16 ∧ c = hextable n) ∧
        DecodeString (EncodeToString (rand cfg.SessionIDLength.toNat).bytes)
          = .ok (rand cfg.SessionIDLength.toNat).bytes) ∧
    (((rand cfg.SessionIDLength.toNat).err ≠ none ∨
        (rand cfg.SessionIDLength.toNat).bytes.length < cfg.SessionIDLength.toNat) →
      sessionID cfg rand =
        .ret (.error "could not successfully read from the system CSPRNG")) := by
  constructor
  · intro hn herr
    refine ⟨sessionID_ok hlen hn herr, ?_, ?_, ?_⟩
    · rw [String.length_append]
      show _ + (encodeHex _).length = _
      rw [encodeHex_length, hn]
    · exact encodeHex_digits _
    · exact decodeHex_encodeHex _
  · intro h
    apply sessionID_error hlen
    rcases h with h | h
    · exact Or.inl h
    · exact Or.inr (by omega)

theorem sessionID_spec_witness :
    (0 ≤ sampleConfig.SessionIDLength ∧
      (sampleRand sampleConfig.SessionIDLength.toNat).bytes.length
        = sampleConfig.SessionIDLength.toNat ∧
      (sampleRand sampleConfig.SessionIDLength.toNat).err = none ∧
      sessionID sampleConfig sampleRand = .ret (.ok "p/abab")) ∧
    ((brokenRand sampleConfig.SessionIDLength.toNat).err ≠ none ∧
      sessionID sampleConfig brokenRand =
        .ret (.error "could not successfully read from the system CSPRNG")) :=
  ⟨⟨by decide, by decide, by decide,
     ((sessionID_spec sampleConfig sampleRand (by decide)).1 (by decide) (by decide)).1⟩,
   ⟨by decide,
     (sessionID_spec sampleConfig brokenRand (by decide)).2 (Or.inl (by decide))⟩⟩

/-! ## Manager.getSid -/

/-- The three stages of `getSid` in one expression. -/
theorem getSid_eq (cfg : ManagerConfig) (r : Request) :
    getSid cfg r =
      match cookieValue r cfg.CookieName with
      | some v => QueryUnescape v
      | none =>
        if cfg.EnableSidInURLQuery = true then
          match r.form with
          | .error e => .error e
          | .ok form =>
            if cfg.EnableSidInHTTPHeader = true ∧ FormValue form cfg.CookieName = "" then
              .ok ((headerFirst r cfg.SessionNameInHTTPHeader).getD "")
            else .ok (FormValue form cfg.CookieName)
        else if cfg.EnableSidInHTTPHeader = true then
          .ok ((headerFirst r cfg.SessionNameInHTTPHeader).getD "")
        else .ok "" := by
  have hhead : (match mget r.Header cfg.SessionNameInHTTPHeader with
      | some (first :: _) => (Except.ok first : Except String String)
      | _ => Except.ok "") = .ok ((headerFirst r cfg.SessionNameInHTTPHeader).getD "") := by
    unfold headerFirst
    rcases mget r.Header cfg.SessionNameInHTTPHeader with _ | (_ | ⟨x, xs⟩) <;> rfl
  have hfall : ∀ sid : String, (if cfg.EnableSidInHTTPHeader = true ∧ sid = "" then
        (match mget r.Header cfg.SessionNameInHTTPHeader with
          | some (first :: _) => (Except.ok first : Except String String)
          | _ => Except.ok sid)
      else Except.ok sid) =
      if cfg.EnableSidInHTTPHeader = true ∧ sid = "" then
        .ok ((headerFirst r cfg.SessionNameInHTTPHeader).getD "")
      else .ok sid := by
    intro sid
    by_cases h : cfg.EnableSidInHTTPHeader = true ∧ sid = ""
    · rw [if_pos h, if_pos h, h.2]; exact hhead
    · rw [if_neg h, if_neg h]
  have hstage : (match (if cfg.EnableSidInURLQuery = true then
          (match r.form with
            | .error e => (Except.error e : Except String String)
            | .ok form => .ok (FormValue form cfg.CookieName))
        else .ok "") with
      | .error e => (Except.error e : Except String String)
      | .ok sid =>
        if cfg.EnableSidInHTTPHeader = true ∧ sid = "" then
          (match mget r.Header cfg.SessionNameInHTTPHeader with
            | some (first :: _) => .ok first
            | _ => .ok sid)
        else .ok sid) =
      if cfg.EnableSidInURLQuery = true then
        match r.form with
        | .error e => .error e
        | .ok form =>
          if cfg.EnableSidInHTTPHeader = true ∧ FormValue form cfg.CookieName = "" then
            .ok ((headerFirst r cfg.SessionNameInHTTPHeader).getD "")
          else .ok (FormValue form cfg.CookieName)
      else if cfg.EnableSidInHTTPHeader = true then
        .ok ((headerFirst r cfg.SessionNameInHTTPHeader).getD "")
      else .ok "" := by
    by_cases hq : cfg.EnableSidInURLQuery = true
    · rw [if_pos hq, if_pos hq]
      cases r.form with
      | error e => rfl
      | ok form => exact hfall _
    · rw [if_neg hq, if_neg hq]
      have := hfall ""
      simp only [and_true] at this ⊢
      exact this
  unfold getSid Request.Cookie cookieValue
  cases hc : mget r.cookies cfg.CookieName with
  | some v =>
    by_cases hv : v = ""
    · subst hv
      simp only [if_true]
      exact hstage
    · simp only [hv, if_false]
  | none => exact hstage

theorem getSid_resolved {cfg : ManagerConfig} {r : Request} {sid : String}
    (h : getSid cfg r = .ok sid) : sid = resolvedId cfg r := by
  rw [getSid_eq] at h
  unfold resolvedId
  cases hc : cookieValue r cfg.CookieName with
  | some v =>
    rw [hc] at h
    simp only at h ⊢
    rw [h]
  | none =>
    rw [hc] at h
    simp only at h ⊢
    by_cases hq : cfg.EnableSidInURLQuery = true
    · rw [if_pos hq] at h
      cases hf : r.form with
      | error e => rw [hf] at h; cases h
      | ok form =>
        rw [hf] at h
        simp only at h
        have hp : requestParam r cfg.CookieName = FormValue form cfg.CookieName := by
          unfold requestParam; rw [hf]
        rw [hp]
        by_cases hfv : FormValue form cfg.CookieName = ""
        · by_cases hh : cfg.EnableSidInHTTPHeader = true
          · rw [if_pos ⟨hh, hfv⟩] at h
            simp only [Except.ok.injEq] at h
            simp [hfv, hh, h]
          · rw [if_neg (fun hcon => hh hcon.1)] at h
            simp only [Except.ok.injEq] at h
            simp [hfv, hh, ← h]
        · rw [if_neg (fun hcon => hfv hcon.2)] at h
          simp only [Except.ok.injEq] at h
          rw [if_pos ⟨hq, hfv⟩, h]
    · rw [if_neg hq] at h
      by_cases hh : cfg.EnableSidInHTTPHeader = true
      · rw [if_pos hh] at h
        simp only [Except.ok.injEq] at h
        simp [hq, hh, h]
      · rw [if_neg hh] at h
        simp only [Except.ok.injEq] at h
        simp [hq, hh, h]

/-- C11: identifier extraction priority.  Whenever `getSid` resolves an
identifier, it is the unescaped value of the cookie `CookieName` when that cookie
is present and not empty; otherwise, if `EnableSidInURLQuery`, the request
parameter `CookieName` when it is not empty; otherwise, if
`EnableSidInHTTPHeader`, the first value of the header `SessionNameInHTTPHeader`
when there is one; otherwise the empty string.  With a usable cookie `getSid` is
`url.QueryUnescape` of its value and reads nothing else; `getSid` fails exactly
when that unescaping fails, or when without a usable cookie the enabled
`r.ParseForm()` fails.  A disabled source is never consulted: the result does not
depend on the form when `EnableSidInURLQuery` is off, nor on the header when
`EnableSidInHTTPHeader` is off. -/
theorem getSid_priority (cfg : ManagerConfig) (r : Request) :
    (∀ sid, getSid cfg r = .ok sid → sid = resolvedId cfg r) ∧
    (∀ v, cookieValue r cfg.CookieName = some v →
      ∀ form hdr, getSid cfg { r with form := form, Header := hdr } = QueryUnescape v) ∧
    ((∃ e, getSid cfg r = .error e) ↔
      (∃ v e, cookieValue r cfg.CookieName = some v ∧ QueryUnescape v = .error e) ∨
      (cookieValue r cfg.CookieName = none ∧ cfg.EnableSidInURLQuery = true ∧
        ∃ e, r.form = .error e)) ∧
    (cfg.EnableSidInURLQuery = false →
      ∀ form, getSid cfg { r with form := form } = getSid cfg r) ∧
    (cfg.EnableSidInHTTPHeader = false →
      ∀ hdr, getSid cfg { r with Header := hdr } = getSid cfg r) := by
  refine ⟨fun sid h => getSid_resolved h, ?_, ?_, ?_, ?_⟩
  · intro v hv form hdr
    rw [getSid_eq]
    have : cookieValue { r with form := form, Header := hdr } cfg.CookieName = some v := hv
    rw [this]
  · rw [getSid_eq]
    cases hc : cookieValue r cfg.CookieName with
    | some v =>
      simp only
      constructor
      · rintro ⟨e, he⟩
        exact Or.inl ⟨v, e, rfl, he⟩
      · rintro (⟨v', e, hv', he⟩ | ⟨hnone, _⟩)
        · simp only [Option.some.injEq] at hv'
          exact ⟨e, by rw [hv']; exact he⟩
        · cases hnone
    | none =>
      simp only
      constructor
      · rintro ⟨e, he⟩
        refine Or.inr ⟨trivial, ?_⟩
        by_cases hq : cfg.EnableSidInURLQuery = true
        · refine ⟨hq, ?_⟩
          rw [if_pos hq] at he
          cases hf : r.form with
          | error e' => exact ⟨e', rfl⟩
          | ok form =>
            rw [hf] at he
            simp only at he
            split at he <;> cases he
        · rw [if_neg hq] at he
          split at he <;> cases he
      · rintro (⟨v', e, hv', _⟩ | ⟨_, hq, e, he⟩)
        · cases hv'
        · exact ⟨e, by rw [if_pos hq, he]⟩
  · intro hq form
    rw [getSid_eq, getSid_eq]
    have hc : cookieValue { r with form := form } cfg.CookieName
        = cookieValue r cfg.CookieName := rfl
    have hh : headerFirst { r with form := form } cfg.SessionNameInHTTPHeader
        = headerFirst r cfg.SessionNameInHTTPHeader := rfl
    rw [hc, hh]
    simp [hq]
  · intro hh hdr
    rw [getSid_eq, getSid_eq]
    have hc : cookieValue { r with Header := hdr } cfg.CookieName
        = cookieValue r cfg.CookieName := rfl
    rw [hc]
    simp [hh]

theorem getSid_priority_witness :
    (getSid headerConfig (requestWithHeader "abc") = .ok "abc" ∧
      "abc" = resolvedId headerConfig (requestWithHeader "abc")) ∧
    (cookieValue (requestWithCookie "p%2Fabab") sampleConfig.CookieName = some "p%2Fabab" ∧
      getSid sampleConfig (requestWithCookie "p%2Fabab") = QueryUnescape "p%2Fabab") ∧
    (sampleConfig.EnableSidInHTTPHeader = false ∧
      getSid sampleConfig (requestWithHeader "abc") = getSid sampleConfig emptyRequest) :=
  ⟨⟨by decide, (getSid_priority headerConfig (requestWithHeader "abc")).1 "abc" (by decide)⟩,
   ⟨by decide,
     (getSid_priority sampleConfig (requestWithCookie "p%2Fabab")).2.1 "p%2Fabab" (by decide)
       (Except.ok []) []⟩,
   ⟨by decide,
     (getSid_priority sampleConfig emptyRequest).2.2.2.2 (by decide) [("X-Sid", ["abc"])]⟩⟩

/-! ## Handing the identifier to the transports -/

theorem canonical_SetCookie : CanonicalMIMEHeaderKey "Set-Cookie" = "Set-Cookie" := by decide

theorem setCookieLines_SetCookie (w : ResponseWriter) (c : Cookie)
    (h : isCookieNameValid c.Name = true) :
    setCookieLines (SetCookie w c) = setCookieLines w ++ [HeaderLine.cookie c] := by
  unfold SetCookie setCookieLines headerAdd
  rw [if_pos h, canonical_SetCookie]
  simp only [mget_mset_self, Option.getD_some]

theorem bindTransport_quiet {cfg : ManagerConfig} (c : Cookie) (sid : String)
    (w : ResponseWriter) (r : Request) (h1 : cfg.EnableSetCookie = false)
    (h2 : cfg.EnableSidInHTTPHeader = false) : (bindTransport cfg c sid w r).1 = w := by
  simp [bindTransport, h1, h2]

theorem bindTransport_cookie {cfg : ManagerConfig} (c : Cookie) (sid : String)
    (w : ResponseWriter) (r : Request) (h1 : cfg.EnableSetCookie = true)
    (h2 : isCookieNameValid c.Name = true)
    (h3 : cfg.EnableSidInHTTPHeader = false ∨
      CanonicalMIMEHeaderKey cfg.SessionNameInHTTPHeader ≠ "Set-Cookie") :
    setCookieLines (bindTransport cfg c sid w r).1 =
      setCookieLines w ++ [HeaderLine.cookie c] := by
  unfold bindTransport
  simp only [h1, if_true]
  by_cases hh : cfg.EnableSidInHTTPHeader = true
  · rw [if_pos hh]
    have hne : CanonicalMIMEHeaderKey cfg.SessionNameInHTTPHeader ≠ "Set-Cookie" := by
      rcases h3 with h3 | h3
      · rw [h3] at hh; cases hh
      · exact h3
    rw [← setCookieLines_SetCookie w c h2]
    unfold setCookieLines headerSet
    simp only
    rw [mget_mset_ne _ _ (Ne.symm hne)]
  · rw [if_neg hh]
    exact setCookieLines_SetCookie w c h2

theorem bindTransport_header {cfg : ManagerConfig} (c : Cookie) (sid : String)
    (w : ResponseWriter) (r : Request) (h : cfg.EnableSidInHTTPHeader = true) :
    mget (bindTransport cfg c sid w r).1.Header
        (CanonicalMIMEHeaderKey cfg.SessionNameInHTTPHeader) = some [HeaderLine.text sid] ∧
    mget (bindTransport cfg c sid w r).2.Header
        (CanonicalMIMEHeaderKey cfg.SessionNameInHTTPHeader) = some [sid] := by
  unfold bindTransport headerSet
  simp only [h, if_true]
  exact ⟨mget_mset_self _ _ _, mget_mset_self _ _ _⟩

theorem withLifeTime_fields (cfg : ManagerConfig) (now : Int) (c : Cookie) :
    (withLifeTime cfg now c).Name = c.Name ∧ (withLifeTime cfg now c).Value = c.Value ∧
    (withLifeTime cfg now c).Path = c.Path ∧ (withLifeTime cfg now c).HttpOnly = c.HttpOnly ∧
    (withLifeTime cfg now c).Secure = c.Secure ∧ (withLifeTime cfg now c).Domain = c.Domain := by
  unfold withLifeTime
  split <;> exact ⟨rfl, rfl, rfl, rfl, rfl, rfl⟩

/-! ## Manager.SessionStart -/

/-- The branch of `SessionStart` that generates an identifier. -/
theorem SessionStart_new {σ : Type} (P : Provider σ) (m : Manager σ) (w : ResponseWriter)
    (r : Request) (rand : Nat → RandRead) (now : Int) {sid0 id : String}
    (hsid : getSid m.config r = .ok sid0)
    (hfresh : sid0 = "" ∨ P.SessionExist m.provider sid0 = false)
    (hid : sessionID m.config rand = .ret (.ok id))
    (hnew : (P.SessionNew m.provider id 0).1.2 = none) :
    SessionStart P m w r rand now =
      .ret { session := (P.SessionNew m.provider id 0).1.1, err := none,
             manager := { m with provider := (P.SessionNew m.provider id 0).2 },
             w := (bindTransport m.config (withLifeTime m.config now (newCookie m.config r id))
                    id w r).1,
             r := (bindTransport m.config (withLifeTime m.config now (newCookie m.config r id))
                    id w r).2 } := by
  unfold SessionStart
  rw [hsid]
  simp only
  have hcond : ¬ (sid0 ≠ "" ∧ P.SessionExist m.provider sid0 = true) := by
    rintro ⟨h1, h2⟩
    rcases hfresh with h | h
    · exact h1 h
    · rw [h] at h2; cases h2
  rw [if_neg hcond, hid]
  simp only [hnew]

/-- The branch of `SessionStart` that reads the session of the inbound
identifier. -/
theorem SessionStart_read {σ : Type} (P : Provider σ) (m : Manager σ) (w : ResponseWriter)
    (r : Request) (rand : Nat → RandRead) (now : Int) {sid : String}
    (hsid : getSid m.config r = .ok sid) (hne : sid ≠ "")
    (hex : P.SessionExist m.provider sid = true) :
    SessionStart P m w r rand now =
      .ret { session := (P.SessionRead m.provider sid).1.1,
             err := (P.SessionRead m.provider sid).1.2,
             manager := { m with provider := (P.SessionRead m.provider sid).2 },
             w := w, r := r } := by
  unfold SessionStart
  rw [hsid]
  simp only
  rw [if_pos ⟨hne, hex⟩]

/-- C12 at a failing input.  With `EnableSetCookie` and `EnableSidInHTTPHeader`
both off, `SessionStart` on a request without identifier creates the session
`p/abab` and writes nothing to the response: no `Set-Cookie` line and no header
carries the identifier. -/
theorem start_binds_nothing :
    getSid quietConfig emptyRequest = .ok "" ∧
    (SessionStart (memoryProvider 0) (managerOf quietConfig) emptyResponse emptyRequest
      sampleRand 0).returned.map (fun rep => (rep.session, rep.err, rep.w))
      = some (some 0, none, emptyResponse) ∧
    (SessionStart (memoryProvider 0) (managerOf quietConfig) emptyResponse emptyRequest
      sampleRand 0).returned.map (fun rep => rep.manager.provider.sessions)
      = some [("p/abab", 0)] ∧
    ¬ BoundOnce quietConfig emptyResponse "p/abab" := by
  refine ⟨by decide, by decide, by decide, ?_⟩
  unfold BoundOnce
  decide

/-- C12, amended.  On a request that carries no identifier (`getSid` resolves
`""`), with a length `N >= 0`, a `rand.Read` that fills the `N` bytes without
error and a `SessionNew` that reports no error, `SessionStart` returns the store
of `Provider.SessionNew(id, 0)` for `id` the prefix followed by the `2N`
hexadecimal characters of the bytes, and leaves the provider as that call left
it.  The response gets one more `Set-Cookie` line, a cookie named `CookieName`
with the escaped `id` as value, when `EnableSetCookie` is on and `CookieName` is a
valid cookie name (and the header below does not overwrite `Set-Cookie`); its
header `SessionNameInHTTPHeader` is set to `id` when `EnableSidInHTTPHeader` is
on; with both switches off the response is unchanged. -/
theorem start_issues_fresh_id {σ : Type} (P : Provider σ) (m : Manager σ)
    (w : ResponseWriter) (r : Request) (rand : Nat → RandRead) (now : Int)
    (hnone : getSid m.config r = .ok "")
    (hlen : 0 ≤ m.config.SessionIDLength)
    (hn : (rand m.config.SessionIDLength.toNat).bytes.length = m.config.SessionIDLength.toNat)
    (herr : (rand m.config.SessionIDLength.toNat).err = none)
    (hnew : (P.SessionNew m.provider (m.config.SessionIDPrefix ++
      EncodeToString (rand m.config.SessionIDLength.toNat).bytes) 0).1.2 = none) :
    ∃ rep id, SessionStart P m w r rand now = .ret rep ∧
      id = m.config.SessionIDPrefix ++
        EncodeToString (rand m.config.SessionIDLength.toNat).bytes ∧
      id.length = m.config.SessionIDPrefix.length + 2 * m.config.SessionIDLength.toNat ∧
      rep.session = (P.SessionNew m.provider id 0).1.1 ∧ rep.err = none ∧
      rep.manager = { m with provider := (P.SessionNew m.provider id 0).2 } ∧
      (m.config.EnableSetCookie = true → isCookieNameValid m.config.CookieName = true →
        (m.config.EnableSidInHTTPHeader = false ∨
          CanonicalMIMEHeaderKey m.config.SessionNameInHTTPHeader ≠ "Set-Cookie") →
        ∃ c, setCookieLines rep.w = setCookieLines w ++ [HeaderLine.cookie c] ∧
          c.Name = m.config.CookieName ∧ c.Value = QueryEscape id) ∧
      (m.config.EnableSidInHTTPHeader = true →
        mget rep.w.Header (CanonicalMIMEHeaderKey m.config.SessionNameInHTTPHeader)
          = some [HeaderLine.text id]) ∧
      (m.config.EnableSetCookie = false → m.config.EnableSidInHTTPHeader = false →
        rep.w = w) := by
  have hid := sessionID_ok hlen hn herr
  have hstart := SessionStart_new P m w r rand now hnone (Or.inl rfl) hid hnew
  refine ⟨_, _, hstart, rfl, ?_, rfl, rfl, rfl, ?_, ?_, ?_⟩
  · rw [String.length_append]
    show _ + (encodeHex _).length = _
    rw [encodeHex_length, hn]
  · intro h1 h2 h3
    refine ⟨_, bindTransport_cookie _ _ w r h1 ?_ h3, ?_, ?_⟩
    · rw [(withLifeTime_fields _ _ _).1]; exact h2
    · rw [(withLifeTime_fields _ _ _).1]; rfl
    · rw [(withLifeTime_fields _ _ _).2.1]; rfl
  · intro h
    exact (bindTransport_header _ _ w r h).1
  · intro h1 h2
    exact bindTransport_quiet _ _ w r h1 h2

theorem start_issues_fresh_id_witness :
    (getSid sampleConfig emptyRequest = .ok "" ∧
      0 ≤ sampleConfig.SessionIDLength ∧
      (sampleRand sampleConfig.SessionIDLength.toNat).bytes.length
        = sampleConfig.SessionIDLength.toNat ∧
      (sampleRand sampleConfig.SessionIDLength.toNat).err = none ∧
      ((memoryProvider 0).SessionNew NewProvider "p/abab" 0).1.2 = none) ∧
    ∃ rep id, SessionStart (memoryProvider 0) (managerOf sampleConfig) emptyResponse
        emptyRequest sampleRand 0 = .ret rep ∧
      id = sampleConfig.SessionIDPrefix ++
        EncodeToString (sampleRand sampleConfig.SessionIDLength.toNat).bytes ∧
      id.length = sampleConfig.SessionIDPrefix.length + 2 * sampleConfig.SessionIDLength.toNat :=
  ⟨⟨by decide, by decide, by decide, by decide, by decide⟩,
   (start_issues_fresh_id (memoryProvider 0) (managerOf sampleConfig) emptyResponse
      emptyRequest sampleRand 0 (by decide) (by decide) (by decide) (by decide)
      (by decide)).imp fun _ h => h.imp fun _ h' => ⟨h'.1, h'.2.1, h'.2.2.1⟩⟩

/-! ## Start round trip -/

theorem sessionID_inv {cfg : ManagerConfig} {rand : Nat → RandRead} {s : String}
    (h : sessionID cfg rand = .ret (.ok s)) :
    0 ≤ cfg.SessionIDLength ∧
    (rand cfg.SessionIDLength.toNat).bytes.length = cfg.SessionIDLength.toNat ∧
    (rand cfg.SessionIDLength.toNat).err = none ∧
    s = cfg.SessionIDPrefix ++ EncodeToString (rand cfg.SessionIDLength.toNat).bytes := by
  by_cases hlen : 0 ≤ cfg.SessionIDLength
  · by_cases hok : (rand cfg.SessionIDLength.toNat).err ≠ none ∨
        (rand cfg.SessionIDLength.toNat).bytes.length ≠ cfg.SessionIDLength.toNat
    · rw [sessionID_error hlen hok] at h
      cases h
    · have hn : (rand cfg.SessionIDLength.toNat).bytes.length = cfg.SessionIDLength.toNat := by
        by_contra hcon; exact hok (Or.inr hcon)
      have herr : (rand cfg.SessionIDLength.toNat).err = none := by
        by_contra hcon; exact hok (Or.inl hcon)
      rw [sessionID_ok hlen hn herr] at h
      simp only [Outcome.ret.injEq, Except.ok.injEq] at h
      exact ⟨hlen, hn, herr, h.symm⟩
  · unfold sessionID at h
    rw [if_pos (by omega)] at h
    cases h

theorem hextable_isByte {n : Nat} (h : n < 16) : (hextable n).toNat < 256 := by
  interval_cases n <;> decide

theorem IsBytes_append_hex {p : String} (hp : IsBytes p) (b : List GoByte) :
    IsBytes (p ++ EncodeToString b) := by
  intro c hc
  rw [String.data_append] at hc
  rcases List.mem_append.1 hc with h | h
  · exact hp c h
  · obtain ⟨n, hn, rfl⟩ := encodeHex_digits b c h
    exact hextable_isByte hn

theorem append_hex_ne_empty (p : String) {b : List GoByte} (hb : 0 < b.length) :
    p ++ EncodeToString b ≠ "" := by
  intro h
  have hl := congrArg String.length h
  rw [String.length_append] at hl
  have : (EncodeToString b).length = 2 * b.length := encodeHex_length b
  rw [this] at hl
  have h0 : ("" : String).length = 0 := rfl
  rw [h0] at hl
  omega

theorem mget_append_new {κ ν : Type} [DecidableEq κ] (l : List (κ × ν)) (k : κ) (v : ν)
    (h : mget l k = none) : mget (l ++ [(k, v)]) k = some v := by
  induction l with
  | nil => simp [mget]
  | cons p rest ih =>
    obtain ⟨k', v'⟩ := p
    by_cases hk : k' = k
    · subst hk
      rw [mget_cons_eq] at h
      cases h
    · rw [mget_cons_ne _ _ hk] at h
      rw [List.cons_append, mget_cons_ne _ _ hk]
      exact ih h

/-- The record `SessionNew` returns is the one the index holds afterwards. -/
theorem SessionNew_indexed (pdr : ProviderMem) (sid : String) (now : Int) :
    ∃ e, (Memory.SessionNew pdr sid now).val = .ok e ∧
      mget (Memory.SessionNew pdr sid now).st.sessions sid = some e := by
  cases h : mget pdr.sessions sid with
  | some e =>
    exact ⟨e, by rw [SessionNew_of_resident now h], by
      rw [SessionNew_of_resident now h]; exact h⟩
  | none =>
    exact ⟨pdr.heap.length, by rw [SessionNew_of_absent now h], by
      rw [SessionNew_of_absent now h]; exact mget_mset_self _ _ _⟩

theorem bindTransport_cookies (cfg : ManagerConfig) (c : Cookie) (sid : String)
    (w : ResponseWriter) (r : Request) :
    (bindTransport cfg c sid w r).2.cookies = r.cookies ++ [(c.Name, c.Value)] := by
  unfold bindTransport AddCookie
  by_cases h : cfg.EnableSidInHTTPHeader = true
  · simp only [h, if_true]
  · simp only [h, Bool.false_eq_true, if_false]

/-- C13: Start round trip, over the memory provider.  Let `SessionStart` on a
request without the cookie take the branch that issues an identifier `s`, with a
prefix of bytes and a positive length.  It returns a store and hands out a cookie
whose value `c` is the escaped `s`.  On every later request whose cookie has the
value `c`, `getSid` resolves exactly `s`, `SessionExist(s)` holds, and
`SessionStart` returns the store `SessionRead(s)` returns, which is the store of
the first call, whatever the random source holds and without changing the provider
or writing to the response. -/
theorem start_round_trip (now now2 : Int) (m : Manager ProviderMem) (w : ResponseWriter)
    (r : Request) (rand : Nat → RandRead) (sid0 s : String)
    (w2 : ResponseWriter) (r2 : Request) (rand2 : Nat → RandRead)
    (hcookie : mget r.cookies m.config.CookieName = none)
    (hsid : getSid m.config r = .ok sid0)
    (hfresh : sid0 = "" ∨ Memory.SessionExist m.provider sid0 = false)
    (hid : sessionID m.config rand = .ret (.ok s))
    (hbytes : IsBytes m.config.SessionIDPrefix)
    (hlen : 0 < m.config.SessionIDLength)
    (hc2 : mget r2.cookies m.config.CookieName = some (QueryEscape s)) :
    ∃ rep h, SessionStart (memoryProvider now) m w r rand now = .ret rep ∧
      rep.session = some h ∧ rep.err = none ∧
      mget rep.r.cookies m.config.CookieName = some (QueryEscape s) ∧
      QueryUnescape (QueryEscape s) = .ok s ∧
      getSid rep.manager.config r2 = .ok s ∧
      Memory.SessionExist rep.manager.provider s = true ∧
      ((memoryProvider now2).SessionRead rep.manager.provider s).1 = (some h, none) ∧
      SessionStart (memoryProvider now2) rep.manager w2 r2 rand2 now2 =
        .ret { session := some h, err := none, manager := rep.manager, w := w2, r := r2 } := by
  obtain ⟨_, hn, _, hs⟩ := sessionID_inv hid
  obtain ⟨e, hval, hidx⟩ := SessionNew_indexed m.provider s now
  have hnewerr : ((memoryProvider now).SessionNew m.provider s 0).1.2 = none := by
    show (toPair (Memory.SessionNew m.provider s now).val).2 = none
    rw [hval]; rfl
  have hstart := SessionStart_new (memoryProvider now) m w r rand now hsid hfresh hid hnewerr
  have hsbytes : IsBytes s := by rw [hs]; exact IsBytes_append_hex hbytes _
  have hsne : s ≠ "" := by
    rw [hs]
    exact append_hex_ne_empty _ (by rw [hn]; omega)
  have hround := QueryUnescape_QueryEscape s hsbytes
  have hcne := QueryEscape_ne_empty hsne
  have hget : getSid m.config r2 = .ok s := by
    rw [getSid_eq]
    have : cookieValue r2 m.config.CookieName = some (QueryEscape s) := by
      unfold cookieValue
      rw [hc2]
      simp only [hcne, if_false]
    rw [this]
    exact hround
  have hexist : Memory.SessionExist (Memory.SessionNew m.provider s now).st s = true :=
    (SessionExist_eq_true_iff _ _).2 ⟨e, hidx⟩
  have hread : (memoryProvider now2).SessionRead (Memory.SessionNew m.provider s now).st s
      = ((some e, none), (Memory.SessionNew m.provider s now).st) := by
    show (toPair (Memory.SessionRead _ s).val, (Memory.SessionRead _ s).st) = _
    rw [SessionRead_of_resident hidx]
    rfl
  have hst : ((memoryProvider now).SessionNew m.provider s 0).2
      = (Memory.SessionNew m.provider s now).st := rfl
  refine ⟨_, e, hstart, ?_, rfl, ?_, hround, hget, hexist, ?_, ?_⟩
  · show (toPair (Memory.SessionNew m.provider s now).val).1 = some e
    rw [hval]; rfl
  · simp only [bindTransport_cookies]
    rw [(withLifeTime_fields _ _ _).1, (withLifeTime_fields _ _ _).2.1]
    exact mget_append_new _ _ _ hcookie
  · simp only [hst]
    rw [hread]
  · have h2 := SessionStart_read (memoryProvider now2)
      { m with provider := (Memory.SessionNew m.provider s now).st } w2 r2 rand2 now2
      hget hsne hexist
    simp only [hst]
    rw [h2, hread]

theorem start_round_trip_witness :
    (mget emptyRequest.cookies (managerOf sampleConfig).config.CookieName = none ∧
      getSid (managerOf sampleConfig).config emptyRequest = .ok "" ∧
      sessionID (managerOf sampleConfig).config sampleRand = .ret (.ok "p/abab") ∧
      IsBytes (managerOf sampleConfig).config.SessionIDPrefix ∧
      0 < (managerOf sampleConfig).config.SessionIDLength ∧
      mget (requestWithCookie "p%2Fabab").cookies (managerOf sampleConfig).config.CookieName
        = some (QueryEscape "p/abab")) ∧
    ∃ rep h, SessionStart (memoryProvider 0) (managerOf sampleConfig) emptyResponse
        emptyRequest sampleRand 0 = .ret rep ∧
      rep.session = some h ∧
      SessionStart (memoryProvider 1) rep.manager emptyResponse (requestWithCookie "p%2Fabab")
        brokenRand 1 =
        .ret { session := some h, err := none, manager := rep.manager, w := emptyResponse,
               r := requestWithCookie "p%2Fabab" } :=
  ⟨⟨by decide, by decide, by decide, by unfold IsBytes; decide, by decide, by decide⟩,
   (start_round_trip 0 1 (managerOf sampleConfig) emptyResponse emptyRequest sampleRand ""
      "p/abab" emptyResponse (requestWithCookie "p%2Fabab") brokenRand (by decide) (by decide)
      (Or.inl rfl) (by decide) (by unfold IsBytes; decide) (by decide) (by decide)).imp
    fun _ h => h.imp fun _ h' => ⟨h'.1, h'.2.1, h'.2.2.2.2.2.2.2.2⟩⟩

/-! ## Manager.SessionDestroy -/

theorem dropsCookies_eq_true {cfg : ManagerConfig} :
    dropsCookies cfg = true ↔ cfg.EnableSidInHTTPHeader = true ∧
      CanonicalMIMEHeaderKey cfg.SessionNameInHTTPHeader = "Cookie" := by
  unfold dropsCookies
  rw [Bool.and_eq_true, decide_eq_true_eq]

theorem dropsCookies_eq_false {cfg : ManagerConfig} :
    dropsCookies cfg = false ↔ cfg.EnableSidInHTTPHeader = false ∨
      CanonicalMIMEHeaderKey cfg.SessionNameInHTTPHeader ≠ "Cookie" := by
  unfold dropsCookies
  rw [Bool.and_eq_false_iff, decide_eq_false_iff_not]

/-- Without a usable cookie, and when the header it deletes first is the `Cookie`
field, `Manager.SessionDestroy` leaves the Manager alone. -/
theorem SessionDestroy_no_cookie {σ : Type} (P : Provider σ) (m : Manager σ)
    (w : ResponseWriter) (r : Request) (now : Int)
    (h : cookieValue r m.config.CookieName = none ∨ dropsCookies m.config = true) :
    (SessionDestroy P m w r now).manager = m := by
  unfold SessionDestroy Request.Cookie Request.delHeader
  rcases h with h | h
  · unfold cookieValue at h
    cases hm : mget r.cookies m.config.CookieName with
    | none =>
      by_cases hh : m.config.EnableSidInHTTPHeader = true
      · by_cases hk : CanonicalMIMEHeaderKey m.config.SessionNameInHTTPHeader = "Cookie"
        · simp [hh, hk, mget]
        · simp [hh, hk, hm]
      · simp [hh, hm]
    | some v =>
      rw [hm] at h
      have hv : v = "" := by
        by_contra hne
        simp [hne] at h
      subst hv
      by_cases hh : m.config.EnableSidInHTTPHeader = true
      · by_cases hk : CanonicalMIMEHeaderKey m.config.SessionNameInHTTPHeader = "Cookie"
        · simp [hh, hk, mget]
        · simp [hh, hk, hm]
      · simp [hh, hm]
  · obtain ⟨hh, hk⟩ := dropsCookies_eq_true.1 h
    simp [hh, hk, mget]

/-- With a usable cookie that the header deletion leaves in the request,
`Manager.SessionDestroy` calls `Provider.SessionDestroy` on its unescaped value,
on `""` when the value is malformed. -/
theorem SessionDestroy_cookie {σ : Type} (P : Provider σ) (m : Manager σ)
    (w : ResponseWriter) (r : Request) (now : Int) {v : String}
    (hd : dropsCookies m.config = false)
    (h : cookieValue r m.config.CookieName = some v) :
    (SessionDestroy P m w r now).manager =
      { m with provider := (P.SessionDestroy m.provider
          (match QueryUnescape v with
            | .ok sid => sid
            | .error _ => "")).1 } := by
  unfold cookieValue at h
  unfold SessionDestroy Request.Cookie Request.delHeader
  cases hm : mget r.cookies m.config.CookieName with
  | none => rw [hm] at h; cases h
  | some v' =>
    rw [hm] at h
    have hv : v' ≠ "" := by
      intro hcon
      simp [hcon] at h
    simp only [hv, if_false, Option.some.injEq] at h
    subst h
    rcases dropsCookies_eq_false.1 hd with hh | hk
    · simp [hh, hm, hv]
    · by_cases hh : m.config.EnableSidInHTTPHeader = true
      · simp [hh, hk, hm, hv]
      · simp [hh, hm, hv]

/-- C15 at a failing input.  With header transport on under `X-Sid`, a request
carries the resident identifier `abc` in its header and has no cookie.  `getSid`
resolves `abc` and `SessionStart` returns the session; after
`Manager.SessionDestroy` the session `abc` is still resident, although the method
has deleted the header from request and response.  With header transport on
under `Cookie`, the deletion removes the cookies before the cookie is read: a
request whose cookie carries `abc` leaves `abc` resident too.  With header
transport off the same cookie has the session destroyed. -/
theorem destroy_skips_header_id :
    getSid headerConfig (requestWithHeader "abc") = .ok "abc" ∧
    (SessionStart (memoryProvider 0) (managerWithAbc headerConfig) emptyResponse
      (requestWithHeader "abc") sampleRand 0).returned.map
        (fun rep => (rep.session, rep.err)) = some (some 0, none) ∧
    Memory.SessionExist (managerWithAbc headerConfig).provider "abc" = true ∧
    Memory.SessionExist (SessionDestroy (memoryProvider 0) (managerWithAbc headerConfig)
      emptyResponse (requestWithHeader "abc") 0).manager.provider "abc" = true ∧
    (SessionDestroy (memoryProvider 0) (managerWithAbc headerConfig)
      emptyResponse (requestWithHeader "abc") 0).r.Header = [] ∧
    Memory.SessionExist (SessionDestroy (memoryProvider 0) (managerWithAbc cookieHeaderConfig)
      emptyResponse (requestWithCookie "abc") 0).manager.provider "abc" = true ∧
    Memory.SessionExist (SessionDestroy (memoryProvider 0) (managerWithAbc sampleConfig)
      emptyResponse (requestWithCookie "abc") 0).manager.provider "abc" = false := by
  refine ⟨by decide, by decide, by decide, by decide, by decide, by decide, by decide⟩

/-- What `Manager.SessionDestroy` does, over the memory provider.  It reads the
identifier from the cookie `CookieName` alone, after the header deletion.  When
that cookie is present and not empty, and the deleted header is not the `Cookie`
field, it calls `Provider.SessionDestroy` on the unescaped value (on `""` when
the value is malformed) and that identifier is not resident afterwards.  When
the request has no such cookie, or an empty one, or the deleted header is the
`Cookie` field, the Manager and its provider are unchanged, whatever the request
parameters and header hold. -/
theorem destroy_reads_cookie_only (now : Int) (m : Manager ProviderMem)
    (w : ResponseWriter) (r : Request) :
    (∀ v sid, dropsCookies m.config = false →
      cookieValue r m.config.CookieName = some v → QueryUnescape v = .ok sid →
      (SessionDestroy (memoryProvider now) m w r now).manager.provider
        = (Memory.SessionDestroy m.provider sid).1 ∧
      Memory.SessionExist (SessionDestroy (memoryProvider now) m w r now).manager.provider sid
        = false) ∧
    (∀ v e, dropsCookies m.config = false →
      cookieValue r m.config.CookieName = some v → QueryUnescape v = .error e →
      (SessionDestroy (memoryProvider now) m w r now).manager.provider
        = (Memory.SessionDestroy m.provider "").1) ∧
    (cookieValue r m.config.CookieName = none ∨ dropsCookies m.config = true →
      ∀ form hdr, (SessionDestroy (memoryProvider now) m w
        { r with form := form, Header := hdr } now).manager = m) := by
  refine ⟨?_, ?_, ?_⟩
  · intro v sid hd hv hs
    rw [SessionDestroy_cookie _ m w r now hd hv, hs]
    refine ⟨rfl, ?_⟩
    rw [SessionExist_eq_false_iff]
    show mget (Memory.SessionDestroy m.provider sid).1.sessions sid = none
    rw [SessionDestroy_sessions]
    exact mget_mdel_self _ _
  · intro v e hd hv hs
    rw [SessionDestroy_cookie _ m w r now hd hv, hs]
    rfl
  · intro hnone form hdr
    exact SessionDestroy_no_cookie _ m w _ now hnone

theorem destroy_reads_cookie_only_examples :
    (cookieValue (requestWithCookie "abc") (managerWithAbc sampleConfig).config.CookieName
        = some "abc" ∧ QueryUnescape "abc" = .ok "abc" ∧
      Memory.SessionExist (SessionDestroy (memoryProvider 0) (managerWithAbc sampleConfig)
        emptyResponse (requestWithCookie "abc") 0).manager.provider "abc" = false) ∧
    (cookieValue emptyRequest (managerWithAbc headerConfig).config.CookieName = none ∧
      (SessionDestroy (memoryProvider 0) (managerWithAbc headerConfig) emptyResponse
        (requestWithHeader "abc") 0).manager = managerWithAbc headerConfig) :=
  ⟨⟨by decide, by decide,
     ((destroy_reads_cookie_only 0 (managerWithAbc sampleConfig) emptyResponse
        (requestWithCookie "abc")).1 "abc" "abc" (by decide) (by decide) (by decide)).2⟩,
   ⟨by decide,
     (destroy_reads_cookie_only 0 (managerWithAbc headerConfig) emptyResponse
        emptyRequest).2.2 (Or.inl (by decide)) (Except.ok []) [("X-Sid", ["abc"])]⟩⟩

/-! ## Manager.SessionRegenerateID -/

/-- When no identifier can be generated `SessionRegenerateID` returns nil and
changes nothing. -/
theorem SessionRegenerateID_fail {σ : Type} (P : Provider σ) (m : Manager σ)
    (w : ResponseWriter) (r : Request) (rand : Nat → RandRead) (now : Int) {e : String}
    (h : sessionID m.config rand = .ret (.error e)) :
    SessionRegenerateID P m w r rand now =
      .ret { session := none, err := none, manager := m, w := w, r := r } := by
  unfold SessionRegenerateID
  rw [h]

/-- The branch of `SessionRegenerateID` without a usable cookie. -/
theorem SessionRegenerateID_new {σ : Type} (P : Provider σ) (m : Manager σ)
    (w : ResponseWriter) (r : Request) (rand : Nat → RandRead) (now : Int) {id : String}
    (hid : sessionID m.config rand = .ret (.ok id))
    (hc : cookieValue r m.config.CookieName = none) :
    SessionRegenerateID P m w r rand now =
      .ret { session := (P.SessionNew m.provider id 0).1.1, err := none,
             manager := { m with provider := (P.SessionNew m.provider id 0).2 },
             w := (bindTransport m.config (withLifeTime m.config now (newCookie m.config r id))
                    id w r).1,
             r := (bindTransport m.config (withLifeTime m.config now (newCookie m.config r id))
                    id w r).2 } := by
  unfold cookieValue at hc
  unfold SessionRegenerateID Request.Cookie
  rw [hid]
  cases hm : mget r.cookies m.config.CookieName with
  | none => simp only
  | some v =>
    rw [hm] at hc
    have hv : v = "" := by
      by_contra hne
      simp [hne] at hc
    subst hv
    simp only [if_true]

/-- The branch of `SessionRegenerateID` with a usable cookie. -/
theorem SessionRegenerateID_old {σ : Type} (P : Provider σ) (m : Manager σ)
    (w : ResponseWriter) (r : Request) (rand : Nat → RandRead) (now : Int) {id v : String}
    (hid : sessionID m.config rand = .ret (.ok id))
    (hc : cookieValue r m.config.CookieName = some v) :
    SessionRegenerateID P m w r rand now =
      .ret { session := (P.SessionRegenerate m.provider
                (match QueryUnescape v with
                  | .ok s => s
                  | .error _ => "") id).1.1,
             err := none,
             manager := { m with provider := (P.SessionRegenerate m.provider
                (match QueryUnescape v with
                  | .ok s => s
                  | .error _ => "") id).2 },
             w := (bindTransport m.config (withLifeTime m.config now
                    { Name := m.config.CookieName, Value := QueryEscape id, Path := "/",
                      Domain := "", Expires := none, MaxAge := 0, Secure := false,
                      HttpOnly := true }) id w r).1,
             r := (bindTransport m.config (withLifeTime m.config now
                    { Name := m.config.CookieName, Value := QueryEscape id, Path := "/",
                      Domain := "", Expires := none, MaxAge := 0, Secure := false,
                      HttpOnly := true }) id w r).2 } := by
  unfold cookieValue at hc
  unfold SessionRegenerateID Request.Cookie
  rw [hid]
  cases hm : mget r.cookies m.config.CookieName with
  | none => rw [hm] at hc; cases hc
  | some v' =>
    rw [hm] at hc
    have hv : v' ≠ "" := by
      intro hcon
      simp [hcon] at hc
    simp only [hv, if_false, Option.some.injEq] at hc
    subst hc
    simp only [hv, if_false]

theorem isSecure_iff (cfg : ManagerConfig) (r : Request) :
    isSecure cfg r = true ↔
      cfg.Secure = true ∧ (r.Scheme = "https" ∨ (r.Scheme = "" ∧ r.TLS = true)) := by
  unfold isSecure
  cases hs : cfg.Secure
  · simp
  · by_cases hsch : r.Scheme = ""
    · cases ht : r.TLS <;> simp [hsch]
    · simp [hsch]

/-- The cookie `SessionStart` and the first branch of `SessionRegenerateID` write
has the attributes the configuration asks for. -/
theorem newCookie_honours (cfg : ManagerConfig) (r : Request) (sid : String) (now : Int) :
    HonoursConfig cfg r (withLifeTime cfg now (newCookie cfg r sid)) := by
  unfold HonoursConfig
  rw [(withLifeTime_fields _ _ _).2.2.1, (withLifeTime_fields _ _ _).2.2.2.1,
    (withLifeTime_fields _ _ _).2.2.2.2.1]
  exact ⟨rfl, rfl, isSecure_iff cfg r⟩

/-- C17 at a failing input.  The configuration sets `Secure` and disables
`HttpOnly`; the request is https and carries the cookie of the resident session
`abc`.  The configuration asks for `Secure = true` and `HttpOnly = false`, and the
cookie `SessionRegenerateID` writes in its second branch has `Secure = false` and
`HttpOnly = true`. -/
theorem regenerate_cookie_ignores_config :
    isSecure secureConfig (httpsRequestWithCookie "abc") = true ∧
    (!secureConfig.DisableHTTPOnly) = false ∧
    (SessionRegenerateID (memoryProvider 0) (managerWithAbc secureConfig) emptyResponse
      (httpsRequestWithCookie "abc") sampleRand 0).returned.map (fun rep => setCookieLines rep.w)
      = some [HeaderLine.cookie
          { Name := "sid", Value := "p%2Fabab", Path := "/", Domain := "", Expires := none,
            MaxAge := 0, Secure := false, HttpOnly := true }] ∧
    ¬ HonoursConfig secureConfig (httpsRequestWithCookie "abc")
        { Name := "sid", Value := "p%2Fabab", Path := "/", Domain := "", Expires := none,
          MaxAge := 0, Secure := false, HttpOnly := true } := by
  refine ⟨by decide, by decide, by decide, ?_⟩
  unfold HonoursConfig
  decide

/-- Over a well-formed memory provider the record `SessionNew(sid)` returns has
the id `sid`. -/
theorem SessionNew_store_sid {pdr : ProviderMem} (sid : String) (now : Int) (hwf : WF pdr) :
    ∃ h st, (Memory.SessionNew pdr sid now).val = .ok h ∧
      deref (Memory.SessionNew pdr sid now).st h = some st ∧ st.sid = sid := by
  cases hm : mget pdr.sessions sid with
  | some e =>
    obtain ⟨_, st, hst, hsid⟩ := hwf.2.2 sid e hm
    rw [SessionNew_of_resident now hm]
    exact ⟨e, st, rfl, hst, hsid⟩
  | none =>
    rw [SessionNew_of_absent now hm]
    exact ⟨pdr.heap.length, { sid := sid, timeAccessed := now, values := [] }, rfl,
      by simp [deref], rfl⟩

/-- Over a well-formed memory provider the record `SessionRegenerate(oldSid, sid)`
returns has the id `sid`. -/
theorem SessionRegenerate_store_sid {pdr : ProviderMem} (oldSid sid : String) (now : Int)
    (hwf : WF pdr) :
    ∃ h st, (Memory.SessionRegenerate pdr oldSid sid now).val = .ok h ∧
      deref (Memory.SessionRegenerate pdr oldSid sid now).st h = some st ∧ st.sid = sid := by
  cases hm : mget pdr.sessions oldSid with
  | some e =>
    obtain ⟨_, st, hst, _⟩ := hwf.2.2 oldSid e hm
    rw [SessionRegenerate_of_resident now hm]
    exact ⟨e, { st with sid := sid }, rfl, by simp [deref, List.getElem?_modify, hst], rfl⟩
  | none =>
    rw [SessionRegenerate_of_absent now hm]
    exact ⟨pdr.heap.length, { sid := sid, timeAccessed := now, values := [] }, rfl,
      by simp [deref], rfl⟩

/-- What `bindTransport` writes to the response for a cookie named `CookieName`. -/
theorem bindTransport_response (cfg : ManagerConfig) (now : Int) (c : Cookie) (id : String)
    (w : ResponseWriter) (r : Request) (hname : c.Name = cfg.CookieName)
    (hvalue : c.Value = QueryEscape id) :
    (cfg.EnableSetCookie = true → isCookieNameValid cfg.CookieName = true →
      (cfg.EnableSidInHTTPHeader = false ∨
        CanonicalMIMEHeaderKey cfg.SessionNameInHTTPHeader ≠ "Set-Cookie") →
      ∃ c', setCookieLines (bindTransport cfg (withLifeTime cfg now c) id w r).1
          = setCookieLines w ++ [HeaderLine.cookie c'] ∧
        c'.Name = cfg.CookieName ∧ c'.Value = QueryEscape id) ∧
    (cfg.EnableSidInHTTPHeader = true →
      mget (bindTransport cfg (withLifeTime cfg now c) id w r).1.Header
        (CanonicalMIMEHeaderKey cfg.SessionNameInHTTPHeader) = some [HeaderLine.text id]) ∧
    (cfg.EnableSetCookie = false → cfg.EnableSidInHTTPHeader = false →
      (bindTransport cfg (withLifeTime cfg now c) id w r).1 = w) := by
  refine ⟨?_, ?_, ?_⟩
  · intro h1 h2 h3
    refine ⟨_, bindTransport_cookie _ _ w r h1 ?_ h3, ?_, ?_⟩
    · rw [(withLifeTime_fields _ _ _).1, hname]; exact h2
    · rw [(withLifeTime_fields _ _ _).1]; exact hname
    · rw [(withLifeTime_fields _ _ _).2.1]; exact hvalue
  · intro h
    exact (bindTransport_header _ _ w r h).1
  · intro h1 h2
    exact bindTransport_quiet _ _ w r h1 h2

/-- C16 at a failing input.  With `EnableSetCookie` off, `SessionRegenerateID` on a
request that carries the cookie of the resident session `abc` relabels the
session to `p/abab` and writes no cookie to the response; and when the random
source fails it returns no store. -/
theorem regenerate_writes_no_cookie :
    (SessionRegenerateID (memoryProvider 0) (managerWithAbc quietConfig) emptyResponse
      (requestWithCookie "abc") sampleRand 0).returned.map
        (fun rep => (rep.session, rep.manager.provider.sessions, rep.w))
      = some (some 0, [("p/abab", 0)], emptyResponse) ∧
    setCookieLines emptyResponse = [] ∧
    (SessionRegenerateID (memoryProvider 0) (managerWithAbc sampleConfig) emptyResponse
      (requestWithCookie "abc") brokenRand 0).returned.map (fun rep => rep.session)
      = some none := by
  decide

/-- C16, amended, over the memory provider.  When `rand.Read` fills the bytes
without error (length `N >= 0`), `SessionRegenerateID` returns a store whose id
is the new identifier `id`, the prefix followed by the hexadecimal characters of
the bytes: the result of `Provider.SessionRegenerate(old, id)` when the cookie
`CookieName` is present and not empty, `old` being its unescaped value (`""` when
malformed), and the result of `Provider.SessionNew(id, 0)` otherwise.  The
response gets one more `Set-Cookie` line carrying the escaped `id` when
`EnableSetCookie` is on and `CookieName` is a valid cookie name (and the header
below does not overwrite `Set-Cookie`), its header `SessionNameInHTTPHeader` is
set to `id` when `EnableSidInHTTPHeader` is on, and it is unchanged when both are
off. -/
theorem regenerate_id_spec (now : Int) (m : Manager ProviderMem) (w : ResponseWriter)
    (r : Request) (rand : Nat → RandRead)
    (hlen : 0 ≤ m.config.SessionIDLength)
    (hn : (rand m.config.SessionIDLength.toNat).bytes.length = m.config.SessionIDLength.toNat)
    (herr : (rand m.config.SessionIDLength.toNat).err = none)
    (hwf : WF m.provider) :
    ∃ rep id h, SessionRegenerateID (memoryProvider now) m w r rand now = .ret rep ∧
      id = m.config.SessionIDPrefix ++
        EncodeToString (rand m.config.SessionIDLength.toNat).bytes ∧
      rep.session = some h ∧
      (memoryProvider now).SessionID rep.manager.provider h = id ∧
      (∀ v, cookieValue r m.config.CookieName = some v →
        rep.session = ((memoryProvider now).SessionRegenerate m.provider
          (match QueryUnescape v with
            | .ok s => s
            | .error _ => "") id).1.1 ∧
        rep.manager.provider = ((memoryProvider now).SessionRegenerate m.provider
          (match QueryUnescape v with
            | .ok s => s
            | .error _ => "") id).2) ∧
      (cookieValue r m.config.CookieName = none →
        rep.session = ((memoryProvider now).SessionNew m.provider id 0).1.1 ∧
        rep.manager.provider = ((memoryProvider now).SessionNew m.provider id 0).2) ∧
      (m.config.EnableSetCookie = true → isCookieNameValid m.config.CookieName = true →
        (m.config.EnableSidInHTTPHeader = false ∨
          CanonicalMIMEHeaderKey m.config.SessionNameInHTTPHeader ≠ "Set-Cookie") →
        ∃ c, setCookieLines rep.w = setCookieLines w ++ [HeaderLine.cookie c] ∧
          c.Name = m.config.CookieName ∧ c.Value = QueryEscape id) ∧
      (m.config.EnableSidInHTTPHeader = true →
        mget rep.w.Header (CanonicalMIMEHeaderKey m.config.SessionNameInHTTPHeader)
          = some [HeaderLine.text id]) ∧
      (m.config.EnableSetCookie = false → m.config.EnableSidInHTTPHeader = false →
        rep.w = w) := by
  have hid := sessionID_ok hlen hn herr
  cases hc : cookieValue r m.config.CookieName with
  | none =>
    obtain ⟨h, st, hval, hderef, hsid⟩ := SessionNew_store_sid
      (m.config.SessionIDPrefix ++ EncodeToString (rand m.config.SessionIDLength.toNat).bytes)
      now hwf
    have hresp := bindTransport_response m.config now
      (newCookie m.config r (m.config.SessionIDPrefix ++
        EncodeToString (rand m.config.SessionIDLength.toNat).bytes)) _ w r rfl rfl
    refine ⟨_, _, h, SessionRegenerateID_new _ m w r rand now hid hc, rfl, ?_, ?_, ?_, ?_,
      hresp.1, hresp.2.1, hresp.2.2⟩
    · show (toPair (Memory.SessionNew m.provider _ now).val).1 = some h
      rw [hval]; rfl
    · show (match deref (Memory.SessionNew m.provider _ now).st h with
        | some st => st.SessionID
        | none => "") = _
      rw [hderef]
      exact hsid
    · intro v hv; cases hv
    · intro _; exact ⟨rfl, rfl⟩
  | some v =>
    obtain ⟨h, st, hval, hderef, hsid⟩ := SessionRegenerate_store_sid
      (match QueryUnescape v with
        | .ok s => s
        | .error _ => "")
      (m.config.SessionIDPrefix ++ EncodeToString (rand m.config.SessionIDLength.toNat).bytes)
      now hwf
    have hresp := bindTransport_response m.config now
      { Name := m.config.CookieName,
        Value := QueryEscape (m.config.SessionIDPrefix ++
          EncodeToString (rand m.config.SessionIDLength.toNat).bytes),
        Path := "/", Domain := "", Expires := none, MaxAge := 0, Secure := false,
        HttpOnly := true } _ w r rfl rfl
    refine ⟨_, _, h, SessionRegenerateID_old _ m w r rand now hid hc, rfl, ?_, ?_, ?_, ?_,
      hresp.1, hresp.2.1, hresp.2.2⟩
    · show (toPair (Memory.SessionRegenerate m.provider _ _ now).val).1 = some h
      rw [hval]; rfl
    · show (match deref (Memory.SessionRegenerate m.provider _ _ now).st h with
        | some st => st.SessionID
        | none => "") = _
      rw [hderef]
      exact hsid
    · intro v' hv'
      simp only [Option.some.injEq] at hv'
      subst hv'
      exact ⟨rfl, rfl⟩
    · intro hcon; cases hcon

theorem regenerate_id_spec_witness :
    (0 ≤ (managerWithAbc sampleConfig).config.SessionIDLength ∧
      (sampleRand (managerWithAbc sampleConfig).config.SessionIDLength.toNat).bytes.length
        = (managerWithAbc sampleConfig).config.SessionIDLength.toNat ∧
      (sampleRand (managerWithAbc sampleConfig).config.SessionIDLength.toNat).err = none ∧
      WF (managerWithAbc sampleConfig).provider) ∧
    ∃ rep id h, SessionRegenerateID (memoryProvider 0) (managerWithAbc sampleConfig)
        emptyResponse (requestWithCookie "abc") sampleRand 0 = .ret rep ∧
      id = (managerWithAbc sampleConfig).config.SessionIDPrefix ++
        EncodeToString
          (sampleRand (managerWithAbc sampleConfig).config.SessionIDLength.toNat).bytes ∧
      rep.session = some h ∧
      (memoryProvider 0).SessionID rep.manager.provider h = id :=
  ⟨⟨by decide, by decide, by decide, WF_SessionNew "abc" 0 WF_NewProvider⟩,
   (regenerate_id_spec 0 (managerWithAbc sampleConfig) emptyResponse (requestWithCookie "abc")
      sampleRand (by decide) (by decide) (by decide)
      (WF_SessionNew "abc" 0 WF_NewProvider)).imp
    fun _ h => h.imp fun _ h' => h'.imp fun _ h'' => ⟨h''.1, h''.2.1, h''.2.2.1, h''.2.2.2.1⟩⟩

/-! ## Two-provider linking -/

theorem TokenMgrCreate_own (now : Int) (m : Manager ProviderMem) {s2 : ProviderMem}
    (u t : String) {h : Nat} (hown : m.providerMgr = .own s2)
    (hval : (Memory.SessionNew s2 u now).val = .ok h) :
    TokenMgrCreate (memoryProvider now) m u t =
      .ret ((some h, none),
        { m with providerMgr := MgrRef.own (storeSet (Memory.SessionNew s2 u now).st h
            (GoValue.str "token") (GoValue.str t)) }) := by
  unfold TokenMgrCreate
  simp [Manager.mgr, Manager.setMgr, hown, memoryProvider, hval, toPair]

theorem MgrDestroyToken_own (now : Int) (m : Manager ProviderMem) {s2 : ProviderMem}
    (u t : String) {h : Nat} {st : SessionStoreMem} (hown : m.providerMgr = .own s2)
    (hidx : mget s2.sessions u = some h) (hst : deref s2 h = some st)
    (htok : st.Get (GoValue.str "token") = GoValue.str t) :
    MgrDestroyToken (memoryProvider now) m u =
      .ret (none,
        { m with provider := (Memory.SessionDestroy m.provider t).1,
                 providerMgr := .own (Memory.SessionDestroy s2 u).1 }) := by
  unfold MgrDestroyToken
  simp [Manager.mgr, Manager.setMgr, hown, memoryProvider, SessionRead_of_resident hidx, toPair,
    hst, htok]

theorem SessionExist_SessionDestroy (pdr : ProviderMem) (sid : String) :
    Memory.SessionExist (Memory.SessionDestroy pdr sid).1 sid = false := by
  rw [SessionExist_eq_false_iff, SessionDestroy_sessions]
  exact mget_mdel_self _ _

/-- C18: two-provider linking, over memory providers, for a Manager whose
secondary provider is an object of its own in a well-formed state.  After
`TokenMgrCreate(u, t)` the secondary provider holds a record keyed `u` whose key
`"token"` maps to `t`, and the primary provider is untouched.  Whenever the
secondary provider holds a record keyed `u` whose `"token"` is the string `t`,
`MgrDestroyToken(u)` returns nil after `SessionDestroy(t)` on the primary and
`SessionDestroy(u)` on the secondary provider, whether or not `t` was resident,
and afterwards neither `t` nor `u` is resident; in particular this is so right
after `TokenMgrCreate(u, t)`. -/
theorem token_link (now : Int) (m : Manager ProviderMem) (s2 : ProviderMem) (u t : String)
    (hown : m.providerMgr = .own s2) (hwf : WF s2) :
    (∃ h s2', TokenMgrCreate (memoryProvider now) m u t =
        .ret ((some h, none), { m with providerMgr := .own s2' }) ∧
      Memory.SessionExist s2' u = true ∧ mget s2'.sessions u = some h ∧
      (memoryProvider now).Get s2' h (GoValue.str "token") = GoValue.str t ∧
      MgrDestroyToken (memoryProvider now) { m with providerMgr := .own s2' } u =
        .ret (none,
          { m with provider := (Memory.SessionDestroy m.provider t).1,
                   providerMgr := .own (Memory.SessionDestroy s2' u).1 }) ∧
      Memory.SessionExist (Memory.SessionDestroy s2' u).1 u = false) ∧
    (∀ h st, mget s2.sessions u = some h → deref s2 h = some st →
      st.Get (GoValue.str "token") = GoValue.str t →
      MgrDestroyToken (memoryProvider now) m u =
        .ret (none,
          { m with provider := (Memory.SessionDestroy m.provider t).1,
                   providerMgr := .own (Memory.SessionDestroy s2 u).1 }) ∧
      Memory.SessionExist (Memory.SessionDestroy m.provider t).1 t = false ∧
      Memory.SessionExist (Memory.SessionDestroy s2 u).1 u = false) := by
  constructor
  · obtain ⟨h, hval, hidx⟩ := SessionNew_indexed s2 u now
    obtain ⟨h', st, hval', hderef, _⟩ := SessionNew_store_sid u now hwf
    have hh : h' = h := by
      rw [hval] at hval'
      simp only [Except.ok.injEq] at hval'
      exact hval'.symm
    subst hh
    have hidx' : mget (storeSet (Memory.SessionNew s2 u now).st h' (GoValue.str "token")
        (GoValue.str t)).sessions u = some h' := hidx
    have hderef' : deref (storeSet (Memory.SessionNew s2 u now).st h' (GoValue.str "token")
        (GoValue.str t)) h' = some (st.Set (GoValue.str "token") (GoValue.str t)).1 := by
      unfold deref at hderef
      simp [deref, storeSet, List.getElem?_modify, hderef]
    have hget : ((st.Set (GoValue.str "token") (GoValue.str t)).1).Get (GoValue.str "token")
        = GoValue.str t := by
      simp [SessionStoreMem.Set, SessionStoreMem.Get, mget_mset_self]
    refine ⟨h', _, TokenMgrCreate_own now m u t hown hval, ?_, hidx', ?_, ?_, ?_⟩
    · exact (SessionExist_eq_true_iff _ _).2 ⟨h', hidx'⟩
    · show (match deref _ h' with
        | some st => st.Get (GoValue.str "token")
        | none => GoValue.nil) = _
      rw [hderef']
      exact hget
    · exact MgrDestroyToken_own now _ u t rfl hidx' hderef' hget
    · exact SessionExist_SessionDestroy _ _
  · intro h st hidx hst htok
    exact ⟨MgrDestroyToken_own now m u t hown hidx hst htok,
      SessionExist_SessionDestroy _ _, SessionExist_SessionDestroy _ _⟩

theorem token_link_witness :
    (linkedManager.providerMgr = .own NewProvider ∧ WF NewProvider) ∧
    ∃ h s2', TokenMgrCreate (memoryProvider 0) linkedManager "alice" "p/abab" =
        .ret ((some h, none), { linkedManager with providerMgr := .own s2' }) ∧
      Memory.SessionExist s2' "alice" = true ∧
      (memoryProvider 0).Get s2' h (GoValue.str "token") = GoValue.str "p/abab" :=
  ⟨⟨rfl, WF_NewProvider⟩,
   (token_link 0 linkedManager NewProvider "alice" "p/abab" rfl WF_NewProvider).1.imp
    fun _ h => h.imp fun _ h' => ⟨h'.1, h'.2.1, h'.2.2.2.1⟩⟩

/-! ## GetProvider and NewManager -/

theorem GetProvider_unknown {name : String} (h1 : name ≠ "file") (h2 : name ≠ "memory")
    (h3 : name ≠ "mysql") (h4 : name ≠ "redis") :
    GetProvider name = .error ("session: unknown provider " ++ name) := by
  simp [GetProvider, h1, h2, h3, h4]

/-- The header-name check does not look at the lifetime `NewManager` defaults
before it. -/
theorem headerNamePanic_lifetime (cf : ManagerConfig) :
    headerNamePanic (if cf.Maxlifetime = 0 then { cf with Maxlifetime := cf.Gclifetime } else cf)
      = headerNamePanic cf := by
  split <;> rfl

theorem NewManager_panics {σ : Type} (P : Provider σ) (newProvider : ProviderKind → σ)
    (name : String) (cf : ManagerConfig) {msg : String} (h : headerNamePanic cf = some msg) :
    NewManager P newProvider name cf = .panics msg := by
  unfold NewManager
  simp only [headerNamePanic_lifetime, h]

theorem NewManager_unknown {σ : Type} (P : Provider σ) (newProvider : ProviderKind → σ)
    (name : String) (cf : ManagerConfig) {e : String} (h : headerNamePanic cf = none)
    (hname : GetProvider name = .error e) :
    NewManager P newProvider name cf = .ret (.error e) := by
  unfold NewManager
  simp only [headerNamePanic_lifetime, h, hname]

/-- C19.  `GetProvider` returns a provider and a nil error for each of the names
`memory`, `file`, `mysql` and `redis`, and no provider and the error
`session: unknown provider <name>` for every other name.  `NewManager` with such
a name, on a configuration that passes the header-name check before the lookup,
returns that error and no Manager. -/
theorem provider_selection {σ : Type} (P : Provider σ) (newProvider : ProviderKind → σ)
    (name : String) (cf : ManagerConfig)
    (h1 : name ≠ "file") (h2 : name ≠ "memory") (h3 : name ≠ "mysql") (h4 : name ≠ "redis")
    (hhdr : headerNamePanic cf = none) :
    GetProvider "memory" = .ok .memory ∧ GetProvider "file" = .ok .file ∧
    GetProvider "mysql" = .ok .mysql ∧ GetProvider "redis" = .ok .redis ∧
    GetProvider name = .error ("session: unknown provider " ++ name) ∧
    NewManager P newProvider name cf =
      .ret (.error ("session: unknown provider " ++ name)) :=
  ⟨by decide, by decide, by decide, by decide, GetProvider_unknown h1 h2 h3 h4,
    NewManager_unknown P newProvider name cf hhdr (GetProvider_unknown h1 h2 h3 h4)⟩

theorem provider_selection_witness :
    ("bogus" ≠ "file" ∧ "bogus" ≠ "memory" ∧ "bogus" ≠ "mysql" ∧ "bogus" ≠ "redis" ∧
      headerNamePanic sampleConfig = none) ∧
    GetProvider "bogus" = .error ("session: unknown provider " ++ "bogus") ∧
    NewManager (memoryProvider 0) (fun _ => NewProvider) "bogus" sampleConfig =
      .ret (.error ("session: unknown provider " ++ "bogus")) :=
  ⟨⟨by decide, by decide, by decide, by decide, by decide⟩,
   (provider_selection (memoryProvider 0) (fun _ => NewProvider) "bogus" sampleConfig
      (by decide) (by decide) (by decide) (by decide) (by decide)).2.2.2.2⟩

/-! ## The header-name check of NewManager -/

theorem isLower_range (c : Char) (h : c.isLower = true) : 97 ≤ c.toNat ∧ c.toNat ≤ 122 := by
  simp only [Char.isLower, Bool.and_eq_true, decide_eq_true_eq] at h
  exact ⟨h.1, h.2⟩

theorem isUpper_range (c : Char) (h : c.isUpper = true) : 65 ≤ c.toNat ∧ c.toNat ≤ 90 := by
  simp only [Char.isUpper, Bool.and_eq_true, decide_eq_true_eq] at h
  exact ⟨h.1, h.2⟩

theorem toUpper_ne (c : Char) (h : c.isLower = true) : c.toUpper ≠ c := by
  obtain ⟨h1, h2⟩ := isLower_range c h
  have hc : c = Char.ofNat c.toNat := (Char.ofNat_toNat c).symm
  rw [hc]
  generalize c.toNat = n at h1 h2
  interval_cases n <;> decide

theorem toLower_ne (c : Char) (h : c.isUpper = true) : c.toLower ≠ c := by
  obtain ⟨h1, h2⟩ := isUpper_range c h
  have hc : c = Char.ofNat c.toNat := (Char.ofNat_toNat c).symm
  rw [hc]
  generalize c.toNat = n at h1 h2
  interval_cases n <;> decide

/-- On token characters the loop of `canonicalMIMEHeaderKey` leaves exactly the
names in canonical form as they are. -/
theorem canonChars_eq_iff (start : Bool) (cs : List Char) (ht : cs.all isToken = true) :
    canonChars start cs = cs ↔ canonicalFrom start cs = true := by
  induction cs generalizing start with
  | nil => simp [canonChars, canonicalFrom]
  | cons c rest ih =>
    rw [List.all_cons, Bool.and_eq_true] at ht
    obtain ⟨htc, htr⟩ := ht
    unfold canonChars canonicalFrom
    simp only [htc, Bool.true_and, List.cons.injEq]
    cases start with
    | true =>
      cases hl : c.isLower with
      | true =>
        simp only [Bool.and_self, if_true, Bool.not_true, Bool.false_and, Bool.false_eq_true,
          iff_false, not_and]
        intro hcon
        exact absurd hcon (toUpper_ne c hl)
      | false =>
        simp only [Bool.and_false, Bool.false_eq_true, if_false, Bool.not_true, Bool.false_and,
          Bool.not_false, Bool.true_and, true_and, if_true]
        exact ih (decide (c = '-')) htr
    | false =>
      cases hu : c.isUpper with
      | true =>
        simp only [Bool.false_and, Bool.false_eq_true, if_false, Bool.not_false, Bool.and_self,
          if_true, Bool.not_true, iff_false, not_and]
        intro hcon
        exact absurd hcon (toLower_ne c hu)
      | false =>
        simp only [Bool.false_and, Bool.false_eq_true, if_false, Bool.not_false, Bool.and_false,
          Bool.true_and, true_and]
        exact ih (decide (c = '-')) htr

theorem canonicalFrom_token (start : Bool) (cs : List Char)
    (h : canonicalFrom start cs = true) : cs.all isToken = true := by
  induction cs generalizing start with
  | nil => rfl
  | cons c rest ih =>
    unfold canonicalFrom at h
    simp only [Bool.and_eq_true] at h
    rw [List.all_cons, Bool.and_eq_true]
    exact ⟨h.1.1, ih _ h.2⟩

/-- A name of token characters is its own canonical key exactly when it is in
canonical form. -/
theorem CanonicalMIMEHeaderKey_eq_iff (s : String) (ht : s.data.all isToken = true) :
    s = CanonicalMIMEHeaderKey s ↔ CanonicalForm s = true := by
  unfold CanonicalMIMEHeaderKey CanonicalForm
  rw [if_pos ht, ← canonChars_eq_iff true s.data ht]
  constructor
  · intro h
    exact (congrArg String.data h).symm
  · intro h
    exact String.ext h.symm

/-- A name with a byte that is no token character is its own canonical key. -/
theorem CanonicalMIMEHeaderKey_invalid (s : String) (ht : s.data.all isToken = false) :
    CanonicalMIMEHeaderKey s = s := by
  unfold CanonicalMIMEHeaderKey
  rw [if_neg (by rw [ht]; exact Bool.false_ne_true)]

theorem headerNamePanic_pass (cf : ManagerConfig)
    (h : cf.EnableSidInHTTPHeader = false ∨
      (cf.SessionNameInHTTPHeader ≠ "" ∧ CanonicalForm cf.SessionNameInHTTPHeader = true)) :
    headerNamePanic cf = none := by
  unfold headerNamePanic
  rcases h with h | ⟨hne, hcan⟩
  · simp [h]
  · have heq := (CanonicalMIMEHeaderKey_eq_iff cf.SessionNameInHTTPHeader
      (canonicalFrom_token true _ hcan)).2 hcan
    by_cases he : cf.EnableSidInHTTPHeader = true
    · rw [if_pos he, if_neg hne, if_neg (not_not.2 heq)]
    · rw [if_neg he]

theorem headerNamePanic_format (cf : ManagerConfig) (he : cf.EnableSidInHTTPHeader = true)
    (hne : cf.SessionNameInHTTPHeader ≠ "")
    (ht : cf.SessionNameInHTTPHeader.data.all isToken = true)
    (hcan : CanonicalForm cf.SessionNameInHTTPHeader = false) :
    headerNamePanic cf = some ("SessionNameInHTTPHeader (" ++ cf.SessionNameInHTTPHeader ++
      ") has the wrong format, it should be like this : " ++
      CanonicalMIMEHeaderKey cf.SessionNameInHTTPHeader) := by
  have hneq : cf.SessionNameInHTTPHeader ≠ CanonicalMIMEHeaderKey cf.SessionNameInHTTPHeader := by
    intro heq
    rw [(CanonicalMIMEHeaderKey_eq_iff _ ht).1 heq] at hcan
    cases hcan
  unfold headerNamePanic
  rw [if_pos he, if_neg hne, if_pos hneq]

/-- A non-empty name with a byte that is no token character passes the check:
`CanonicalMIMEHeaderKey` returns it unchanged. -/
theorem headerNamePanic_invalid (cf : ManagerConfig)
    (hne : cf.SessionNameInHTTPHeader ≠ "")
    (ht : cf.SessionNameInHTTPHeader.data.all isToken = false) :
    headerNamePanic cf = none := by
  unfold headerNamePanic
  by_cases he : cf.EnableSidInHTTPHeader = true
  · rw [if_pos he, if_neg hne, CanonicalMIMEHeaderKey_invalid _ ht, if_neg (not_not.2 rfl)]
  · rw [if_neg he]

/-- When the header-name check passes, `NewManager` is the construction with
header transport off, apart from the switch in the stored configuration. -/
theorem NewManager_header_off {σ : Type} (P : Provider σ) (newProvider : ProviderKind → σ)
    (name : String) (cf : ManagerConfig) (hpass : headerNamePanic cf = none) :
    NewManager P newProvider name cf =
      withHeaderSwitch cf.EnableSidInHTTPHeader
        (NewManager P newProvider name { cf with EnableSidInHTTPHeader := false }) := by
  obtain ⟨cn, esc, gclt, mlt, dho, sec, clt, pc, pcm, dom, sidlen, esh, snh, esq, pre⟩ := cf
  unfold headerNamePanic at hpass
  simp only at hpass
  unfold NewManager
  by_cases hm : mlt = 0 <;> by_cases hn : sidlen = 0 <;>
    simp only [hm, hn, if_true, if_false, headerNamePanic, hpass, Bool.false_eq_true] <;>
    cases GetProvider name <;> simp only [] <;>
    (repeat' split) <;> rfl

/-- C20 at a failing input.  With header transport enabled and no header name,
`NewManager` for the memory provider panics: it returns neither an error nor a
Manager to its caller.  With the header name `x sid`, which is not in canonical
MIME header form, `NewManager` returns a Manager. -/
theorem empty_header_name_panics :
    NewManager (memoryProvider 0) (fun _ => NewProvider) "memory" namelessHeaderConfig
      = .panics "SessionNameInHTTPHeader is empty" ∧
    (NewManager (memoryProvider 0) (fun _ => NewProvider) "memory"
      namelessHeaderConfig).returned = none ∧
    CanonicalForm spacedHeaderConfig.SessionNameInHTTPHeader = false ∧
    (NewManager (memoryProvider 0) (fun _ => NewProvider) "memory"
      spacedHeaderConfig).returned.map (fun res => res.toOption.isSome) = some true := by
  refine ⟨by decide, by decide, by decide, by decide⟩

/-- C20, amended.  With `EnableSidInHTTPHeader` set, `NewManager` panics with an
error value, before it looks the provider up, when `SessionNameInHTTPHeader` is
empty, and when it consists of token characters and is not in canonical MIME
header form.  With header transport off, or with a non-empty header name in
canonical form, the header name causes no failure: the check passes and
`NewManager` is the construction with header transport off, apart from the switch
in the stored configuration. -/
theorem header_name_check {σ : Type} (P : Provider σ) (newProvider : ProviderKind → σ)
    (name : String) (cf : ManagerConfig) :
    (cf.EnableSidInHTTPHeader = true → cf.SessionNameInHTTPHeader = "" →
      NewManager P newProvider name cf = .panics "SessionNameInHTTPHeader is empty") ∧
    (cf.EnableSidInHTTPHeader = true → cf.SessionNameInHTTPHeader ≠ "" →
      cf.SessionNameInHTTPHeader.data.all isToken = true →
      CanonicalForm cf.SessionNameInHTTPHeader = false →
      NewManager P newProvider name cf =
        .panics ("SessionNameInHTTPHeader (" ++ cf.SessionNameInHTTPHeader ++
          ") has the wrong format, it should be like this : " ++
          CanonicalMIMEHeaderKey cf.SessionNameInHTTPHeader)) ∧
    ((cf.EnableSidInHTTPHeader = false ∨
        (cf.SessionNameInHTTPHeader ≠ "" ∧ CanonicalForm cf.SessionNameInHTTPHeader = true)) →
      headerNamePanic cf = none ∧
      NewManager P newProvider name cf =
        withHeaderSwitch cf.EnableSidInHTTPHeader
          (NewManager P newProvider name { cf with EnableSidInHTTPHeader := false })) := by
  refine ⟨?_, ?_, ?_⟩
  · intro he hempty
    exact NewManager_panics P newProvider name cf
      (by unfold headerNamePanic; rw [if_pos he, if_pos hempty])
  · intro he hne ht hcan
    exact NewManager_panics P newProvider name cf (headerNamePanic_format cf he hne ht hcan)
  · intro h
    exact ⟨headerNamePanic_pass cf h,
      NewManager_header_off P newProvider name cf (headerNamePanic_pass cf h)⟩

theorem header_name_check_witness :
    (namelessHeaderConfig.EnableSidInHTTPHeader = true ∧
      namelessHeaderConfig.SessionNameInHTTPHeader = "" ∧
      NewManager (memoryProvider 0) (fun _ => NewProvider) "memory" namelessHeaderConfig
        = .panics "SessionNameInHTTPHeader is empty") ∧
    (lowerHeaderConfig.SessionNameInHTTPHeader.data.all isToken = true ∧
      CanonicalForm lowerHeaderConfig.SessionNameInHTTPHeader = false ∧
      NewManager (memoryProvider 0) (fun _ => NewProvider) "memory" lowerHeaderConfig
        = .panics ("SessionNameInHTTPHeader (" ++ lowerHeaderConfig.SessionNameInHTTPHeader ++
          ") has the wrong format, it should be like this : " ++
          CanonicalMIMEHeaderKey lowerHeaderConfig.SessionNameInHTTPHeader)) ∧
    (CanonicalForm headerConfig.SessionNameInHTTPHeader = true ∧
      headerNamePanic headerConfig = none) :=
  ⟨⟨by decide, by decide,
     (header_name_check (memoryProvider 0) (fun _ => NewProvider) "memory"
        namelessHeaderConfig).1 (by decide) (by decide)⟩,
   ⟨by decide, by decide,
     (header_name_check (memoryProvider 0) (fun _ => NewProvider) "memory"
        lowerHeaderConfig).2.1 (by decide) (by decide) (by decide) (by decide)⟩,
   ⟨by decide,
     ((header_name_check (memoryProvider 0) (fun _ => NewProvider) "memory"
        headerConfig).2.2 (Or.inr ⟨by decide, by decide⟩)).1⟩⟩

/-! ## NewManager: the defaults -/

theorem NewManager_lifetime (cf : ManagerConfig) :
    (if cf.Maxlifetime = 0 then { cf with Maxlifetime := cf.Gclifetime } else cf).Maxlifetime
      = effectiveLifetime cf := by
  unfold effectiveLifetime
  split <;> rfl

/-- C21.  Take a configuration that passes the header-name check and a known
backend name.  `NewManager` initialises the primary provider, and the secondary
one when `ProviderConfigMgr` is set, with the max lifetime `Gclifetime` when
`Maxlifetime` is zero and `Maxlifetime` otherwise; when these `SessionInit` calls
report no error it returns a Manager whose configuration has that max lifetime,
the id length 16 when `SessionIDLength` is zero and the configured one otherwise,
and every other field as given. -/
theorem manager_defaults {σ : Type} (P : Provider σ) (newProvider : ProviderKind → σ)
    (name : String) (cf : ManagerConfig) (kind : ProviderKind)
    (hhdr : headerNamePanic cf = none) (hkind : GetProvider name = .ok kind)
    (h1 : (P.SessionInit (newProvider kind) (effectiveLifetime cf) cf.ProviderConfig).2 = none)
    (h2 : cf.ProviderConfigMgr ≠ "" →
      (P.SessionInit
        (if singleton kind then
          (P.SessionInit (newProvider kind) (effectiveLifetime cf) cf.ProviderConfig).1
         else newProvider kind)
        (effectiveLifetime cf) cf.ProviderConfigMgr).2 = none) :
    ∃ m, NewManager P newProvider name cf = .ret (.ok m) ∧
      m.config = { cf with Maxlifetime := effectiveLifetime cf,
                           SessionIDLength := effectiveIDLength cf } ∧
      (cf.ProviderConfigMgr = "" →
        m.provider = (P.SessionInit (newProvider kind) (effectiveLifetime cf)
          cf.ProviderConfig).1 ∧ m.providerMgr = .null) ∧
      (cf.ProviderConfigMgr ≠ "" → singleton kind = false →
        m.provider = (P.SessionInit (newProvider kind) (effectiveLifetime cf)
          cf.ProviderConfig).1 ∧
        m.providerMgr = .own (P.SessionInit (newProvider kind) (effectiveLifetime cf)
          cf.ProviderConfigMgr).1) ∧
      (cf.ProviderConfigMgr ≠ "" → singleton kind = true →
        m.provider = (P.SessionInit
          (P.SessionInit (newProvider kind) (effectiveLifetime cf) cf.ProviderConfig).1
          (effectiveLifetime cf) cf.ProviderConfigMgr).1 ∧
        m.providerMgr = .same) := by
  have hcfg : (if (if cf.Maxlifetime = 0 then { cf with Maxlifetime := cf.Gclifetime }
        else cf).SessionIDLength = 0
      then { (if cf.Maxlifetime = 0 then { cf with Maxlifetime := cf.Gclifetime } else cf) with
        SessionIDLength := 16 }
      else (if cf.Maxlifetime = 0 then { cf with Maxlifetime := cf.Gclifetime } else cf))
      = { cf with Maxlifetime := effectiveLifetime cf,
                  SessionIDLength := effectiveIDLength cf } := by
    unfold effectiveLifetime effectiveIDLength
    by_cases hm : cf.Maxlifetime = 0 <;> by_cases hn : cf.SessionIDLength = 0 <;>
      simp [hm, hn]
  unfold NewManager
  simp only [headerNamePanic_lifetime, hhdr, hkind, hcfg, h1]
  by_cases hmgr : cf.ProviderConfigMgr = ""
  · simp [hmgr]
  · cases hs : singleton kind
    · have h2' := h2 hmgr
      simp only [hs, Bool.false_eq_true, if_false] at h2'
      simp [hmgr, h2']
    · have h2' := h2 hmgr
      simp only [hs, if_true] at h2'
      simp [hmgr, h2']

theorem manager_defaults_witness :
    (headerNamePanic zeroConfig = none ∧ GetProvider "memory" = .ok .memory ∧
      effectiveLifetime zeroConfig = 60 ∧ effectiveIDLength zeroConfig = 16) ∧
    ∃ m, NewManager (memoryProvider 0) (fun _ => NewProvider) "memory" zeroConfig
        = .ret (.ok m) ∧
      m.config = { zeroConfig with Maxlifetime := effectiveLifetime zeroConfig,
                                   SessionIDLength := effectiveIDLength zeroConfig } ∧
      m.provider = (Memory.SessionInit NewProvider 60 "").1 :=
  ⟨⟨by decide, by decide, by decide, by decide⟩,
    (manager_defaults (memoryProvider 0) (fun _ => NewProvider) "memory" zeroConfig .memory
      (by decide) (by decide) rfl (fun _ => rfl)).imp
      fun _ h => ⟨h.1, h.2.1, (h.2.2.1 (by decide)).1⟩⟩

end Session

namespace Memory

/-! ## The recency order under a clock that never runs backwards -/

theorem Timely_mono {t u : Int} {pdr : ProviderMem} (htu : t ≤ u) (h : Timely t pdr) :
    Timely u pdr :=
  fun e r he hr => le_trans (h e r he hr) htu

theorem Timely_NewProvider (t : Int) : Timely t NewProvider :=
  fun e _ he _ => by cases he

theorem Ordered_NewProvider : Ordered NewProvider := List.Pairwise.nil

/-- Pushing a record stamped `now` at the front keeps the order when no record
was accessed after `now`. -/
theorem Ordered_push {pdr : ProviderMem} {now : Int} (sid : String) (v : SessionStoreMem)
    (hwf : WF pdr) (ho : Ordered pdr) (ht : Timely now pdr) (hv : v.timeAccessed = now) :
    Ordered { pdr with heap := pdr.heap ++ [v], list := pdr.heap.length :: pdr.list,
                       sessions := mset pdr.sessions sid pdr.heap.length } ∧
    Timely now { pdr with heap := pdr.heap ++ [v], list := pdr.heap.length :: pdr.list,
                          sessions := mset pdr.sessions sid pdr.heap.length } := by
  have hnew : (pdr.heap ++ [v])[pdr.heap.length]? = some v := by simp
  constructor
  · rw [Ordered_iff] at ho ⊢
    simp only
    refine List.pairwise_cons.2 ⟨?_, ?_⟩
    · intro b hb ra rb hra hrb
      rw [hnew] at hra
      rw [List.getElem?_append_left (hwf.2.1 b hb)] at hrb
      cases hra
      rw [hv]
      exact ht b rb hb hrb
    · refine ho.imp_of_mem ?_
      intro a b ha hb hab ra rb hra hrb
      rw [List.getElem?_append_left (hwf.2.1 a ha)] at hra
      rw [List.getElem?_append_left (hwf.2.1 b hb)] at hrb
      exact hab ra rb hra hrb
  · intro e r he hr
    simp only at he hr
    rcases List.mem_cons.1 he with h1 | h1
    · rw [h1, hnew] at hr
      cases hr
      exact le_of_eq hv
    · rw [List.getElem?_append_left (hwf.2.1 e h1)] at hr
      exact ht e r h1 hr

/-- A touch at `now` keeps the order when no record was accessed after `now`. -/
theorem Ordered_SessionUpdate {pdr : ProviderMem} {now : Int} (sid : String)
    (hwf : WF pdr) (ho : Ordered pdr) (ht : Timely now pdr) :
    Ordered (SessionUpdate pdr sid now) ∧ Timely now (SessionUpdate pdr sid now) := by
  cases hm : mget pdr.sessions sid with
  | none => rw [SessionUpdate_of_absent now hm]; exact ⟨ho, ht⟩
  | some e =>
    rw [SessionUpdate_of_resident now hm]
    obtain ⟨hmem, r, hr, -⟩ := hwf.2.2 sid e hm
    have hlist : MoveToFront pdr.list e = e :: pdr.list.erase e := by
      unfold MoveToFront; rw [if_pos hmem]
    have hne : ∀ b, b ∈ pdr.list.erase e → b ≠ e :=
      fun b hb heq => ((List.Nodup.mem_erase_iff hwf.1).1 hb).1 heq
    have hother : ∀ b, b ≠ e →
        (pdr.heap.modify (fun r => { r with timeAccessed := now }) e)[b]? = pdr.heap[b]? := by
      intro b hb
      rw [List.getElem?_modify]
      cases pdr.heap[b]? <;> simp [Ne.symm hb]
    have hself : (pdr.heap.modify (fun r => { r with timeAccessed := now }) e)[e]?
        = some { r with timeAccessed := now } := by
      rw [List.getElem?_modify, hr]; simp
    constructor
    · rw [Ordered_iff] at ho ⊢
      simp only [hlist]
      refine List.pairwise_cons.2 ⟨?_, ?_⟩
      · intro b hb ra rb hra hrb
        rw [hself] at hra
        rw [hother b (hne b hb)] at hrb
        cases hra
        exact ht b rb (List.mem_of_mem_erase hb) hrb
      · refine (ho.sublist (List.erase_sublist _ _)).imp_of_mem ?_
        intro a b ha hb hab ra rb hra hrb
        rw [hother a (hne a ha)] at hra
        rw [hother b (hne b hb)] at hrb
        exact hab ra rb hra hrb
    · intro b rb hb hrb
      simp only [hlist] at hb hrb
      rcases List.mem_cons.1 hb with h1 | h1
      · rw [h1, hself] at hrb
        cases hrb
        exact le_refl _
      · rw [hother b (hne b h1)] at hrb
        exact ht b rb (List.mem_of_mem_erase h1) hrb

/-- Relabelling a record changes no access time. -/
theorem Ordered_relabel {pdr : ProviderMem} {t : Int} (e : Nat) (sid : String)
    (sessions : List (String × Nat)) (ho : Ordered pdr) (ht : Timely t pdr) :
    Ordered { pdr with heap := pdr.heap.modify (fun r => { r with sid := sid }) e,
                       sessions := sessions } ∧
    Timely t { pdr with heap := pdr.heap.modify (fun r => { r with sid := sid }) e,
                        sessions := sessions } := by
  have hlook : ∀ (b : Nat) (rb : SessionStoreMem),
      (pdr.heap.modify (fun r => { r with sid := sid }) e)[b]? = some rb →
      ∃ rb', pdr.heap[b]? = some rb' ∧ rb'.timeAccessed = rb.timeAccessed := by
    intro b rb hrb
    rw [List.getElem?_modify] at hrb
    cases hb : pdr.heap[b]? with
    | none => rw [hb] at hrb; cases hrb
    | some rb' =>
      rw [hb] at hrb
      simp only [Option.map_eq_map, Option.map_some', Option.some.injEq] at hrb
      refine ⟨rb', rfl, ?_⟩
      rw [← hrb]
      split <;> rfl
  constructor
  · rw [Ordered_iff] at ho ⊢
    simp only
    refine ho.imp ?_
    intro a b hab ra rb hra hrb
    obtain ⟨ra', hra', hta⟩ := hlook a ra hra
    obtain ⟨rb', hrb', htb⟩ := hlook b rb hrb
    rw [← hta, ← htb]
    exact hab ra' rb' hra' hrb'
  · intro b rb hb hrb
    obtain ⟨rb', hrb', htb⟩ := hlook b rb hrb
    rw [← htb]
    exact ht b rb' hb hrb'

theorem Timely_unlink {pdr : ProviderMem} {t : Int} (e : Nat) (sid : String)
    (ht : Timely t pdr) :
    Timely t { pdr with list := Remove pdr.list e, sessions := mdel pdr.sessions sid } :=
  fun x r hx hr => ht x r (List.mem_of_mem_erase hx) hr

theorem Ordered_gcLoop {pdr : ProviderMem} {t : Int} (fuel : Nat) (now : Int)
    (ho : Ordered pdr) (ht : Timely t pdr) :
    Ordered (gcLoop fuel now pdr) ∧ Timely t (gcLoop fuel now pdr) := by
  induction fuel generalizing pdr with
  | zero => exact ⟨ho, ht⟩
  | succ fuel ih =>
    unfold gcLoop
    cases hb : Back pdr.list with
    | none => exact ⟨ho, ht⟩
    | some e =>
      simp only
      cases hr : pdr.heap[e]? with
      | none => exact ⟨ho, ht⟩
      | some r =>
        simp only
        by_cases hx : expired pdr.lifetime now r = true
        · rw [if_pos hx]
          exact ih (Ordered_unlink e r.sid ho) (Timely_unlink e r.sid ht)
        · rw [if_neg hx]
          exact ⟨ho, ht⟩

/-- One call keeps the order: when no record was accessed after `t` and the call
reads a clock that is not before `t`, the list is ordered afterwards and no
record was accessed after the reading (after `t` for a call that reads no
clock). -/
theorem Ordered_step {pdr : ProviderMem} {t : Int} (c : Call)
    (hwf : WF pdr) (ho : Ordered pdr) (ht : Timely t pdr)
    (hc : ∀ now, c.clock = some now → t ≤ now) :
    Ordered (step pdr c) ∧ Timely (c.clock.getD t) (step pdr c) := by
  cases c with
  | new sid now =>
    have htn : t ≤ now := hc now rfl
    simp only [step, Call.clock, Option.getD_some]
    cases hm : mget pdr.sessions sid with
    | some e => rw [SessionNew_of_resident now hm]; exact ⟨ho, Timely_mono htn ht⟩
    | none =>
      rw [SessionNew_of_absent now hm]
      exact Ordered_push sid _ hwf ho (Timely_mono htn ht) rfl
  | read sid =>
    simp only [step, SessionRead_st, Call.clock, Option.getD_none]
    exact ⟨ho, ht⟩
  | update sid now =>
    have htn : t ≤ now := hc now rfl
    simp only [step, Call.clock, Option.getD_some]
    exact Ordered_SessionUpdate sid hwf ho (Timely_mono htn ht)
  | regenerate oldSid sid now =>
    have htn : t ≤ now := hc now rfl
    simp only [step, Call.clock, Option.getD_some]
    cases hm : mget pdr.sessions oldSid with
    | some e =>
      rw [SessionRegenerate_of_resident now hm]
      exact Ordered_relabel e sid _ ho (Timely_mono htn ht)
    | none =>
      rw [SessionRegenerate_of_absent now hm]
      exact Ordered_push sid _ hwf ho (Timely_mono htn ht) rfl
  | destroy sid =>
    simp only [step, Call.clock, Option.getD_none]
    cases hm : mget pdr.sessions sid with
    | some e =>
      rw [SessionDestroy_of_resident hm]
      exact ⟨Ordered_unlink e sid ho, Timely_unlink e sid ht⟩
    | none => rw [SessionDestroy_of_absent hm]; exact ⟨ho, ht⟩
  | gc now =>
    have htn : t ≤ now := hc now rfl
    simp only [step, Call.clock, Option.getD_some]
    exact Ordered_gcLoop pdr.list.length now ho (Timely_mono htn ht)

theorem Ordered_run {pdr : ProviderMem} {t : Int} (cs : List Call)
    (hwf : WF pdr) (ho : Ordered pdr) (ht : Timely t pdr)
    (hc : clockAscends t cs = true) :
    Ordered (run pdr cs) ∧ ∃ u, Timely u (run pdr cs) := by
  induction cs generalizing pdr t with
  | nil => exact ⟨ho, t, ht⟩
  | cons c cs ih =>
    have hstep : run pdr (c :: cs) = run (step pdr c) cs := rfl
    rw [hstep]
    cases hk : c.clock with
    | none =>
      have hs := Ordered_step c hwf ho ht (fun now h => by rw [hk] at h; cases h)
      rw [hk] at hs
      simp only [clockAscends, hk] at hc
      exact ih (WF_step c hwf) hs.1 hs.2 hc
    | some now =>
      simp only [clockAscends, hk, Bool.and_eq_true, decide_eq_true_eq] at hc
      have hs := Ordered_step c hwf ho ht
        (fun n h => by rw [hk] at h; cases h; exact hc.1)
      rw [hk] at hs
      exact ih (WF_step c hwf) hs.1 hs.2 hc.2

theorem WF_SessionInit {pdr : ProviderMem} (lifetime : Int) (savePath : String)
    (h : WF pdr) : WF (SessionInit pdr lifetime savePath).1 := h

theorem MoveToFront_of_mem {l : List Nat} {e : Nat} (hnd : l.Nodup) (he : e ∈ l) :
    MoveToFront l e = e :: l.filter (fun x => x != e) := by
  unfold MoveToFront
  rw [if_pos he, List.Nodup.erase_eq_filter hnd]

/-- What a touch of a resident id does: the node goes to the head, the other
nodes keep their order, the record gets the access time `now`, and nothing else
changes. -/
theorem SessionUpdate_touch {pdr : ProviderMem} {sid : String} {e : Nat} (now : Int)
    (hwf : WF pdr) (h : mget pdr.sessions sid = some e) :
    (SessionUpdate pdr sid now).list = e :: pdr.list.filter (fun x => x != e) ∧
    (∃ r, deref pdr e = some r ∧
      deref (SessionUpdate pdr sid now) e = some { r with timeAccessed := now }) ∧
    (∀ x, x ≠ e → deref (SessionUpdate pdr sid now) x = deref pdr x) ∧
    (SessionUpdate pdr sid now).sessions = pdr.sessions := by
  obtain ⟨hmem, r, hr, -⟩ := hwf.2.2 sid e h
  rw [SessionUpdate_of_resident now h]
  refine ⟨MoveToFront_of_mem hwf.1 hmem, ⟨r, hr, ?_⟩, ?_, rfl⟩
  · simp only [deref]
    rw [List.getElem?_modify, hr]; simp
  · intro x hx
    simp only [deref]
    rw [List.getElem?_modify]
    cases pdr.heap[x]? <;> simp [Ne.symm hx]

/-- C27.  Start from a fresh provider after `SessionInit` and run any sequence of
`SessionNew`, `SessionRead`, `SessionUpdate`, `SessionRegenerate`,
`SessionDestroy` and `SessionGC` calls whose clock readings never decrease.
Afterwards the recency list is ordered by `timeAccessed`, most recent at the
head: the access time of every node is at least that of every node behind it.
A touch of a resident id then sets the access time of its record to `now` and
moves its node to the head; the other nodes keep their order and their records,
and the index is unchanged. -/
theorem recency_order (lifetime : Int) (savePath : String) (t : Int) (cs : List Call)
    (hc : clockAscends t cs = true) :
    Ordered (run (SessionInit NewProvider lifetime savePath).1 cs) ∧
    ∀ sid e now,
      mget (run (SessionInit NewProvider lifetime savePath).1 cs).sessions sid = some e →
      (SessionUpdate (run (SessionInit NewProvider lifetime savePath).1 cs) sid now).list
        = e :: (run (SessionInit NewProvider lifetime savePath).1 cs).list.filter
            (fun x => x != e) ∧
      (∃ r, deref (run (SessionInit NewProvider lifetime savePath).1 cs) e = some r ∧
        deref (SessionUpdate (run (SessionInit NewProvider lifetime savePath).1 cs) sid now) e
          = some { r with timeAccessed := now }) ∧
      (∀ x, x ≠ e →
        deref (SessionUpdate (run (SessionInit NewProvider lifetime savePath).1 cs) sid now) x
          = deref (run (SessionInit NewProvider lifetime savePath).1 cs) x) ∧
      (SessionUpdate (run (SessionInit NewProvider lifetime savePath).1 cs) sid now).sessions
        = (run (SessionInit NewProvider lifetime savePath).1 cs).sessions := by
  have hwf : WF (SessionInit NewProvider lifetime savePath).1 :=
    WF_SessionInit lifetime savePath WF_NewProvider
  refine ⟨(Ordered_run cs hwf Ordered_NewProvider (Timely_NewProvider t) hc).1, ?_⟩
  intro sid e now h
  exact SessionUpdate_touch now (WF_run cs hwf) h

theorem recency_order_witness :
    clockAscends 0 [.new "A" 1, .new "B" 2, .update "A" 3, .regenerate "B" "C" 3,
      .read "A", .new "D" 4, .gc 5, .destroy "D"] = true ∧
    Ordered (run (SessionInit NewProvider 10 "").1
      [.new "A" 1, .new "B" 2, .update "A" 3, .regenerate "B" "C" 3,
        .read "A", .new "D" 4, .gc 5, .destroy "D"]) :=
  ⟨by decide,
    (recency_order 10 "" 0 [.new "A" 1, .new "B" 2, .update "A" 3, .regenerate "B" "C" 3,
      .read "A", .new "D" 4, .gc 5, .destroy "D"] (by decide)).1⟩

/-! ## SessionGC between its two lock regions -/

/-- One iteration of the loop of `SessionGC` is the test under the read lock
followed by the removal under the write lock. -/
theorem gcLoop_succ (fuel : Nat) (now : Int) (pdr : ProviderMem) :
    gcLoop (fuel + 1) now pdr =
      match gcCheck pdr now with
      | none => pdr
      | some element => gcLoop fuel now (gcEvict pdr element) := by
  rw [gcLoop]
  unfold gcCheck gcEvict
  cases Back pdr.list with
  | none => rfl
  | some e =>
    simp only
    cases hr : pdr.heap[e]? with
    | none => rfl
    | some r =>
      simp only
      by_cases hx : expired pdr.lifetime now r = true
      · simp only [hx, if_true, hr]
      · simp only [hx, Bool.false_eq_true, if_false]

/-- The removal does not test again: whatever the record of the element says by
then, the element leaves the list and the id of its record leaves the index. -/
theorem gcEvict_of_record {pdr : ProviderMem} {element : Nat} {r : SessionStoreMem}
    (hr : pdr.heap[element]? = some r) :
    (gcEvict pdr element).list = Remove pdr.list element ∧
    (gcEvict pdr element).sessions = mdel pdr.sessions r.sid := by
  unfold gcEvict
  rw [hr]
  exact ⟨rfl, rfl⟩

/-- C26 at a failing run.  The provider has lifetime 10 s and holds `A`, accessed
at 1 s, behind `B`, accessed at 2 s.  At 12 s the collector finds the record of
`A` expired and gives up the read lock.  A touch of `A` takes the write lock
first: the record is accessed at 12 s and not expired any more.  The collector
then takes the write lock and removes it all the same.  In a second run `A` is
destroyed and created anew between the test and the removal: the collector
removes the index entry of the new record, which it never tested, and leaves its
node in the list.  Run without interruption, `SessionGC` after the touch keeps
`A`. -/
theorem gc_evicts_bumped_record :
    gcCheck twoSessions 12000000000 = some 0 ∧
    (Race.run { pdr := twoSessions, pending := none }
      [.check 12000000000, .call (.update "A" 12000000000)]).pending = some 0 ∧
    expiredAt (Race.run { pdr := twoSessions, pending := none }
      [.check 12000000000, .call (.update "A" 12000000000)]).pdr 12000000000 0 = false ∧
    SessionExist (Race.run { pdr := twoSessions, pending := none }
      [.check 12000000000, .call (.update "A" 12000000000)]).pdr "A" = true ∧
    SessionExist (Race.run { pdr := twoSessions, pending := none }
      [.check 12000000000, .call (.update "A" 12000000000), .evict]).pdr "A" = false ∧
    (Race.run { pdr := twoSessions, pending := none }
      [.check 12000000000, .call (.update "A" 12000000000), .evict]).pdr.list = [1] ∧
    SessionExist (SessionGC (SessionUpdate twoSessions "A" 12000000000) 12000000000) "A"
      = true ∧
    (Race.run { pdr := twoSessions, pending := none }
      [.check 12000000000, .call (.destroy "A"), .call (.new "A" 12000000000),
        .evict]).pdr.list = [2, 1] ∧
    (Race.run { pdr := twoSessions, pending := none }
      [.check 12000000000, .call (.destroy "A"), .call (.new "A" 12000000000),
        .evict]).pdr.sessions = [("B", 1)] ∧
    deref (Race.run { pdr := twoSessions, pending := none }
      [.check 12000000000, .call (.destroy "A"), .call (.new "A" 12000000000),
        .evict]).pdr 2 = some { sid := "A", timeAccessed := 12000000000, values := [] } := by
  decide

/-! ## SessionRegenerate and the touch it starts -/

theorem SessionRegenerate_regions {pdr : ProviderMem} {oldSid : String} (sid : String)
    {e : Nat} (now : Int) (h : mget pdr.sessions oldSid = some e) :
    (SessionRegenerate pdr oldSid sid now).st = regenerateRelabel pdr e oldSid sid := by
  rw [SessionRegenerate_of_resident now h]
  rfl

/-- C28 at a failing run.  The provider holds `A`, accessed at 1 s, behind `B`,
accessed at 2 s.  `SessionRegenerate("A", "C")` finds the node of `A` under the
read lock and starts the touch of `A`; the touch runs at 3 s, before the write
lock is taken for the relabelling.  Afterwards the node is at the head of the
list and its record was accessed at 3 s.  The same happens when the touch runs
after `SessionRegenerate("A", "A")`. -/
theorem regenerate_moves_record :
    twoSessions.list = [1, 0] ∧
    deref twoSessions 0 = some { sid := "A", timeAccessed := 1000000000, values := [] } ∧
    regenerateLookup twoSessions "A" = some 0 ∧
    (SessionRegenerate twoSessions "A" "C" 3000000000).spawned = some "A" ∧
    (regenerateRelabel (SessionUpdate twoSessions "A" 3000000000) 0 "A" "C").list = [0, 1] ∧
    deref (regenerateRelabel (SessionUpdate twoSessions "A" 3000000000) 0 "A" "C") 0
      = some { sid := "C", timeAccessed := 3000000000, values := [] } ∧
    (SessionRegenerate twoSessions "A" "A" 3000000000).spawned = some "A" ∧
    (SessionUpdate (SessionRegenerate twoSessions "A" "A" 3000000000).st "A"
      3000000000).list = [0, 1] ∧
    deref (SessionUpdate (SessionRegenerate twoSessions "A" "A" 3000000000).st "A"
      3000000000) 0 = some { sid := "A", timeAccessed := 3000000000, values := [] } := by
  decide

/-- C28, amended.  Let `oldSid` be resident with node `e`.  The write-locked part
of `SessionRegenerate(oldSid, sid)` relabels in place: the list is unchanged, the
record of `e` keeps its access time and values and gets the id `sid`, every other
record is unchanged, and the index maps `sid` to `e`, does not hold `oldSid` any
more when it differs from `sid`, and is unchanged elsewhere.  The call also starts
a touch of `oldSid`.  When the touch runs after the relabelling and `sid` differs
from `oldSid` it changes nothing.  When it runs after the relabelling and `sid`
is `oldSid`, or before the relabelling, the node is moved to the head of the list
and its record gets the access time of the touch; values and the order of the
other nodes are kept. -/
theorem regenerate_relabels (pdr : ProviderMem) (oldSid sid : String) (e : Nat)
    (now t : Int) (hwf : WF pdr) (hres : mget pdr.sessions oldSid = some e) :
    regenerateLookup pdr oldSid = some e ∧
    (SessionRegenerate pdr oldSid sid now).st = regenerateRelabel pdr e oldSid sid ∧
    (SessionRegenerate pdr oldSid sid now).val = .ok e ∧
    (SessionRegenerate pdr oldSid sid now).spawned = some oldSid ∧
    (regenerateRelabel pdr e oldSid sid).list = pdr.list ∧
    (∃ r, deref pdr e = some r ∧
      deref (regenerateRelabel pdr e oldSid sid) e = some { r with sid := sid } ∧
      deref (regenerateRelabel (SessionUpdate pdr oldSid t) e oldSid sid) e
        = some { r with sid := sid, timeAccessed := t } ∧
      (oldSid = sid → deref (SessionUpdate (regenerateRelabel pdr e oldSid sid) oldSid t) e
        = some { r with sid := sid, timeAccessed := t })) ∧
    (∀ x, x ≠ e → deref (regenerateRelabel pdr e oldSid sid) x = deref pdr x) ∧
    (∀ k, mget (regenerateRelabel pdr e oldSid sid).sessions k =
      if k = sid then some e else if k = oldSid then none else mget pdr.sessions k) ∧
    (oldSid ≠ sid →
      SessionUpdate (regenerateRelabel pdr e oldSid sid) oldSid t
        = regenerateRelabel pdr e oldSid sid) ∧
    (oldSid = sid →
      (SessionUpdate (regenerateRelabel pdr e oldSid sid) oldSid t).list
        = e :: pdr.list.filter (fun x => x != e)) ∧
    (regenerateRelabel (SessionUpdate pdr oldSid t) e oldSid sid).list
      = e :: pdr.list.filter (fun x => x != e) := by
  obtain ⟨hmem, r, hr, -⟩ := hwf.2.2 oldSid e hres
  have hst := SessionRegenerate_regions sid now hres
  have hindex : ∀ k, mget (regenerateRelabel pdr e oldSid sid).sessions k =
      if k = sid then some e else if k = oldSid then none else mget pdr.sessions k := by
    intro k
    rw [← hst]
    exact SessionRegenerate_index sid now hres k
  have hrelabel : deref (regenerateRelabel pdr e oldSid sid) e = some { r with sid := sid } := by
    simp only [deref, regenerateRelabel]
    rw [List.getElem?_modify, hr]; simp
  refine ⟨hres, hst, ?_, ?_, rfl, ⟨r, hr, hrelabel, ?_, ?_⟩, ?_, hindex, ?_, ?_, ?_⟩
  · rw [SessionRegenerate_of_resident now hres]
  · rw [SessionRegenerate_of_resident now hres]
  · rw [SessionUpdate_of_resident t hres]
    simp only [deref, regenerateRelabel]
    rw [List.getElem?_modify, List.getElem?_modify, hr]; simp
  · intro heq
    have hidx : mget (regenerateRelabel pdr e oldSid sid).sessions oldSid = some e := by
      rw [hindex, if_pos heq]
    rw [SessionUpdate_of_resident t hidx]
    simp only [deref, regenerateRelabel]
    rw [List.getElem?_modify, List.getElem?_modify, hr]; simp
  · intro x hx
    simp only [deref, regenerateRelabel]
    rw [List.getElem?_modify]
    cases pdr.heap[x]? <;> simp [Ne.symm hx]
  · intro hne
    have hidx : mget (regenerateRelabel pdr e oldSid sid).sessions oldSid = none := by
      rw [hindex, if_neg hne, if_pos rfl]
    exact SessionUpdate_of_absent t hidx
  · intro heq
    have hidx : mget (regenerateRelabel pdr e oldSid sid).sessions oldSid = some e := by
      rw [hindex, if_pos heq]
    rw [SessionUpdate_of_resident t hidx]
    exact MoveToFront_of_mem hwf.1 hmem
  · rw [SessionUpdate_of_resident t hres]
    exact MoveToFront_of_mem hwf.1 hmem

theorem regenerate_relabels_witness :
    (WF twoSessions ∧ mget twoSessions.sessions "A" = some 0) ∧
    (regenerateRelabel twoSessions 0 "A" "C").list = twoSessions.list ∧
    SessionUpdate (regenerateRelabel twoSessions 0 "A" "C") "A" 3000000000
      = regenerateRelabel twoSessions 0 "A" "C" :=
  ⟨⟨WF_run _ (WF_SessionInit 10 "" WF_NewProvider), by decide⟩,
    (regenerate_relabels twoSessions "A" "C" 0 3000000000 3000000000
      (WF_run _ (WF_SessionInit 10 "" WF_NewProvider)) (by decide)).2.2.2.2.1,
    (regenerate_relabels twoSessions "A" "C" 0 3000000000 3000000000
      (WF_run _ (WF_SessionInit 10 "" WF_NewProvider)) (by decide)).2.2.2.2.2.2.2.2.1
      (by decide)⟩

end Memory

namespace Strings

/-! ## strings.Split -/

theorem splitChars_ne_nil (sep : Char) (cs : List Char) : splitChars sep cs ≠ [] := by
  cases cs with
  | nil => simp [splitChars]
  | cons c cs =>
    unfold splitChars
    split
    · simp
    · split <;> simp

/-- Joining the fields with the separator gives the string back. -/
theorem splitChars_join (sep : Char) (cs : List Char) :
    List.intercalate [sep] (splitChars sep cs) = cs := by
  induction cs with
  | nil => rfl
  | cons c cs ih =>
    unfold splitChars
    cases hs : splitChars sep cs with
    | nil => exact absurd hs (splitChars_ne_nil sep cs)
    | cons f fs =>
      rw [hs] at ih
      by_cases hc : c = sep
      · rw [if_pos hc]
        simp only [List.intercalate, List.intersperse, List.flatten] at ih ⊢
        rw [hc]
        simpa using ih
      · rw [if_neg hc]
        simp only
        cases fs with
        | nil =>
          simp only [List.intercalate, List.intersperse, List.flatten, List.append_nil] at ih ⊢
          rw [ih]
        | cons g gs =>
          simp only [List.intercalate, List.intersperse, List.flatten, List.cons_append] at ih ⊢
          rw [ih]

/-- No field contains the separator. -/
theorem splitChars_no_sep (sep : Char) (cs : List Char) :
    ∀ f, f ∈ splitChars sep cs → sep ∉ f := by
  induction cs with
  | nil =>
    intro f hf
    simp only [splitChars, List.mem_singleton] at hf
    rw [hf]
    exact List.not_mem_nil _
  | cons c cs ih =>
    intro f hf
    unfold splitChars at hf
    by_cases hc : c = sep
    · rw [if_pos hc] at hf
      rcases List.mem_cons.1 hf with h | h
      · rw [h]; exact List.not_mem_nil _
      · exact ih f h
    · rw [if_neg hc] at hf
      cases hs : splitChars sep cs with
      | nil => exact absurd hs (splitChars_ne_nil sep cs)
      | cons g gs =>
        rw [hs] at hf ih
        simp only at hf
        rcases List.mem_cons.1 hf with h | h
        · rw [h]
          intro hmem
          rcases List.mem_cons.1 hmem with h1 | h1
          · exact hc h1.symm
          · exact ih g (List.mem_cons_self _ _) h1
        · exact ih f (List.mem_cons_of_mem _ h)

/-- The result of `strings.Split` has a first field. -/
theorem Split_head (s : String) (sep : Char) : ∃ f, (Split s sep)[0]? = some f := by
  unfold Split
  cases hs : splitChars sep s.data with
  | nil => exact absurd hs (splitChars_ne_nil sep s.data)
  | cons f fs => exact ⟨String.mk f, by simp⟩

end Strings

namespace Redis

open Memory (GoValue GoError mget mset mdel wrapInt64)
open Session (Outcome)

/-! ## ProviderRedis.SessionInit: the configuration string -/

theorem initPoolSize_eq (savePath : String) :
    initPoolSize (Strings.Split savePath ',') = (nonNegative (field savePath 1)).getD 100 := by
  unfold initPoolSize nonNegative field MaxPoolSize
  cases (Strings.Split savePath ',')[1]? with
  | none => rfl
  | some text =>
    simp only
    cases Strconv.Atoi text with
    | none => rfl
    | some n =>
      simp only
      by_cases hn : n < 0
      · rw [if_pos hn, if_neg (by omega)]; rfl
      · rw [if_neg hn, if_pos (by omega)]; rfl

theorem initDbIndex_eq (savePath : String) :
    initDbIndex (Strings.Split savePath ',') = (nonNegative (field savePath 3)).getD 0 := by
  unfold initDbIndex nonNegative field
  cases (Strings.Split savePath ',')[3]? with
  | none => rfl
  | some text =>
    simp only
    cases Strconv.Atoi text with
    | none => rfl
    | some n =>
      simp only
      by_cases hn : n < 0
      · rw [if_pos hn, if_neg (by omega)]; rfl
      · rw [if_neg hn, if_pos (by omega)]; rfl

theorem initIdleTimeout_eq (savePath : String) :
    initIdleTimeout (Strings.Split savePath ',')
      = ((positive (field savePath 4)).map seconds).getD 0 := by
  unfold initIdleTimeout positive field seconds
  cases (Strings.Split savePath ',')[4]? with
  | none => rfl
  | some text =>
    simp only
    cases Strconv.Atoi text with
    | none => rfl
    | some n =>
      simp only
      by_cases hn : 0 < n
      · rw [if_pos hn, if_pos hn]; rfl
      · rw [if_neg hn, if_neg hn]; rfl

/-- Up to 9223372036 seconds the nanosecond count fits `int64`. -/
theorem seconds_exact {n : Int} (h0 : 0 ≤ n) (h1 : n ≤ 9223372036) :
    seconds n = n * 1000000000 := by
  unfold seconds
  exact Memory.wrapInt64_of_inRange (by omega) (by omega)

theorem wrapInt64_lt (x : Int) : wrapInt64 x < 9223372036854775808 := by
  unfold wrapInt64
  have h := Int.emod_lt_of_pos (x + 2 ^ 63) (show (0 : Int) < 2 ^ 64 by norm_num)
  norm_num at h ⊢
  omega

theorem positive_pos {f : Option String} {n : Int} (h : positive f = some n) : 0 < n := by
  unfold positive at h
  cases f with
  | none => cases h
  | some text =>
    simp only at h
    cases ha : Strconv.Atoi text with
    | none => rw [ha] at h; cases h
    | some k =>
      rw [ha] at h
      simp only at h
      by_cases hk : 0 < k
      · rw [if_pos hk] at h
        cases h
        exact hk
      · rw [if_neg hk] at h
        cases h

/-- C25 at a failing input.  The fifth field `9223372037` parses as a positive
integer; the idle timeout of the pool is -9223372036709551616 ns, the `int64`
product `time.Duration(9223372037) * time.Second` wrapped around, and not
9223372037 seconds. -/
theorem idle_timeout_wraps :
    positive (field "127.0.0.1:6379,100,astaxie,0,9223372037" 4) = some 9223372037 ∧
    (SessionInit emptyServer NewProvider 3600 "127.0.0.1:6379,100,astaxie,0,9223372037").1.pl
      = some { MaxIdle := 100, IdleTimeout := -9223372036709551616 } ∧
    (-9223372036709551616 : Int) ≠ 9223372037 * 1000000000 := by
  refine ⟨by decide, by decide, by decide⟩

/-- C25, amended.  `SessionInit` on a fresh provider, for every configuration
string cut into fields at its commas.  The server address is the first field,
which every string has.  The pool size, also the `MaxIdle` of the pool, is the
second field when it parses as a non-negative integer and 100 when it is omitted,
does not parse or is negative.  The password is the third field and empty when
omitted.  The database index is the fourth field when it parses as a non-negative
integer and 0 otherwise.  The idle timeout of the pool is 0 when the fifth field
is omitted, does not parse or is not positive, and the fifth field in seconds
when it parses as a positive integer of at most 9223372036; for a larger value it
is the `int64` product with `time.Second` wrapped around, which is not that many
seconds.  The lifetime is the one given and the error is that of the first
connection. -/
theorem config_parsing (srv : Server) (lifetime : Int) (savePath : String) :
    (∃ addr, field savePath 0 = some addr ∧
      (SessionInit srv NewProvider lifetime savePath).1.savePath = addr) ∧
    (SessionInit srv NewProvider lifetime savePath).1.poolSize
      = (nonNegative (field savePath 1)).getD 100 ∧
    (SessionInit srv NewProvider lifetime savePath).1.password
      = (field savePath 2).getD "" ∧
    (SessionInit srv NewProvider lifetime savePath).1.dbIndex
      = (nonNegative (field savePath 3)).getD 0 ∧
    (∃ pool, (SessionInit srv NewProvider lifetime savePath).1.pl = some pool ∧
      pool.MaxIdle = (nonNegative (field savePath 1)).getD 100 ∧
      (positive (field savePath 4) = none → pool.IdleTimeout = 0) ∧
      (∀ n, positive (field savePath 4) = some n → n ≤ 9223372036 →
        pool.IdleTimeout = n * 1000000000) ∧
      (∀ n, positive (field savePath 4) = some n → 9223372036 < n →
        pool.IdleTimeout = wrapInt64 (n * 1000000000) ∧
        pool.IdleTimeout ≠ n * 1000000000)) ∧
    (SessionInit srv NewProvider lifetime savePath).1.lifetime = lifetime ∧
    (SessionInit srv NewProvider lifetime savePath).2 = srv.down := by
  refine ⟨?_, ?_, ?_, ?_, ?_, rfl, rfl⟩
  · obtain ⟨addr, haddr⟩ := Strings.Split_head savePath ','
    refine ⟨addr, haddr, ?_⟩
    simp only [SessionInit, haddr]
  · simp only [SessionInit]
    exact initPoolSize_eq savePath
  · simp only [SessionInit, field, NewProvider]
    cases (Strings.Split savePath ',')[2]? <;> rfl
  · simp only [SessionInit]
    exact initDbIndex_eq savePath
  · refine ⟨{ MaxIdle := (nonNegative (field savePath 1)).getD 100,
              IdleTimeout := ((positive (field savePath 4)).map seconds).getD 0 }, ?_, rfl,
      ?_, ?_, ?_⟩
    · simp only [SessionInit]
      rw [initPoolSize_eq, initIdleTimeout_eq]
    · intro hnone
      simp only [hnone, Option.map_none', Option.getD_none]
    · intro n hn hle
      simp only [hn, Option.map_some', Option.getD_some]
      exact seconds_exact (le_of_lt (positive_pos hn)) hle
    · intro n hn hgt
      simp only [hn, Option.map_some', Option.getD_some]
      refine ⟨rfl, ?_⟩
      have hlt := wrapInt64_lt (n * 1000000000)
      unfold seconds
      omega

theorem config_parsing_witness :
    positive (field "127.0.0.1:6379,100,astaxie,0,30" 4) = some 30 ∧
    ∃ pool, (SessionInit emptyServer NewProvider 3600 "127.0.0.1:6379,100,astaxie,0,30").1.pl
        = some pool ∧ pool.MaxIdle = 100 ∧ pool.IdleTimeout = 30 * 1000000000 :=
  ⟨by decide,
    (config_parsing emptyServer 3600 "127.0.0.1:6379,100,astaxie,0,30").2.2.2.2.1.imp
      fun _ h => ⟨h.1, h.2.1.trans (by decide), h.2.2.2.1 30 (by decide) (by decide)⟩⟩

/-- The example of the doc comment of `SessionInit`, and a string with one
field. -/
theorem config_parsing_examples :
    (SessionInit emptyServer NewProvider 3600 "127.0.0.1:6379,100,astaxie,0,30").1
      = { lifetime := 3600, savePath := "127.0.0.1:6379", poolSize := 100,
          password := "astaxie", dbIndex := 0,
          pl := some { MaxIdle := 100, IdleTimeout := 30000000000 } } ∧
    (SessionInit emptyServer NewProvider 3600 "127.0.0.1:6379").1
      = { lifetime := 3600, savePath := "127.0.0.1:6379", poolSize := 100,
          password := "", dbIndex := 0,
          pl := some { MaxIdle := 100, IdleTimeout := 0 } } ∧
    (SessionInit emptyServer NewProvider 3600 "h,-1,,x,0").1
      = { lifetime := 3600, savePath := "h", poolSize := 100,
          password := "", dbIndex := 0,
          pl := some { MaxIdle := 100, IdleTimeout := 0 } } := by
  decide

/-! ## ProviderRedis: the lifetime override -/

theorem override_pl (pdr : ProviderRedis) (lifetime : Int) :
    (if lifetime ≠ 0 then { pdr with lifetime := lifetime } else pdr).pl = pdr.pl := by
  split <;> rfl

theorem override_lifetime (pdr : ProviderRedis) (lifetime : Int) :
    (if lifetime ≠ 0 then { pdr with lifetime := lifetime } else pdr).lifetime
      = if lifetime ≠ 0 then lifetime else pdr.lifetime := by
  split <;> rfl

theorem storeOf_lifetime (gob : Utils.Gob) (pdr : ProviderRedis) (sid kvs : String)
    (st : SessionStoreRedis) (h : (storeOf gob pdr sid kvs).1 = some st) :
    st.lifetime = pdr.lifetime ∧ st.sid = sid := by
  unfold storeOf at h
  split at h
  · simp only [Option.some.injEq] at h
    rw [← h]; exact ⟨rfl, rfl⟩
  · split at h
    · cases h
    · simp only [Option.some.injEq] at h
      rw [← h]; exact ⟨rfl, rfl⟩

/-- What `SessionNew` does with the override: a non-zero override replaces the
lifetime of the provider for good, and the store gets the lifetime the provider
has afterwards. -/
theorem SessionNew_lifetime (gob : Utils.Gob) (srv : Server) (pdr : ProviderRedis)
    (sid : String) (lifetime : Int) {pool : Pool} (hpl : pdr.pl = some pool) :
    ∃ res, SessionNew gob srv pdr sid lifetime = .ret res ∧
      res.2 = (if lifetime ≠ 0 then { pdr with lifetime := lifetime } else pdr) ∧
      ∀ st, res.1.1 = some st → st.lifetime = res.2.lifetime ∧ st.sid = sid := by
  have hpl1 := (override_pl pdr lifetime).trans hpl
  simp only [SessionNew]
  generalize (if lifetime ≠ 0 then { pdr with lifetime := lifetime } else pdr) = pdr1 at hpl1 ⊢
  simp only [hpl1]
  cases GET srv sid with
  | failed e => exact ⟨_, rfl, rfl, fun st h => by cases h⟩
  | absent => exact ⟨_, rfl, rfl, fun st h => storeOf_lifetime gob _ sid "" st h⟩
  | value kvs => exact ⟨_, rfl, rfl, fun st h => storeOf_lifetime gob _ sid kvs st h⟩

theorem SessionRead_returns (gob : Utils.Gob) (srv : Server) (pdr : ProviderRedis)
    (sid : String) {pool : Pool} (hpl : pdr.pl = some pool) :
    ∃ res, SessionRead gob srv pdr sid = .ret res := by
  unfold SessionRead
  simp only [hpl]
  cases GET srv sid <;> exact ⟨_, rfl⟩

/-- What `SessionRegenerate` does with the override: the same as `SessionNew`. -/
theorem SessionRegenerate_lifetime (gob : Utils.Gob) (srv : Server) (pdr : ProviderRedis)
    (oldSid sid : String) (lifetime : Int) {pool : Pool} (hpl : pdr.pl = some pool) :
    ∃ res, SessionRegenerate gob srv pdr oldSid sid lifetime = .ret res ∧
      res.2.1 = (if lifetime ≠ 0 then { pdr with lifetime := lifetime } else pdr) := by
  have hpl1 := (override_pl pdr lifetime).trans hpl
  simp only [SessionRegenerate]
  generalize (if lifetime ≠ 0 then { pdr with lifetime := lifetime } else pdr) = pdr1 at hpl1 ⊢
  simp only [hpl1]
  generalize (if EXISTS srv oldSid = 0 then SETEX srv sid pdr1.lifetime ""
    else EXPIRE (RENAME srv oldSid sid) sid pdr1.lifetime) = srv1
  obtain ⟨res, hres⟩ := SessionRead_returns gob srv1 pdr1 sid hpl1
  rw [hres]
  exact ⟨_, rfl, rfl⟩

theorem step_provider (gob : Utils.Gob) (s : ProviderRedis × Server) (c : Call)
    {pool : Pool} (hpl : s.1.pl = some pool) :
    (step gob s c).1 = (if c.lifetime ≠ 0 then { s.1 with lifetime := c.lifetime } else s.1) := by
  cases c with
  | new sid lifetime =>
    obtain ⟨res, hres, hpdr, -⟩ := SessionNew_lifetime gob s.2 s.1 sid lifetime hpl
    simp only [step, hres, Call.lifetime]
    exact hpdr
  | regenerate oldSid sid lifetime =>
    obtain ⟨res, hres, hpdr⟩ := SessionRegenerate_lifetime gob s.2 s.1 oldSid sid lifetime hpl
    simp only [step, hres, Call.lifetime]
    exact hpdr

/-- After any sequence of calls the lifetime of the provider is the last
override that was not 0, and that of `SessionInit` when there was none. -/
theorem run_lifetime (gob : Utils.Gob) (s : ProviderRedis × Server) (cs : List Call)
    {pool : Pool} (hpl : s.1.pl = some pool) :
    (run gob s cs).1.lifetime = lastOverride s.1.lifetime cs ∧
    (run gob s cs).1.pl = some pool := by
  induction cs generalizing s with
  | nil => exact ⟨rfl, hpl⟩
  | cons c cs ih =>
    have hrun : run gob s (c :: cs) = run gob (step gob s c) cs := rfl
    have hstep := step_provider gob s c hpl
    have hpl' : (step gob s c).1.pl = some pool := by
      rw [hstep, override_pl]; exact hpl
    rw [hrun]
    refine ⟨?_, (ih (step gob s c) hpl').2⟩
    rw [(ih (step gob s c) hpl').1, hstep, override_lifetime]
    rfl

/-- The store `SessionNew(sid, 0)` returns after the calls `cs` has the lifetime
of the last override that was not 0. -/
theorem SessionNew_after (gob : Utils.Gob) (srv : Server) (lifetime : Int) (savePath : String)
    (cs : List Call) (sid : String) :
    ∃ res, SessionNew gob (run gob ((SessionInit srv NewProvider lifetime savePath).1, srv) cs).2
        (run gob ((SessionInit srv NewProvider lifetime savePath).1, srv) cs).1 sid 0
        = .ret res ∧
      ∀ st, res.1.1 = some st → st.lifetime = lastOverride lifetime cs := by
  obtain ⟨hlife, hpl⟩ := run_lifetime gob
    ((SessionInit srv NewProvider lifetime savePath).1, srv) cs rfl
  obtain ⟨res, hres, hpdr, hst⟩ := SessionNew_lifetime gob
    (run gob ((SessionInit srv NewProvider lifetime savePath).1, srv) cs).2
    (run gob ((SessionInit srv NewProvider lifetime savePath).1, srv) cs).1 sid 0 hpl
  refine ⟨res, hres, fun st h => ?_⟩
  rw [(hst st h).1, hpdr, if_neg (by simp), hlife]
  rfl

/-- C22 at a failing input.  The provider is initialised with a max lifetime of
3600 s.  `SessionNew("a", 60)`, the call `TokenStartExpired` makes for a token
of one minute, returns a store with lifetime 60 and leaves 60 as the lifetime of
the provider; the next `SessionNew("b", 0)` returns a store with lifetime 60,
not 3600.  The same holds after `SessionRegenerate("a", "c", 60)`. -/
theorem override_outlives_call :
    initialised.lifetime = 3600 ∧
    (SessionNew plainGob emptyServer initialised "b" 0).returned.map
        (fun res => (res.1.1.map (fun st => st.lifetime), res.2.lifetime))
      = some (some 3600, 3600) ∧
    (SessionNew plainGob emptyServer initialised "a" 60).returned.map
        (fun res => (res.1.1.map (fun st => st.lifetime), res.2.lifetime))
      = some (some 60, 60) ∧
    (SessionNew plainGob (run plainGob (initialised, emptyServer) [.new "a" 60]).2
        (run plainGob (initialised, emptyServer) [.new "a" 60]).1 "b" 0).returned.map
        (fun res => (res.1.1.map (fun st => st.lifetime), res.2.lifetime))
      = some (some 60, 60) ∧
    (SessionNew plainGob (run plainGob (initialised, emptyServer) [.regenerate "a" "c" 60]).2
        (run plainGob (initialised, emptyServer) [.regenerate "a" "c" 60]).1 "b" 0).returned.map
        (fun res => (res.1.1.map (fun st => st.lifetime), res.2.lifetime))
      = some (some 60, 60) := by
  decide

end Redis

namespace File

open Memory (GoValue GoError mget mset mdel)
open Session (Outcome)

/-! ## ProviderFile: ids with a path separator -/

/-- What the guard of `SessionNew` and `SessionRead` does with an id that
contains `.` or `/`: no store, the file system untouched, and a nil error. -/
theorem SessionNew_separator (gob : Utils.Gob) (now : Int) (pdr : ProviderFile) (fs : FS)
    (sid : String) (h : Strings.ContainsAny sid "./" = true) :
    SessionNew gob now pdr fs sid = .ret ((none, none), fs) ∧
    SessionRead gob now pdr fs sid = .ret ((none, none), fs) := by
  unfold SessionNew SessionRead
  simp only [h, if_true, and_self]

/-- An id with a `/` or a `.` is met by the guard. -/
theorem ContainsAny_separator (sid : String) (h : '/' ∈ sid.data ∨ '.' ∈ sid.data) :
    Strings.ContainsAny sid "./" = true := by
  unfold Strings.ContainsAny
  rw [List.any_eq_true]
  rcases h with h | h
  · exact ⟨'/', h, by decide⟩
  · exact ⟨'.', h, by decide⟩

/-- C23 at a failing input.  For the ids `a/b`, `a.b` and `../ab` the calls
`SessionNew` and `SessionRead` return no store and leave the file system
untouched, and the error they return is nil.  The check next to it, on the
length of the id, returns an error.  Through the Manager: with the id prefix
`p/`, `SessionStart` returns a nil store and a nil error and sets the cookie. -/
theorem separator_id_nil_error :
    SessionNew plainGob 5 sessionsDir oneFile "a/b" = .ret ((none, none), oneFile) ∧
    SessionRead plainGob 5 sessionsDir oneFile "a/b" = .ret ((none, none), oneFile) ∧
    SessionNew plainGob 5 sessionsDir oneFile "a.b" = .ret ((none, none), oneFile) ∧
    SessionRead plainGob 5 sessionsDir oneFile "../ab" = .ret ((none, none), oneFile) ∧
    SessionNew plainGob 5 sessionsDir oneFile "a"
      = .ret ((none, some "length of the sid is less than 2"), oneFile) ∧
    (Session.SessionStart (fileProvider plainGob 5) slashManager Session.emptyResponse
      Session.emptyRequest Session.sampleRand 5).returned.map
        (fun rep => (rep.session, rep.err, (Session.setCookieLines rep.w).length))
      = some (none, none, 1) := by
  refine ⟨by decide, by decide, by decide, by decide, by decide, by decide⟩

/-! ## ProviderFile: ids shorter than two bytes -/

theorem byteAt_short (sid : String) (i : Nat) (h : sid.length ≤ i) :
    byteAt sid i = .panics ("runtime error: index out of range [" ++ toString i ++
      "] with length " ++ toString sid.length) := by
  unfold byteAt
  have hnone : sid.data[i]? = none := List.getElem?_eq_none (by simpa using h)
  rw [hnone]

theorem byteAt_of_lt (sid : String) (i : Nat) (h : i < sid.length) :
    ∃ c, byteAt sid i = .ret c := by
  unfold byteAt
  have hlt : i < sid.data.length := by simpa using h
  rw [List.getElem?_eq_getElem hlt]
  exact ⟨_, rfl⟩

/-- The shard path of an id shorter than two bytes cannot be computed: the index
expression panics. -/
theorem sidFile_short (savePath sid : String) (h : sid.length < 2) :
    ∃ msg, sidFile savePath sid = .panics msg ∧ shardDir savePath sid = .panics msg := by
  unfold sidFile shardDir
  by_cases h0 : sid.length ≤ 0
  · rw [byteAt_short sid 0 h0]
    exact ⟨_, rfl, rfl⟩
  · obtain ⟨c, hc⟩ := byteAt_of_lt sid 0 (by omega)
    rw [hc, byteAt_short sid 1 (by omega)]
    exact ⟨_, rfl, rfl⟩

theorem sidFile_long (savePath sid : String) (h : 2 ≤ sid.length) :
    ∃ file dir, sidFile savePath sid = .ret file ∧ shardDir savePath sid = .ret dir := by
  unfold sidFile shardDir
  obtain ⟨c0, hc0⟩ := byteAt_of_lt sid 0 (by omega)
  obtain ⟨c1, hc1⟩ := byteAt_of_lt sid 1 (by omega)
  rw [hc0, hc1]
  exact ⟨_, _, rfl, rfl⟩

/-- On every id shorter than two bytes `SessionExist`, `SessionDestroy` and
`SessionRegenerate` (in either argument) panic; on ids of two bytes or more they
return. -/
theorem short_id (gob : Utils.Gob) (now : Int) (pdr : ProviderFile) (fs : FS)
    (sid other : String) :
    (sid.length < 2 →
      (∃ msg, SessionExist pdr fs sid = .panics msg) ∧
      (∃ msg, SessionDestroy pdr fs sid = .panics msg) ∧
      (∃ msg, SessionRegenerate gob now pdr fs sid other = .panics msg) ∧
      (∃ msg, SessionRegenerate gob now pdr fs other sid = .panics msg)) ∧
    (2 ≤ sid.length →
      (∃ b, SessionExist pdr fs sid = .ret b) ∧
      (∃ res, SessionDestroy pdr fs sid = .ret res) ∧
      (2 ≤ other.length → ∃ res, SessionRegenerate gob now pdr fs sid other = .ret res)) := by
  constructor
  · intro h
    obtain ⟨msg, hfile, hdir⟩ := sidFile_short pdr.savePath sid h
    refine ⟨⟨msg, ?_⟩, ⟨msg, ?_⟩, ⟨msg, ?_⟩, ?_⟩
    · unfold SessionExist; rw [hfile]
    · unfold SessionDestroy; rw [hfile]
    · unfold SessionRegenerate; rw [hdir]
    · unfold SessionRegenerate
      cases hother : shardDir pdr.savePath other with
      | panics m => exact ⟨m, rfl⟩
      | ret dir => simp only [hdir]; exact ⟨msg, rfl⟩
  · intro h
    obtain ⟨file, dir, hfile, hdir⟩ := sidFile_long pdr.savePath sid h
    refine ⟨?_, ?_, ?_⟩
    · unfold SessionExist; rw [hfile]; exact ⟨_, rfl⟩
    · unfold SessionDestroy; rw [hfile]; exact ⟨_, rfl⟩
    · intro ho
      obtain ⟨file2, dir2, -, hdir2⟩ := sidFile_long pdr.savePath other ho
      unfold SessionRegenerate
      simp only [hdir, hdir2]
      split
      · split
        · exact ⟨_, rfl⟩
        · split <;> exact ⟨_, rfl⟩
      · exact ⟨_, rfl⟩

/-- C29 at a failing input.  On the empty id and on the id `a`, `SessionExist`
and `SessionDestroy` panic with an index out of range, and so does
`SessionRegenerate` when either of its ids is `a`.  `getSid` hands the value `a`
of the client cookie to `SessionStart`, which passes it to `SessionExist`.
`SessionNew` has the length check the three methods lack. -/
theorem short_id_panics :
    SessionExist sessionsDir oneFile ""
      = .panics "runtime error: index out of range [0] with length 0" ∧
    SessionExist sessionsDir oneFile "a"
      = .panics "runtime error: index out of range [1] with length 1" ∧
    SessionDestroy sessionsDir oneFile ""
      = .panics "runtime error: index out of range [0] with length 0" ∧
    SessionDestroy sessionsDir oneFile "a"
      = .panics "runtime error: index out of range [1] with length 1" ∧
    SessionRegenerate plainGob 5 sessionsDir oneFile "a" "cd"
      = .panics "runtime error: index out of range [1] with length 1" ∧
    SessionRegenerate plainGob 5 sessionsDir oneFile "ab" "c"
      = .panics "runtime error: index out of range [1] with length 1" ∧
    Session.getSid Session.sampleConfig (Session.requestWithCookie "a") = .ok "a" ∧
    SessionExist sessionsDir oneFile "ab" = .ret true ∧
    SessionNew plainGob 5 sessionsDir oneFile "a"
      = .ret ((none, some "length of the sid is less than 2"), oneFile) := by
  refine ⟨by decide, by decide, by decide, by decide, by decide, by decide, by decide,
    by decide, by decide⟩

/-! ## The file provider under NewManager -/

/-- The second `SessionInit` on the object `filePdr` replaces what the first one
stored. -/
theorem SessionInit_twice (pdr : ProviderFile) (l1 l2 : Int) (p1 p2 : String) :
    (SessionInit (SessionInit pdr l1 p1).1 l2 p2).1 = { lifeTime := l2, savePath := p2 } :=
  rfl

/-- C30 at a failing input.  `NewManager("file", cf)` with `ProviderConfig`
`/var/sessions` and `ProviderConfigMgr` `/var/tokens`: `GetProvider` returns the
one object `filePdr` both times, so the primary provider of the Manager is the
secondary one and its save path is `/var/tokens`.  With the memory backend the
primary provider keeps `/var/sessions` and the secondary is an object of its
own. -/
theorem secondary_overwrites_primary :
    Session.NewManager (fileProvider plainGob 0) (fun _ => emptyWorld) "file" twoDirsConfig
      = .ret (.ok { provider := { pdr := { lifeTime := 3600, savePath := "/var/tokens" },
                                  fs := [], stores := [] },
                    providerMgr := .same, config := twoDirsConfig }) ∧
    twoDirsConfig.ProviderConfig = "/var/sessions" ∧
    (Session.NewManager (Session.memoryProvider 0) (fun _ => Memory.NewProvider) "memory"
      twoDirsConfig).returned.map
        (fun res => res.toOption.map
          (fun m => (m.provider.savePath, m.mgr.map (fun pdr => pdr.savePath))))
      = some (some ("/var/sessions", some "/var/tokens")) := by
  decide

end File

namespace MySQL

open Memory (GoError)
open Session (Outcome)

/-! ## ProviderMySQL.SessionInit -/

/-- When `SessionInit` returns the error of the table-creation statement: when
its message has none of the characters of `already exists`. -/
theorem SessionInit_error_iff (db : Database) (pdr : ProviderMySQL) (lifetime : Int)
    (savePath msg : String) (pdr1 : ProviderMySQL) :
    SessionInit db pdr lifetime savePath = .ret (pdr1, some msg) ↔
      db.Open savePath = none ∧ db.Exec sqlInit = some msg ∧
      Strings.ContainsAny msg "already exists" = false ∧
      pdr1 = { lifetime := lifetime, savePath := savePath } := by
  simp only [SessionInit, connectInit]
  by_cases hopen : db.Open savePath = none
  · simp only [hopen, Option.isNone_none, if_true, true_and]
    by_cases hexec : db.Exec sqlInit = none
    · rw [hexec]
      constructor
      · intro h; cases h
      · rintro ⟨h, -⟩; cases h
    · obtain ⟨m, hm⟩ := Option.ne_none_iff_exists'.1 hexec
      rw [hm]
      simp only
      by_cases hc : Strings.ContainsAny m "already exists" = true
      · rw [if_pos hc]
        constructor
        · intro h; cases h
        · rintro ⟨h1, h2, -⟩
          cases h1
          rw [hc] at h2
          cases h2
      · rw [if_neg hc]
        simp only [Bool.not_eq_true] at hc
        constructor
        · intro h
          cases h
          exact ⟨rfl, hc, rfl⟩
        · rintro ⟨h1, -, h3⟩
          cases h1
          rw [h3]
  · have hsome : (db.Open savePath).isNone = false := by
      rw [Option.isNone_eq_false_iff, Option.isSome_iff_ne_none]
      exact hopen
    simp only [hsome, Bool.false_eq_true, if_false]
    constructor
    · intro h; cases h
    · rintro ⟨h, -⟩; exact absurd h hopen

/-- C24 at a failing input.  The table-creation statement fails because the
connection is refused; the message of the error does not say that the table
exists, and `SessionInit` returns nil.  It also returns nil when the statement
succeeds and when the table exists. -/
theorem connection_failure_swallowed :
    refusing.Exec sqlInit = some "dial tcp 127.0.0.1:3306: connect: connection refused" ∧
    tableExists (refusing.Exec sqlInit) = false ∧
    SessionInit refusing NewProvider 3600 "root@tcp(127.0.0.1:3306)/app"
      = .ret ({ lifetime := 3600, savePath := "root@tcp(127.0.0.1:3306)/app" }, none) ∧
    tableExists (withTable.Exec sqlInit) = true ∧
    SessionInit withTable NewProvider 3600 "root@tcp(127.0.0.1:3306)/app"
      = .ret ({ lifetime := 3600, savePath := "root@tcp(127.0.0.1:3306)/app" }, none) ∧
    SessionInit fresh NewProvider 3600 "root@tcp(127.0.0.1:3306)/app"
      = .ret ({ lifetime := 3600, savePath := "root@tcp(127.0.0.1:3306)/app" }, none) := by
  decide

end MySQL
